import Mathlib

/-!
# Alpine VTK-m renderer: camera solving, visibility ordering, render-state tracking

A shallow embedding of the coordination logic of
`src/alpine/pipelines/alpine_vtkm_renderer.cpp` and theorems about it.

Conventions of the embedding.

* Floating-point values (`vtkm::Float32`, `vtkm::Float64`, `float`, `double`) are
  embedded as elements of a linearly ordered field `K` with exact arithmetic; rounding,
  overflow and NaN are outside the model.  The definitions are polymorphic in `K`, so they
  evaluate on rational inputs.
* The numeric library routines the code calls (`sqrt` inside `vtkm::Magnitude` and
  `vtkm::Normalize`, `std::tan`) are parameters of the definitions that use them.
* Depth values handled by the visibility sort are only compared, never computed with, so
  they are embedded in an arbitrary type (with a linear order where the order matters).
* The text that a stream writes for a `float` is a parameter `fmt` of the definitions that
  build image names; `streamFloat` is the default conversion of the C++ library (`%g` with
  6 significant digits) on exact rational values, used where concrete names are compared.
-/

namespace Alpine

/-! ## Visibility ordering (`Renderer::FindVisibilityOrdering`, rank 0 part) -/

/-- The record sorted by rank 0: a process id together with its local minimum depth. -/
structure VTKMVisibility (α : Type) where
  m_rank : Nat
  m_minz : α
deriving DecidableEq, Repr

/-- Model of the C library routine `std::qsort` driven by a three-way comparator
`cmp` (negative, zero, positive): the array is rearranged into ascending order with respect
to `cmp`.  The model is the insertion sort on the relation `cmp a b ≤ 0`. -/
def qsort {β : Type} (cmp : β → β → Int) (xs : List β) : List β :=
  xs.insertionSort (fun a b => cmp a b ≤ 0)

/-- The loop `vis_order[i].m_rank = i; vis_order[i].m_minz = z_array[i]` over the gathered
depth array. -/
def fillVisOrder {α : Type} (z_array : List α) : List (VTKMVisibility α) :=
  z_array.enum.map (fun p => { m_rank := p.1, m_minz := p.2 })

/-- The rank 0 block of `FindVisibilityOrdering`: fill the records from the gathered depths,
`qsort` them with the comparator, and copy the ranks out in sorted order.  The result is the
array that is broadcast to every process. -/
def ComputeGlobalOrder {α : Type} (cmp : VTKMVisibility α → VTKMVisibility α → Int)
    (z_array : List α) : List Nat :=
  (qsort cmp (fillVisOrder z_array)).map (fun v => v.m_rank)

/-- Modelled from the spec: the comparator `VTKMCompareVisibility` handed to `std::qsort`,
which is declared outside the source file at hand.  Following the specification, process
records are ordered ascending by depth and ties are broken by process id ascending. -/
def VTKMCompareVisibility {α : Type} [LinearOrder α]
    (a b : VTKMVisibility α) : Int :=
  if a.m_minz < b.m_minz then -1
  else if b.m_minz < a.m_minz then 1
  else if a.m_rank < b.m_rank then -1
  else if b.m_rank < a.m_rank then 1
  else 0

/-! ## Render-state tracking (`Renderer::Render`, `Renderer::CountImages`) -/

/-- The render modes of `RendererType` that the source file names. -/
inductive RendererType where
  | VOLUME
  | RAYTRACER
  | RASTERIZER
deriving DecidableEq, Repr

/-- Three components of a `vtkmVec3f`, indexed 0, 1, 2 in the source. -/
structure Vec3 (K : Type) where
  x : K
  y : K
  z : K
deriving DecidableEq, Repr

/-- The camera request `m_camera` (a `conduit::Node`): every child is optional. -/
structure CameraNode (K : Type) where
  type : Option String := none
  phi : Option Int := none
  theta : Option Int := none
  look_at : Option (Vec3 K) := none
  position : Option (Vec3 K) := none
  up : Option (Vec3 K) := none
  fov : Option K := none
  xpan : Option K := none
  ypan : Option K := none
  zoom : Option K := none
  nearplane : Option K := none
  farplane : Option K := none

/-- Conversion of an integer to the 32-bit `int` of the source (two's complement). -/
def toInt32 (v : Int) : Int :=
  (v + 2 ^ 31) % 2 ^ 32 - 2 ^ 31

/-- `Renderer::CountImages`: one image, or `phi * theta` images for a camera of type
`cinema`; a cinema camera without `phi` or without `theta` raises the fatal error. -/
def CountImages {K : Type} (m_camera : CameraNode K) : Except String Int :=
  match m_camera.type with
  | some ty =>
    if ty = "cinema" then
      match m_camera.phi, m_camera.theta with
      | some phi64, some theta64 =>
        let phi := toInt32 phi64
        let theta := toInt32 theta64
        .ok (toInt32 (phi * theta))
      | _, _ => .error "Camera with cinema type must have phi and theta defined"
    else .ok 1
  | none => .ok 1

/-- The snapshot `m_last_render` of the previous call. -/
structure RenderState where
  m_render_type : RendererType
  m_plot_dims : Int
  m_height : Int
  m_width : Int
  m_image_count : Int
deriving DecidableEq, Repr

/-- The arguments of `Renderer::Render` that the dirty-state logic reads. -/
structure RenderRequest where
  image_height : Int
  image_width : Int
  mode : RendererType
  dims : Int
deriving DecidableEq, Repr

/-- The flags computed at the start of `Render`: `render_dirty` (reinitialise) and
`image_count_dirty` (image count changed). -/
structure DirtyFlags where
  render_dirty : Bool
  image_count_dirty : Bool
deriving DecidableEq, Repr

/-- The flag computation of `Render`: `render_dirty` starts false and is raised by a changed
render type and by a changed plot dimensionality; `image_count_dirty` is raised by a changed
image count. -/
def Evaluate (m_last_render : RenderState) (req : RenderRequest) (image_count : Int) :
    DirtyFlags :=
  let render_dirty := false
  let image_count_dirty := false
  let render_dirty := if req.mode ≠ m_last_render.m_render_type then true else render_dirty
  let render_dirty := if req.dims ≠ m_last_render.m_plot_dims then true else render_dirty
  let image_count_dirty :=
    if m_last_render.m_image_count ≠ image_count then true else image_count_dirty
  { render_dirty := render_dirty, image_count_dirty := image_count_dirty }

/-- The five assignments to `m_last_render` in `Render`. -/
def Commit (req : RenderRequest) (image_count : Int) : RenderState :=
  { m_render_type := req.mode
    m_plot_dims := req.dims
    m_height := req.image_height
    m_width := req.image_width
    m_image_count := image_count }

/-- The dirty-state block of `Render`: count the images of the camera request (which may
raise the fatal error), compute the flags against `m_last_render`, and record the request. -/
def trackRender {K : Type} (m_last_render : RenderState) (req : RenderRequest)
    (m_camera : CameraNode K) : Except String (DirtyFlags × RenderState) :=
  match CountImages m_camera with
  | .error e => .error e
  | .ok image_count => .ok (Evaluate m_last_render req image_count, Commit req image_count)

/-! ## Vectors, bounds and the camera -/

namespace Vec3

variable {K : Type}

/-- Component access `v[i]`; the source only uses the indices 0, 1 and 2. -/
def get (v : Vec3 K) (i : Nat) : K :=
  match i with
  | 0 => v.x
  | 1 => v.y
  | _ => v.z

/-- Component assignment `v[i] = a`. -/
def set (v : Vec3 K) (i : Nat) (a : K) : Vec3 K :=
  match i with
  | 0 => { v with x := a }
  | 1 => { v with y := a }
  | _ => { v with z := a }

/-- Componentwise sum. -/
def add [Add K] (a b : Vec3 K) : Vec3 K := ⟨a.x + b.x, a.y + b.y, a.z + b.z⟩

/-- Componentwise difference. -/
def sub [Sub K] (a b : Vec3 K) : Vec3 K := ⟨a.x - b.x, a.y - b.y, a.z - b.z⟩

/-- Componentwise negation. -/
def neg [Neg K] (a : Vec3 K) : Vec3 K := ⟨-a.x, -a.y, -a.z⟩

/-- Product of a vector with a scalar, `v * s`. -/
def scale [Mul K] (a : Vec3 K) (s : K) : Vec3 K := ⟨a.x * s, a.y * s, a.z * s⟩

end Vec3

/-- The routine `vtkm::Magnitude`: the square root of the dot product of a vector with
itself; the square root routine is the parameter `sqrt`. -/
def Magnitude {K : Type} [Add K] [Mul K] (sqrt : K → K) (v : Vec3 K) : K :=
  sqrt (v.x * v.x + v.y * v.y + v.z * v.z)

/-- The routine `vtkm::Normalize`: the vector times the reciprocal of its magnitude. -/
def Normalize {K : Type} [Add K] [Mul K] [One K] [Div K] (sqrt : K → K) (v : Vec3 K) :
    Vec3 K :=
  v.scale (1 / Magnitude sqrt v)

/-- A `vtkm::Range`. -/
structure Range (K : Type) where
  Min : K
  Max : K
deriving DecidableEq, Repr

/-- A `vtkm::Bounds`: one range per axis. -/
structure Bounds (K : Type) where
  X : Range K
  Y : Range K
  Z : Range K
deriving DecidableEq, Repr

/-- The state of a `vtkmCamera` that the renderer reads and writes. -/
structure vtkmCamera (K : Type) where
  LookAt : Vec3 K
  Position : Vec3 K
  ViewUp : Vec3 K
  FieldOfView : K
  XPan : K
  YPan : K
  Zoom : K
  ClippingRange : Range K
deriving DecidableEq, Repr

section CameraSolver

variable {K : Type} [LinearOrderedField K]

/-- The array `bounding_box[8]` of `SetDefaultClippingPlane`, in the order of the source. -/
def boundingBox (b : Bounds K) : List (Vec3 K) :=
  [ ⟨b.X.Min, b.Y.Min, b.Z.Min⟩, ⟨b.X.Min, b.Y.Min, b.Z.Max⟩,
    ⟨b.X.Min, b.Y.Max, b.Z.Min⟩, ⟨b.X.Min, b.Y.Max, b.Z.Max⟩,
    ⟨b.X.Max, b.Y.Min, b.Z.Min⟩, ⟨b.X.Max, b.Y.Min, b.Z.Max⟩,
    ⟨b.X.Max, b.Y.Max, b.Z.Min⟩, ⟨b.X.Max, b.Y.Max, b.Z.Max⟩ ]

/-- The loop of `SetDefaultClippingPlane`: starting from `0.01`, the running maximum of the
distances from `position` to the corners. -/
def maxCornerDistance (sqrt : K → K) (position : Vec3 K) (corners : List (Vec3 K)) : K :=
  corners.foldl (fun max_distance c => max max_distance (Magnitude sqrt (c.sub position)))
    (1 / 100)

/-- `Renderer::SetDefaultClippingPlane`: near plane `0.01`, far plane `1.1` times the
largest distance from the camera position to a corner of `m_spatial_bounds`. -/
def SetDefaultClippingPlane (sqrt : K → K) (m_spatial_bounds : Bounds K)
    (camera : vtkmCamera K) : vtkmCamera K :=
  let position := camera.Position
  let max_distance := maxCornerDistance sqrt position (boundingBox m_spatial_bounds)
  let max_distance := max_distance * (11 / 10)
  { camera with ClippingRange := { Min := 1 / 100, Max := max_distance } }

/-- The vector `total_extent` of `SetDefaultCameraView`. -/
def totalExtent (b : Bounds K) : Vec3 K :=
  ⟨b.X.Max - b.X.Min, b.Y.Max - b.Y.Min, b.Z.Max - b.Z.Min⟩

/-- The vector `bounds_min`. -/
def boundsMin (b : Bounds K) : Vec3 K := ⟨b.X.Min, b.Y.Min, b.Z.Min⟩

/-- The index `min_dim`: starts at 0 and moves to an axis of strictly smaller extent. -/
def minDim (total_extent : Vec3 K) : Nat :=
  let min_dim := 0
  let min_dim := if total_extent.get 1 < total_extent.get min_dim then 1 else min_dim
  let min_dim := if total_extent.get 2 < total_extent.get min_dim then 2 else min_dim
  min_dim

/-- The index `x_dim`: starts at 0 and moves to an axis of strictly larger extent. -/
def xDim (total_extent : Vec3 K) : Nat :=
  let x_dim := 0
  let x_dim := if total_extent.get 1 > total_extent.get x_dim then 1 else x_dim
  let x_dim := if total_extent.get 2 > total_extent.get x_dim then 2 else x_dim
  x_dim

/-- The index `up_dim`: the last `i` in 0, 1, 2 with `i != x_dim && i != min_dim`. -/
def upDim (x_dim min_dim : Nat) : Nat :=
  (List.range 3).foldl (fun up_dim i => if i ≠ x_dim ∧ i ≠ min_dim then i else up_dim) 0

/-- The local variable `up` of `SetDefaultCameraView`: zero with `up[up_dim] = 1`. -/
def chosenUp (b : Bounds K) : Vec3 K :=
  let total_extent := totalExtent b
  (⟨0, 0, 0⟩ : Vec3 K).set (upDim (xDim total_extent) (minDim total_extent)) 1

/-- The flag `is_2d`. -/
def is2D (b : Bounds K) : Bool :=
  decide ((totalExtent b).get (minDim (totalExtent b)) = 0)

/-- The vector `pos` built by the loop of the 2D branch. -/
def pos2D (b : Bounds K) : Vec3 K :=
  let total_extent := totalExtent b
  let bounds_min := boundsMin b
  let f := fun i =>
    if total_extent.get i ≠ 0 then bounds_min.get i + total_extent.get i / 2
    else total_extent.get i
  ⟨f 0, f 1, f 2⟩

/-- `Renderer::SetDefaultCameraView` on the (global) bounds `m_spatial_bounds`, acting on
the member camera `m_vtkm_camera`.  The vector `up` is computed in the source but not
stored into the camera, so it does not occur in the result. -/
def SetDefaultCameraView (sqrt tan : K → K) (m_spatial_bounds : Bounds K)
    (m_vtkm_camera : vtkmCamera K) : vtkmCamera K :=
  let total_extent := totalExtent m_spatial_bounds
  let mag := Magnitude sqrt total_extent
  let n_total_extent := Normalize sqrt total_extent
  let bounds_min := boundsMin m_spatial_bounds
  let min_dim := minDim total_extent
  let is_2d := is2D m_spatial_bounds
  let cam := { m_vtkm_camera with LookAt := bounds_min.add (n_total_extent.scale (mag * (1 / 2))) }
  let x_dim := xDim total_extent
  let default_fov := cam.FieldOfView
  let cam :=
    if is_2d then
      let pos := pos2D m_spatial_bounds
      let pi : K := 314159 / 100000
      let theta := (default_fov + 4) * (pi / 180)
      let min_pos := tan theta * total_extent.get x_dim / 2
      let cam := { cam with LookAt := pos }
      let pos := pos.set min_dim (bounds_min.get min_dim + min_pos)
      { cam with Position := pos }
    else
      let position := n_total_extent.neg.scale (mag * (16 / 10))
      let position := position.set 0 (position.get 0 + 1 / 1000)
      let position := position.set 1 (position.get 1 + 1 / 1000)
      let position := position.set 2 (position.get 2 + (1 / 20) * mag)
      { cam with Position := position }
  SetDefaultClippingPlane sqrt m_spatial_bounds cam

/-- The camera position that the specification gives for the 3D case, written from its
words: look-at minus `N * (M * 1.6)` plus the jitter `(0.001, 0.001, 0.05 * M)`. -/
def specPosition3D (sqrt : K → K) (b : Bounds K) (look_at : Vec3 K) : Vec3 K :=
  let M := Magnitude sqrt (totalExtent b)
  let N := Normalize sqrt (totalExtent b)
  (look_at.sub (N.scale (M * (16 / 10)))).add ⟨1 / 1000, 1 / 1000, (1 / 20) * M⟩

/-- The state of a freshly constructed `vtkmCamera` (look-at at the origin, position
`(0, 0, 1)`, up `(0, 1, 0)`, field of view 60 degrees, no pan, zoom 1), used as the concrete
camera on which the solver is evaluated. -/
def defaultCamera (K : Type) [LinearOrderedField K] : vtkmCamera K :=
  { LookAt := ⟨0, 0, 0⟩, Position := ⟨0, 0, 1⟩, ViewUp := ⟨0, 1, 0⟩, FieldOfView := 60,
    XPan := 0, YPan := 0, Zoom := 1, ClippingRange := ⟨1 / 100, 1000⟩ }

/-- The centre of a bounding box. -/
def boxCenter (b : Bounds K) : Vec3 K :=
  ⟨(b.X.Min + b.X.Max) / 2, (b.Y.Min + b.Y.Max) / 2, (b.Z.Min + b.Z.Max) / 2⟩

end CameraSolver

/-! ## Cinema sweep and camera overlay (`SetupCameras`, `ParseCameraNode`) -/

section Cinema

variable {K : Type} [LinearOrderedField K]

/-- A `vtkm::Matrix<vtkm::Float32,4,4>`: entry `(row, column)`. -/
def Mat4 (K : Type) : Type := Fin 4 → Fin 4 → K

/-- The routine `vtkm::MatrixMultiply` on two matrices: the product `leftFactor * rightFactor`
(row of the left factor times column of the right factor). -/
def MatrixMultiply (leftFactor rightFactor : Mat4 K) : Mat4 K :=
  fun i j => leftFactor i 0 * rightFactor 0 j + leftFactor i 1 * rightFactor 1 j +
    leftFactor i 2 * rightFactor 2 j + leftFactor i 3 * rightFactor 3 j

/-- The routine `vtkm::Transform3DPoint`: the matrix applied to the homogeneous point
`(p, 1)`, rows 0 to 2. -/
def Transform3DPoint (m : Mat4 K) (p : Vec3 K) : Vec3 K :=
  ⟨m 0 0 * p.x + m 0 1 * p.y + m 0 2 * p.z + m 0 3 * 1,
   m 1 0 * p.x + m 1 1 * p.y + m 1 2 * p.z + m 1 3 * 1,
   m 2 0 * p.x + m 2 1 * p.y + m 2 2 * p.z + m 2 3 * 1⟩

/-- The routine `vtkm::Transform3DVector`: the matrix applied to the homogeneous vector
`(v, 0)`, rows 0 to 2. -/
def Transform3DVector (m : Mat4 K) (v : Vec3 K) : Vec3 K :=
  ⟨m 0 0 * v.x + m 0 1 * v.y + m 0 2 * v.z + m 0 3 * 0,
   m 1 0 * v.x + m 1 1 * v.y + m 1 2 * v.z + m 1 3 * 0,
   m 2 0 * v.x + m 2 1 * v.y + m 2 2 * v.z + m 2 3 * 0⟩

/-- The routine `vtkm::Transform3DRotateY`: the rotation about the y axis by an angle in
degrees; `pi_180` is the library constant for one degree in radians, `sin` and `cos` the
library routines. -/
def Transform3DRotateY (sin cos : K → K) (pi_180 : K) (angleDegrees : K) : Mat4 K :=
  let angleRadians := pi_180 * angleDegrees
  ![![cos angleRadians, 0, sin angleRadians, 0],
    ![0, 1, 0, 0],
    ![-sin angleRadians, 0, cos angleRadians, 0],
    ![0, 0, 0, 1]]

/-- The routine `vtkm::Transform3DRotateZ`: the rotation about the z axis by an angle in
degrees. -/
def Transform3DRotateZ (sin cos : K → K) (pi_180 : K) (angleDegrees : K) : Mat4 K :=
  let angleRadians := pi_180 * angleDegrees
  ![![cos angleRadians, -sin angleRadians, 0, 0],
    ![sin angleRadians, cos angleRadians, 0, 0],
    ![0, 0, 1, 0],
    ![0, 0, 0, 1]]

/-- `vtkm::Range::Length`: `Max - Min` for a non-empty range, 0 otherwise. -/
def Range.Length (r : Range K) : K :=
  if r.Min ≤ r.Max then r.Max - r.Min else 0

/-- One entry of `m_images`: the camera and the name of an image. -/
structure ImageData (K : Type) where
  m_camera : vtkmCamera K
  m_image_name : String

/-- The test `m_camera.dtype().is_empty()`: the request has no child at all. -/
def CameraNode.isEmpty (c : CameraNode K) : Bool :=
  c.type.isNone && c.phi.isNone && c.theta.isNone && c.look_at.isNone && c.position.isNone &&
  c.up.isNone && c.fov.isNone && c.xpan.isNone && c.ypan.isNone && c.zoom.isNone &&
  c.nearplane.isNone && c.farplane.isNone

/-- The method `vtkmCamera::Pan` of the library: the pan offsets grow by `dx` and `dy`. -/
def vtkmCamera.Pan (c : vtkmCamera K) (dx dy : K) : vtkmCamera K :=
  { c with XPan := c.XPan + dx, YPan := c.YPan + dy }

/-- The method `vtkmCamera::Zoom` of the library: the zoom is multiplied by `4 ^ zoom`;
the power routine is the parameter `pow4`. -/
def vtkmCamera.doZoom (pow4 : K → K) (c : vtkmCamera K) (zoom : K) : vtkmCamera K :=
  { c with Zoom := c.Zoom * pow4 zoom }

/-- The pan block of `ParseCameraNode`: when `xpan` or `ypan` is present, the pair
`(xpan, ypan)` of local variables handed to `Pan`.  Both start at 0; the value of the
child `xpan` is stored into the variable `xpan`, and so is the value of the child `ypan`. -/
def panArguments (camera : CameraNode K) : Option (K × K) :=
  if camera.xpan.isSome || camera.ypan.isSome then
    let xpan : K := 0
    let ypan : K := 0
    let xpan := match camera.xpan with
      | some a => a
      | none => xpan
    let xpan := match camera.ypan with
      | some b => b
      | none => xpan
    some (xpan, ypan)
  else none

/-- The part of `ParseCameraNode` before the clipping planes are reset: copy of the member
camera, then look-at, position, up (normalised), field of view, pan and zoom from the
children that are present. -/
def applyOverlayFields (sqrt pow4 : K → K) (camera : CameraNode K)
    (m_vtkm_camera : vtkmCamera K) : vtkmCamera K :=
  let res := m_vtkm_camera
  let res := match camera.look_at with
    | some look_at => { res with LookAt := look_at }
    | none => res
  let res := match camera.position with
    | some position => { res with Position := position }
    | none => res
  let res := match camera.up with
    | some up => { res with ViewUp := Normalize sqrt up }
    | none => res
  let res := match camera.fov with
    | some fov => { res with FieldOfView := fov }
    | none => res
  let res := match panArguments camera with
    | some (xpan, ypan) => res.Pan xpan ypan
    | none => res
  let res := match camera.zoom with
    | some zoom => res.doZoom pow4 zoom
    | none => res
  res

/-- `Renderer::ParseCameraNode`: the overlay fields, then the default clipping planes for
the bounds `m_spatial_bounds`, then the children `nearplane` and `farplane`. -/
def ParseCameraNode (sqrt pow4 : K → K) (m_spatial_bounds : Bounds K) (camera : CameraNode K)
    (m_vtkm_camera : vtkmCamera K) : vtkmCamera K :=
  let res := applyOverlayFields sqrt pow4 camera m_vtkm_camera
  let res := SetDefaultClippingPlane sqrt m_spatial_bounds res
  let res := match camera.nearplane with
    | some nearplane => { res with ClippingRange := { res.ClippingRange with Min := nearplane } }
    | none => res
  let res := match camera.farplane with
    | some farplane => { res with ClippingRange := { res.ClippingRange with Max := farplane } }
    | none => res
  res

/-- The value `radius` of `SetupCameras`: the magnitude of the extent times `2.5 / 2.0`. -/
def cinemaRadius (sqrt : K → K) (m_spatial_bounds : Bounds K) : K :=
  let totalExtent : Vec3 K :=
    ⟨m_spatial_bounds.X.Length, m_spatial_bounds.Y.Length, m_spatial_bounds.Z.Length⟩
  Magnitude sqrt totalExtent * (25 / 10) / 2

/-- The angle `phi` of the image `(p, t)`: `phi_inc * p` with `phi_inc = 180 / num_phi`. -/
def cinemaPhi (num_phi : Int) (p : Nat) : K :=
  let phi_inc : K := 180 / (num_phi : K)
  phi_inc * (p : K)

/-- The angle `theta` of the image `(p, t)`: `-180 + theta_inc * t` with
`theta_inc = 360 / num_theta`. -/
def cinemaTheta (num_theta : Int) (t : Nat) : K :=
  let theta_inc : K := 360 / (num_theta : K)
  (-180 : K) + theta_inc * (t : K)

/-- The matrix `rot` of `SetupCameras`: `MatrixMultiply(phi_rot, theta_rot)`. -/
def cinemaRot (sin cos : K → K) (pi_180 : K) (phi theta : K) : Mat4 K :=
  let phi_rot := Transform3DRotateY sin cos pi_180 phi
  let theta_rot := Transform3DRotateZ sin cos pi_180 theta
  MatrixMultiply phi_rot theta_rot

/-- The camera that the body of the double loop of `SetupCameras` stores for the angles
`phi` and `theta`: a copy of the member camera with the rotated and normalised up vector,
the rotated position scaled by `radius` and moved to the centre, the look-at at the centre,
and the default clipping planes. -/
def cinemaCamera (sqrt sin cos : K → K) (pi_180 : K) (m_spatial_bounds : Bounds K)
    (m_vtkm_camera : vtkmCamera K) (phi theta : K) : vtkmCamera K :=
  let center := boxCenter m_spatial_bounds
  let radius := cinemaRadius sqrt m_spatial_bounds
  let cam := m_vtkm_camera
  let pos : Vec3 K := ⟨0, 0, 1⟩
  let up : Vec3 K := ⟨1, 0, 0⟩
  let rot := cinemaRot sin cos pi_180 phi theta
  let up := Transform3DVector rot up
  let up := Normalize sqrt up
  let cam := { cam with ViewUp := up }
  let pos := Transform3DPoint rot pos
  let pos := (pos.scale radius).add center
  let cam := { cam with Position := pos }
  let cam := { cam with LookAt := center }
  SetDefaultClippingPlane sqrt m_spatial_bounds cam

/-- The name that the loop body stores: the text of `phi`, `_`, the text of `theta`, `_`,
then the base name; `fmt` is the stream output of a `float`. -/
def cinemaName (fmt : K → String) (phi theta : K) (image_name : String) : String :=
  fmt phi ++ "_" ++ fmt theta ++ "_" ++ image_name

/-- The image indices `i = p * num_theta + t` in the order in which the double loop of
`SetupCameras` visits them, each with its pair `(p, t)`. -/
def cinemaIndices (num_phi num_theta : Int) : List (Nat × Nat × Nat) :=
  (List.range num_phi.toNat).flatMap fun p =>
    (List.range num_theta.toNat).map fun t => (p * num_theta.toNat + t, p, t)

/-- `Renderer::SetupCameras`.  Without the type `cinema`, image 0 gets the base name and
the member camera (empty request) or the parsed camera.  With it, `phi` and `theta` must be
present, their product must equal the size of `m_images`, and the double loop stores a
camera and a name at every index `p * num_theta + t`.  A store outside `m_images`, which
the source leaves undefined, changes nothing in the model. -/
def SetupCameras (sqrt pow4 sin cos : K → K) (pi_180 : K) (fmt : K → String)
    (m_spatial_bounds : Bounds K) (m_camera : CameraNode K) (m_vtkm_camera : vtkmCamera K)
    (m_images : List (ImageData K)) (image_name : String) :
    Except String (List (ImageData K)) :=
  let is_cinema := decide (m_camera.type = some "cinema")
  if !is_cinema then
    let cam :=
      if m_camera.isEmpty then m_vtkm_camera
      else ParseCameraNode sqrt pow4 m_spatial_bounds m_camera m_vtkm_camera
    .ok (m_images.modifyHead fun _ => { m_camera := cam, m_image_name := image_name })
  else
    match m_camera.phi, m_camera.theta with
    | some phi64, some theta64 =>
      let num_phi := toInt32 phi64
      let num_theta := toInt32 theta64
      let images := toInt32 (num_phi * num_theta)
      if images < 0 ∨ images.toNat ≠ m_images.length then
        .error "Internal error: number of images does not match m_images"
      else
        .ok ((cinemaIndices num_phi num_theta).foldl
          (fun imgs ipt =>
            let phi : K := cinemaPhi num_phi ipt.2.1
            let theta : K := cinemaTheta num_theta ipt.2.2
            imgs.set ipt.1
              { m_camera := cinemaCamera sqrt sin cos pi_180 m_spatial_bounds m_vtkm_camera
                  phi theta
                m_image_name := cinemaName fmt phi theta image_name })
          m_images)
    | _, _ => .error "Camera with cinema type must have phi and theta defined"

/-- The cinema camera position in the words of the specification: the centre plus `radius`
times `Rz(theta) * Ry(phi)` applied to `(0, 0, 1)` (rotation about y first, about z
second). -/
def specCinemaPosition (sqrt sin cos : K → K) (pi_180 : K) (b : Bounds K) (phi theta : K) :
    Vec3 K :=
  let rot := MatrixMultiply (Transform3DRotateZ sin cos pi_180 theta)
    (Transform3DRotateY sin cos pi_180 phi)
  ((Transform3DPoint rot ⟨0, 0, 1⟩).scale (cinemaRadius sqrt b)).add (boxCenter b)

/-- The cinema up vector in the words of the specification: the normalisation of
`Rz(theta) * Ry(phi)` applied to `(1, 0, 0)`. -/
def specCinemaUp (sqrt sin cos : K → K) (pi_180 : K) (phi theta : K) : Vec3 K :=
  let rot := MatrixMultiply (Transform3DRotateZ sin cos pi_180 theta)
    (Transform3DRotateY sin cos pi_180 phi)
  Normalize sqrt (Transform3DVector rot ⟨1, 0, 0⟩)

/-- The maximum corner distance in the words of the specification: the largest distance
from `position` to a corner, without the floor `0.01` from which the loop of
`SetDefaultClippingPlane` starts. -/
def specMaxCornerDistance (sqrt : K → K) (position : Vec3 K) (corners : List (Vec3 K)) : K :=
  corners.foldl (fun m c => max m (Magnitude sqrt (c.sub position))) 0

/-- The dot product of two vectors. -/
def Vec3.dot (a b : Vec3 K) : K := a.x * b.x + a.y * b.y + a.z * b.z

end Cinema

/-! ## Collective reductions, local depth, performance model, process count -/

/-- Model of `MPI_Allreduce` with `MPI_MIN` on one `double` per process: `vals` lists the
value of every process, `recv` is the initial content of the receive variable, which the
reduction overwrites with the minimum. -/
def allreduceMin {K : Type} [LinearOrder K] (recv : K) (vals : List K) : K :=
  match vals with
  | [] => recv
  | v :: vs => vs.foldl min v

/-- Model of `MPI_Allreduce` with `MPI_MAX` on one `double` per process. -/
def allreduceMax {K : Type} [LinearOrder K] (recv : K) (vals : List K) : K :=
  match vals with
  | [] => recv
  | v :: vs => vs.foldl max v

/-- The six reductions of `SetDefaultCameraView` in the parallel build: every receive
variable starts at 0 and is overwritten by the minimum or maximum over the processes. -/
def reduceSpatialBounds {K : Type} [LinearOrder K] [Zero K] (locals : List (Bounds K)) :
    Bounds K :=
  { X := ⟨allreduceMin 0 (locals.map fun l => l.X.Min),
          allreduceMax 0 (locals.map fun l => l.X.Max)⟩
    Y := ⟨allreduceMin 0 (locals.map fun l => l.Y.Min),
          allreduceMax 0 (locals.map fun l => l.Y.Max)⟩
    Z := ⟨allreduceMin 0 (locals.map fun l => l.Z.Min),
          allreduceMax 0 (locals.map fun l => l.Z.Max)⟩ }

/-- `Renderer::SetParallelPlotExtents`: the scalar range reduced over the processes. -/
def SetParallelPlotExtents {K : Type} [LinearOrder K] [Zero K] (locals : List (Range K)) :
    Range K :=
  ⟨allreduceMin 0 (locals.map fun l => l.Min), allreduceMax 0 (locals.map fun l => l.Max)⟩

/-- Containment of axis-aligned boxes: on every axis the range of `inner` lies within the
range of `outer`. -/
def boxContains {K : Type} [LinearOrder K] (outer inner : Bounds K) : Prop :=
  outer.X.Min ≤ inner.X.Min ∧ inner.X.Max ≤ outer.X.Max ∧
  outer.Y.Min ≤ inner.Y.Min ∧ inner.Y.Max ≤ outer.Y.Max ∧
  outer.Z.Min ≤ inner.Z.Min ∧ inner.Z.Max ≤ outer.Z.Max

/-- The test of the parallel constructor:
`(m_mpi_size != 0) && !(m_mpi_size & (m_mpi_size - 1))`. -/
def powerOfTwoTest (m_mpi_size : Nat) : Bool :=
  (m_mpi_size != 0) && ((m_mpi_size &&& (m_mpi_size - 1)) == 0)

/-- The check of `Renderer::Renderer(MPI_Comm)`: the fatal error is raised when the test
is false. -/
def checkRankCount (m_mpi_size : Nat) : Except String Unit :=
  if powerOfTwoTest m_mpi_size = false then
    .error "Number of ranks specified is not a power of two"
  else .ok ()

section DepthAndModel

variable {K : Type} [LinearOrderedField K]

/-- The constant `std::numeric_limits<float>::max()`. -/
def FLT_MAX : K := 340282346638528859811704183484516925440

/-- The routine `std::min(a, b)`: `b` when `b < a`, otherwise `a`. -/
def stdMin (a b : K) : K := if b < a then b else a

/-- The value `-extent_point[2]` of one corner in `FindVisibilityOrdering`: the view matrix
times `(c, 1)`, the third component divided by the fourth, negated. -/
def viewDepth (view_matrix : Mat4 K) (c : Vec3 K) : K :=
  let z := view_matrix 2 0 * c.x + view_matrix 2 1 * c.y + view_matrix 2 2 * c.z +
    view_matrix 2 3 * 1
  let w := view_matrix 3 0 * c.x + view_matrix 3 1 * c.y + view_matrix 3 2 * c.z +
    view_matrix 3 3 * 1
  let extent_point_2 := z / w
  (-extent_point_2 : K)

/-- The first half of `FindVisibilityOrdering`: `minz` starts at the largest `float` and
takes `std::min(minz, -z)` over the 8 corners of the local bounds, which the three nested
loops visit in the order of `boundingBox`. -/
def ComputeLocalDepth (view_matrix : Mat4 K) (localBounds : Bounds K) : K :=
  (boundingBox localBounds).foldl (fun minz c => stdMin minz (viewDepth view_matrix c)) FLT_MAX

/-- The `std::map<std::string,double>` holding the metrics of one image. -/
def ModelData (K : Type) : Type := List (String × K)

/-- Assignment `model_data[key] = v`. -/
def ModelData.set (m : ModelData K) (key : String) (v : K) : ModelData K :=
  (key, v) :: List.filter (fun e => e.1 != key) m

/-- Read access `model_data[key]`: the stored value, or `0.0` for a key not yet present. -/
def ModelData.get (m : ModelData K) (key : String) : K :=
  match List.lookup key m with
  | some v => v
  | none => 0

/-- What `VTKMDataSetInfo` and the ray-tracing camera report about the data set and the
image: the classification, the topological dimension, the structured cell and point counts,
the number of cells, and the pixel data of `GetPixelData`. -/
structure DataSetInfo (K : Type) where
  is_structured : Bool
  topo_dims : Int
  cell_dims : Int × Int × Int
  point_dims : Int × Int × Int
  num_cells : Int
  active_pixels : Int
  ave_ray_dist : K

/-- `Renderer::GetModelInfo`: the metrics stored into `m_model_data` of one image. -/
def GetModelInfo (sqrt : K → K) (info : DataSetInfo K) (image_height image_width : Int)
    (m_local_bounds m_spatial_bounds : Bounds K) : ModelData K :=
  let model_data : ModelData K := []
  let model_data := model_data.set "image_height" (image_height : K)
  let model_data := model_data.set "image_width" (image_width : K)
  let model_data :=
    if info.is_structured then
      let model_data := model_data.set "topo_dims" (info.topo_dims : K)
      let model_data := model_data.set "cell_dim_x" (info.cell_dims.1 : K)
      let model_data := model_data.set "cell_dim_y" (info.cell_dims.2.1 : K)
      let model_data := model_data.set "cell_dim_z" (info.cell_dims.2.2 : K)
      let model_data := model_data.set "point_dim_x" (info.point_dims.1 : K)
      let model_data := model_data.set "point_dim_y" (info.point_dims.2.1 : K)
      let model_data := model_data.set "point_dim_z" (info.point_dims.2.2 : K)
      model_data
    else model_data
  let model_data := model_data.set "spatial_dim_x" (m_local_bounds.X.Max - m_local_bounds.X.Min)
  let model_data := model_data.set "spatial_dim_y" (m_local_bounds.Y.Max - m_local_bounds.Y.Min)
  let model_data := model_data.set "spatial_dim_z" (m_local_bounds.Z.Max - m_local_bounds.Z.Min)
  let model_data := model_data.set "num_cells" (info.num_cells : K)
  let model_data := model_data.set "active_pixels" (info.active_pixels : K)
  let model_data := model_data.set "ave_ray_dist" info.ave_ray_dist
  let num_samples : K := 1000
  let sample_distance := Magnitude sqrt (totalExtent m_spatial_bounds) / num_samples
  let samples_per_ray := info.ave_ray_dist / sample_distance
  model_data.set "samples_per_ray" samples_per_ray

/-- The prediction that `Render` computes from the metrics of one image. -/
def predTime (m_model_data : ModelData K) : K :=
  let activePixels := m_model_data.get "active_pixels"
  let av_samples := m_model_data.get "samples_per_ray"
  let dim_x := m_model_data.get "cell_dim_x"
  5710758 / 100000000 + av_samples * activePixels * (191089373032 / 100000000000000000000) +
    17873584382 / 100000000000000000000 * activePixels * dim_x

end DepthAndModel

/-! ## The start of a render call (`Renderer::Render`, `Renderer::InitRendering`) -/

section RenderCall

variable {K : Type} [LinearOrderedField K]

/-- The members of the renderer that the start of `Render` reads and writes. -/
structure RendererState (K : Type) where
  m_vtkm_camera : vtkmCamera K
  m_camera : CameraNode K
  m_last_render : RenderState
  m_render_type : RendererType
  m_images : List (ImageData K)

/-- The call `m_images.resize(n)` of the library: the first `n` entries are kept and new
entries are value-initialised. -/
def resizeImages (m_images : List (ImageData K)) (n : Nat) : List (ImageData K) :=
  m_images.take n ++ List.replicate (n - m_images.length) ⟨defaultCamera K, ""⟩

/-- `Renderer::InitRendering`: the plot dimensionality must be 2 or 3; the renderer object
of the current render type is created (there is one for each of the three types); then
`m_images` is resized to `CountImages()` entries.  A negative count makes the resize fail. -/
def InitRendering (plot_dims : Int) (m_camera : CameraNode K) (m_images : List (ImageData K)) :
    Except String (List (ImageData K)) :=
  if plot_dims ≠ 2 ∧ plot_dims ≠ 3 then
    .error "VTKM rendering currently only supports 2D and 3D"
  else
    match CountImages m_camera with
    | .error e => .error e
    | .ok image_count =>
      if image_count < 0 then .error "vector::resize"
      else .ok (resizeImages m_images image_count.toNat)

/-- The start of `Render` up to the canvas loop: default camera view for the (global)
bounds, dirty flags and image count, record of the request, and `InitRendering` when
`render_dirty` is set.  The flag `image_count_dirty` is computed and not read.  The result
is the new state together with `image_count`, the bound of the per-image loops that
follow.  A fatal error ends the call. -/
def RenderInit (sqrt tan : K → K) (m_spatial_bounds : Bounds K) (req : RenderRequest)
    (st : RendererState K) : Except String (RendererState K × Int) :=
  let cam := SetDefaultCameraView sqrt tan m_spatial_bounds st.m_vtkm_camera
  match trackRender st.m_last_render req st.m_camera with
  | .error e => .error e
  | .ok (flags, last) =>
    let st1 : RendererState K :=
      { st with m_vtkm_camera := cam, m_render_type := req.mode, m_last_render := last }
    if flags.render_dirty then
      match InitRendering req.dims st1.m_camera st1.m_images with
      | .error e => .error e
      | .ok imgs => .ok ({ st1 with m_images := imgs }, last.m_image_count)
    else .ok (st1, last.m_image_count)

/-- The camera part of `Render`: a non-empty camera request is parsed into the member
camera, then `SetupCameras` fills the cameras and names of the images. -/
def RenderCameras (sqrt pow4 sin cos : K → K) (pi_180 : K) (fmt : K → String)
    (m_spatial_bounds : Bounds K) (image_name : String) (st : RendererState K) :
    Except String (RendererState K) :=
  let cam :=
    if !st.m_camera.isEmpty then
      ParseCameraNode sqrt pow4 m_spatial_bounds st.m_camera st.m_vtkm_camera
    else st.m_vtkm_camera
  match SetupCameras sqrt pow4 sin cos pi_180 fmt m_spatial_bounds st.m_camera cam st.m_images
      image_name with
  | .error e => .error e
  | .ok imgs => .ok { st with m_vtkm_camera := cam, m_images := imgs }

/-- `Render` from its entry to the end of `SetupCameras`. -/
def RenderSetup (sqrt tan pow4 sin cos : K → K) (pi_180 : K) (fmt : K → String)
    (m_spatial_bounds : Bounds K) (req : RenderRequest) (image_name : String)
    (st : RendererState K) : Except String (RendererState K) :=
  match RenderInit sqrt tan m_spatial_bounds req st with
  | .error e => .error e
  | .ok (st1, _) =>
    RenderCameras sqrt pow4 sin cos pi_180 fmt m_spatial_bounds image_name st1

end RenderCall

/-! ## Colour map (`Renderer::SetColorMapFromNode`) -/

section ColorMap

variable {K : Type} [LinearOrderedField K]

/-- One child of `control_points`.  The child `position` is optional, as the source tests
for it; the children `type`, `color` and `alpha` are taken as present. -/
structure ControlPointNode (K : Type) where
  position : Option K := none
  type : String
  color : Vec3 K
  alpha : K

/-- The node `m_transfer_function`: both children are optional. -/
structure TransferFunctionNode (K : Type) where
  name : Option String := none
  control_points : Option (List (ControlPointNode K)) := none

/-- An entry of the colour table, in the order of the calls `AddControlPoint` and
`AddAlphaControlPoint`. -/
inductive ColorTablePoint (K : Type) where
  | rgb (position : K) (color : Vec3 K)
  | alpha (position : K) (alpha : K)
deriving DecidableEq

/-- The colour table under construction, together with the warnings issued so far. -/
structure ColorMapState (K : Type) where
  color_map : List (ColorTablePoint K)
  warnings : List String
deriving DecidableEq

/-- Modelled from the spec: the macro `ALPINE_WARN` reports its message and lets the caller
go on; the message is appended to the log of warnings. -/
def ALPINE_WARN (log : List String) (msg : String) : List String :=
  log ++ [msg]

/-- One pass of the `while(itr.has_next())` loop of `SetColorMapFromNode`.  `fmt` is the
stream formatting of a number, and `fetch_missing` is what the library gives for
`peg["position"].as_float64()` on a node without that child: an error, or some number.
After the warning for a missing position the source has no `continue`, so the pass goes on
to read the position. -/
def addControlPoint (fmt : K → String) (fetch_missing : Except String K)
    (s : ColorMapState K) (peg : ControlPointNode K) : Except String (ColorMapState K) :=
  let log1 :=
    if peg.position.isNone then
      ALPINE_WARN s.warnings "Color map control point must have a position. Ignoring"
    else s.warnings
  let fetched : Except String K :=
    match peg.position with
    | some p => .ok p
    | none => fetch_missing
  match fetched with
  | .error e => .error e
  | .ok position =>
    let log2 :=
      if position > 1 ∨ position < 0 then
        ALPINE_WARN log1 ("Cannot add color map control point position " ++ fmt position ++
          ". Must be a normalized scalar.")
      else log1
    if peg.type = "rgb" then
      .ok ⟨s.color_map ++ [.rgb position peg.color], log2⟩
    else if peg.type = "alpha" then
      .ok ⟨s.color_map ++ [.alpha position peg.alpha], log2⟩
    else
      .ok ⟨s.color_map, ALPINE_WARN log2 ("Unknown control point type " ++ peg.type)⟩

/-- The loop over the control points, in order; a fatal error ends it. -/
def addControlPoints (fmt : K → String) (fetch_missing : Except String K) :
    ColorMapState K → List (ControlPointNode K) → Except String (ColorMapState K)
  | s, [] => .ok s
  | s, peg :: rest =>
    match addControlPoint fmt fetch_missing s peg with
    | .error e => .error e
    | .ok s1 => addControlPoints fmt fetch_missing s1 rest

/-- `Renderer::SetColorMapFromNode`.  `preset` is the library table of the named colour
maps; with an empty name the table is cleared. -/
def SetColorMapFromNode (fmt : K → String) (fetch_missing : Except String K)
    (preset : String → List (ColorTablePoint K)) (m_transfer_function : TransferFunctionNode K) :
    Except String (ColorMapState K) :=
  let color_map_name := m_transfer_function.name.getD ""
  let color_map := if color_map_name = "" then [] else preset color_map_name
  match m_transfer_function.control_points with
  | none =>
    if color_map_name = "" then
      .error
        "Error: a color map node was provided without a color map name or control points"
    else .ok ⟨color_map, []⟩
  | some pegs => addControlPoints fmt fetch_missing ⟨color_map, []⟩ pegs

end ColorMap

/-! ## Domain decomposition of the noise example (`SpatialDivision`, `Init`) -/

/-- `struct SpatialDivision`: inclusive cell ranges `m_mins[d] .. m_maxs[d]`, 32-bit `int`
components; the default constructor gives `0 .. 1` on every dimension. -/
structure SpatialDivision where
  m_mins : Vec3 Int := ⟨0, 0, 0⟩
  m_maxs : Vec3 Int := ⟨1, 1, 1⟩
deriving DecidableEq, Repr

namespace SpatialDivision

/-- `SpatialDivision::CanSplit`: `m_maxs[dim] - m_mins[dim] + 1 > 1` in `int` arithmetic. -/
def CanSplit (d : SpatialDivision) (dim : Nat) : Bool :=
  decide (toInt32 (toInt32 (d.m_maxs.get dim - d.m_mins.get dim) + 1) > 1)

/-- `SpatialDivision::Split`: the pair of the receiver after the call and the returned
division.  The source asserts `CanSplit(dim)` first; `size / 2` is the truncating division
of C. -/
def Split (d : SpatialDivision) (dim : Nat) : SpatialDivision × SpatialDivision :=
  let r_split := d
  let size := toInt32 (toInt32 (d.m_maxs.get dim - d.m_mins.get dim) + 1)
  let left_offset := toInt32 (Int.tdiv size 2)
  let receiver : SpatialDivision :=
    { d with
      m_maxs := d.m_maxs.set dim (toInt32 (toInt32 (d.m_mins.get dim + left_offset) - 1)) }
  let r_split1 : SpatialDivision :=
    { r_split with m_mins := r_split.m_mins.set dim (toInt32 (receiver.m_maxs.get dim + 1)) }
  (receiver, r_split1)

end SpatialDivision

/-- The variables of the `while(avail > 0)` loop of `Init`. -/
structure InitLoopState where
  divs : List SpatialDivision
  avail : Nat
  current_dim : Nat
  missed_splits : Nat
deriving DecidableEq, Repr

/-- One pass of the inner `for(int i = 0; i < current_size; ++i)` loop at index `i`, on the
pair of `divs` and `avail`: nothing once `avail` is 0 (the `break`), nothing for a division
that cannot be split (the `continue`), else `divs[i]` is split in place and the returned
half is pushed. -/
def splitStep (current_dim : Nat) (s : List SpatialDivision × Nat) (i : Nat) :
    List SpatialDivision × Nat :=
  if s.2 = 0 then s
  else
    match s.1[i]? with
    | none => s
    | some d =>
      if !d.CanSplit current_dim then s
      else
        let halves := d.Split current_dim
        ((s.1.set i halves.1) ++ [halves.2], s.2 - 1)

/-- The inner `for` loop of `Init` over `i < current_size`. -/
def splitPass (current_dim current_size : Nat) (divs : List SpatialDivision) (avail : Nat) :
    List SpatialDivision × Nat :=
  (List.range current_size).foldl (splitStep current_dim) (divs, avail)

/-- The body of the `while(avail > 0)` loop of `Init`. -/
def initStep (s : InitLoopState) : InitLoopState :=
  let current_size := s.divs.length
  let temp_avail := s.avail
  let pass := splitPass s.current_dim current_size s.divs s.avail
  let s1 : InitLoopState :=
    if temp_avail = pass.2 then
      let missed_splits := s.missed_splits + 1
      if missed_splits = 3 then
        { s with divs := pass.1 ++ List.replicate pass.2 ({} : SpatialDivision), avail := 0,
                 missed_splits := missed_splits }
      else { s with divs := pass.1, avail := pass.2, missed_splits := missed_splits }
    else { s with divs := pass.1, avail := pass.2, missed_splits := 0 }
  { s1 with current_dim := (s.current_dim + 1) % 3 }

/-- The `while(avail > 0)` loop of `Init`, run for at most `fuel` passes; `none` when the
passes run out before `avail` reaches 0. -/
def initLoop : Nat → InitLoopState → Option (List SpatialDivision)
  | 0, s => if s.avail > 0 then none else some s.divs
  | fuel + 1, s => if s.avail > 0 then initLoop fuel (initStep s) else some s.divs

/-- `Init` of the noise example (parallel build): the decomposition loop from the single
division `div`, then `divs.at(rank)`, which throws when `rank` is out of range. -/
def Init (fuel comm_size rank : Nat) (div : SpatialDivision) : Except String SpatialDivision :=
  match initLoop fuel ⟨[div], comm_size - 1, 0, 0⟩ with
  | none => .error "the loop did not finish"
  | some divs =>
    match divs[rank]? with
    | some d => .ok d
    | none => .error "std::out_of_range"

/-! ## Text of a `float` on a C++ stream (library model for the image names) -/

theorem fillVisOrder_ranks {α : Type} (z_array : List α) :
    (fillVisOrder z_array).map (fun v => v.m_rank) = List.range z_array.length := by
  unfold fillVisOrder
  rw [List.map_map]
  have h : ((fun v : VTKMVisibility α => v.m_rank) ∘
      fun p : Nat × α => ({ m_rank := p.1, m_minz := p.2 } : VTKMVisibility α)) = Prod.fst := by
    funext p; rfl
  rw [h, List.enum_map_fst]

theorem ComputeGlobalOrder_perm_range {α : Type}
    (cmp : VTKMVisibility α → VTKMVisibility α → Int) (z_array : List α) :
    (ComputeGlobalOrder cmp z_array).Perm (List.range z_array.length) := by
  unfold ComputeGlobalOrder qsort
  rw [← fillVisOrder_ranks]
  exact (List.perm_insertionSort _ _).map _

/-- C1: for any comparator and any gathered depth array, the visibility order returned by
the rank 0 sort has as many entries as there are processes, is a permutation of
`[0, n)`, contains every process id below `n` exactly once, and is `[0]` for one process. -/
theorem ComputeGlobalOrder_is_permutation {α : Type}
    (cmp : VTKMVisibility α → VTKMVisibility α → Int) (z_array : List α) :
    (ComputeGlobalOrder cmp z_array).length = z_array.length ∧
    (ComputeGlobalOrder cmp z_array).Perm (List.range z_array.length) ∧
    (∀ r, r < z_array.length → (ComputeGlobalOrder cmp z_array).count r = 1) ∧
    (∀ r, r ∈ ComputeGlobalOrder cmp z_array → r < z_array.length) ∧
    (∀ d : α, ComputeGlobalOrder cmp [d] = [0]) := by
  have hp := ComputeGlobalOrder_perm_range cmp z_array
  refine ⟨?_, hp, ?_, ?_, ?_⟩
  · simpa using hp.length_eq
  · intro r hr
    rw [hp.count_eq]
    exact List.count_eq_one_of_mem (List.nodup_range _) (List.mem_range.mpr hr)
  · intro r hr
    exact List.mem_range.mp (hp.mem_iff.mp hr)
  · intro d
    rfl

/-! ### The modelled comparator is a total preorder whose ties are ties of rank -/

theorem VTKMCompareVisibility_le_iff {α : Type} [LinearOrder α] (a b : VTKMVisibility α) :
    VTKMCompareVisibility a b ≤ 0 ↔
      a.m_minz < b.m_minz ∨ (a.m_minz = b.m_minz ∧ a.m_rank ≤ b.m_rank) := by
  unfold VTKMCompareVisibility
  constructor
  · intro h
    split_ifs at h with h1 h2 h3 h4
    · exact Or.inl h1
    · exact absurd h (by decide)
    · exact Or.inr ⟨le_antisymm (not_lt.mp h2) (not_lt.mp h1), h3.le⟩
    · exact absurd h (by decide)
    · exact Or.inr ⟨le_antisymm (not_lt.mp h2) (not_lt.mp h1), not_lt.mp h4⟩
  · rintro (h | ⟨h, hr⟩)
    · rw [if_pos h]; decide
    · rw [if_neg (by rw [h]; exact lt_irrefl _), if_neg (by rw [h]; exact lt_irrefl _)]
      split_ifs with h3 h4
      · decide
      · exact absurd hr (not_le.mpr h4)
      · decide

theorem VTKMCompareVisibility_total {α : Type} [LinearOrder α] (a b : VTKMVisibility α) :
    VTKMCompareVisibility a b ≤ 0 ∨ VTKMCompareVisibility b a ≤ 0 := by
  simp only [VTKMCompareVisibility_le_iff]
  rcases lt_trichotomy a.m_minz b.m_minz with h | h | h
  · exact Or.inl (Or.inl h)
  · rcases le_total a.m_rank b.m_rank with hr | hr
    · exact Or.inl (Or.inr ⟨h, hr⟩)
    · exact Or.inr (Or.inr ⟨h.symm, hr⟩)
  · exact Or.inr (Or.inl h)

theorem VTKMCompareVisibility_trans {α : Type} [LinearOrder α] (a b c : VTKMVisibility α) :
    VTKMCompareVisibility a b ≤ 0 → VTKMCompareVisibility b c ≤ 0 →
      VTKMCompareVisibility a c ≤ 0 := by
  simp only [VTKMCompareVisibility_le_iff]
  rintro (h1 | ⟨h1, r1⟩) (h2 | ⟨h2, r2⟩)
  · exact Or.inl (h1.trans h2)
  · exact Or.inl (h2 ▸ h1)
  · exact Or.inl (h1 ▸ h2)
  · exact Or.inr ⟨h1.trans h2, r1.trans r2⟩

theorem VTKMCompareVisibility_antisymm {α : Type} [LinearOrder α] (a b : VTKMVisibility α) :
    VTKMCompareVisibility a b ≤ 0 → VTKMCompareVisibility b a ≤ 0 → a = b := by
  simp only [VTKMCompareVisibility_le_iff]
  obtain ⟨ra, za⟩ := a
  obtain ⟨rb, zb⟩ := b
  rintro (h1 | ⟨h1, r1⟩) (h2 | ⟨h2, r2⟩)
  · exact absurd h1 (lt_asymm h2)
  · exact absurd h1 (by simp only at h2; rw [h2]; exact lt_irrefl _)
  · exact absurd h2 (by simp only at h1; rw [h1]; exact lt_irrefl _)
  · simp only at h1 r1 r2
    rw [h1, le_antisymm r1 r2]

theorem qsort_VTKMCompareVisibility_sorted {α : Type} [LinearOrder α]
    (l : List (VTKMVisibility α)) :
    (qsort VTKMCompareVisibility l).Pairwise (fun a b => VTKMCompareVisibility a b ≤ 0) := by
  haveI : IsTotal (VTKMVisibility α) (fun a b => VTKMCompareVisibility a b ≤ 0) :=
    ⟨VTKMCompareVisibility_total⟩
  haveI : IsTrans (VTKMVisibility α) (fun a b => VTKMCompareVisibility a b ≤ 0) :=
    ⟨VTKMCompareVisibility_trans⟩
  exact List.sorted_insertionSort _ l

theorem qsort_VTKMCompareVisibility_unique {α : Type} [LinearOrder α]
    (l out : List (VTKMVisibility α)) (hperm : out.Perm l)
    (hsorted : out.Pairwise (fun a b => VTKMCompareVisibility a b ≤ 0)) :
    out = qsort VTKMCompareVisibility l := by
  haveI : IsAntisymm (VTKMVisibility α) (fun a b => VTKMCompareVisibility a b ≤ 0) :=
    ⟨VTKMCompareVisibility_antisymm⟩
  exact List.eq_of_perm_of_sorted (hperm.trans (List.perm_insertionSort _ l).symm) hsorted
    (qsort_VTKMCompareVisibility_sorted l)

theorem fillVisOrder_lookup {α : Type} (z_array : List α) (v : VTKMVisibility α)
    (hv : v ∈ fillVisOrder z_array) : z_array[v.m_rank]? = some v.m_minz := by
  unfold fillVisOrder at hv
  obtain ⟨p, hp, rfl⟩ := List.mem_map.mp hv
  obtain ⟨i, x⟩ := p
  exact List.mem_enum_iff_getElem?.mp hp

theorem sorted_visibility_pairwise {α : Type} [LinearOrder α] (z_array : List α) :
    (qsort VTKMCompareVisibility (fillVisOrder z_array)).Pairwise
      (fun a b => z_array[a.m_rank]? = some a.m_minz ∧ z_array[b.m_rank]? = some b.m_minz ∧
        (a.m_minz < b.m_minz ∨ (a.m_minz = b.m_minz ∧ a.m_rank < b.m_rank))) := by
  have hperm : (qsort VTKMCompareVisibility (fillVisOrder z_array)).Perm
      (fillVisOrder z_array) := List.perm_insertionSort _ _
  have hsorted := qsort_VTKMCompareVisibility_sorted (fillVisOrder z_array)
  have hnodup : ((qsort VTKMCompareVisibility (fillVisOrder z_array)).map
      (fun v => v.m_rank)).Nodup := by
    have := (hperm.map (fun v : VTKMVisibility α => v.m_rank)).nodup_iff.mpr
      (by rw [fillVisOrder_ranks]; exact List.nodup_range _)
    exact this
  have hne : (qsort VTKMCompareVisibility (fillVisOrder z_array)).Pairwise
      (fun a b => a.m_rank ≠ b.m_rank) := (List.pairwise_map).mp hnodup
  have hmem : ∀ v ∈ qsort VTKMCompareVisibility (fillVisOrder z_array),
      z_array[v.m_rank]? = some v.m_minz :=
    fun v hv => fillVisOrder_lookup z_array v (hperm.mem_iff.mp hv)
  refine ((hsorted.and hne).imp_of_mem ?_)
  intro a b ha hb hab
  obtain ⟨hle, hrk⟩ := hab
  refine ⟨hmem a ha, hmem b hb, ?_⟩
  rcases (VTKMCompareVisibility_le_iff a b).mp hle with h | ⟨h, hr⟩
  · exact Or.inl h
  · exact Or.inr ⟨h, lt_of_le_of_ne hr hrk⟩

/-- C2: with the comparator of the specification, the visibility order lists the process
ids ascending by local minimum depth, and of two processes with equal depth the one with
the lower id comes first: whenever `a` stands before `b` in the order, the depth of `a` is
less than the depth of `b`, or the depths are equal and `a < b`.  Every arrangement of the
records that is a permutation in ascending comparator order yields this same order, so the
result does not depend on how `std::qsort` sorts.  The depths `[3, 1, 4, 1]` of four
processes give the order `[1, 3, 0, 2]`. -/
theorem ComputeGlobalOrder_sorted_by_depth_then_rank {α : Type} [LinearOrder α]
    (z_array : List α) :
    (ComputeGlobalOrder VTKMCompareVisibility z_array).Pairwise
      (fun a b => ∃ da db, z_array[a]? = some da ∧ z_array[b]? = some db ∧
        (da < db ∨ (da = db ∧ a < b))) ∧
    (∀ out : List (VTKMVisibility α), out.Perm (fillVisOrder z_array) →
      out.Pairwise (fun a b => VTKMCompareVisibility a b ≤ 0) →
      out.map (fun v => v.m_rank) = ComputeGlobalOrder VTKMCompareVisibility z_array) ∧
    ComputeGlobalOrder VTKMCompareVisibility ([3, 1, 4, 1] : List ℚ) = [1, 3, 0, 2] := by
  refine ⟨?_, ?_, ?_⟩
  · unfold ComputeGlobalOrder
    rw [List.pairwise_map]
    exact (sorted_visibility_pairwise z_array).imp
      (fun {a b} h => ⟨a.m_minz, b.m_minz, h.1, h.2.1, h.2.2⟩)
  · intro out hperm hsorted
    unfold ComputeGlobalOrder
    rw [qsort_VTKMCompareVisibility_unique (fillVisOrder z_array) out hperm hsorted]
  · decide

/-! ### Render-state tracking -/

/-- C3: `render_dirty`, the condition under which `InitRendering` is called, is true
exactly when the requested mode differs from the stored mode or the requested plot
dimensionality differs from the stored one; two evaluations that agree on the stored and
requested mode and dimensionality give the same `render_dirty`, whatever the widths,
heights and image counts are. -/
theorem Evaluate_render_dirty_iff (m_last_render : RenderState) (req : RenderRequest)
    (image_count : Int) :
    ((Evaluate m_last_render req image_count).render_dirty = true ↔
      (req.mode ≠ m_last_render.m_render_type ∨ req.dims ≠ m_last_render.m_plot_dims)) ∧
    (∀ (h w c h2 w2 c2 rh rw rh2 rw2 ic2 : Int),
      (Evaluate { m_last_render with m_height := h, m_width := w, m_image_count := c }
          { req with image_height := rh, image_width := rw } image_count).render_dirty =
      (Evaluate { m_last_render with m_height := h2, m_width := w2, m_image_count := c2 }
          { req with image_height := rh2, image_width := rw2 } ic2).render_dirty) := by
  constructor
  · unfold Evaluate
    by_cases hm : req.mode = m_last_render.m_render_type <;>
      by_cases hd : req.dims = m_last_render.m_plot_dims <;> simp [hm, hd]
  · intros
    simp [Evaluate]

/-- C4: once a request has been recorded, a following request with the same mode and the
same dimensionality, whatever its width and height, and with the same camera request, is
evaluated to `render_dirty = false` and `image_count_dirty = false`; in particular this
holds for the identical request. -/
theorem Evaluate_after_Commit_clean {K : Type} (m_last_render : RenderState)
    (r : RenderRequest) (m_camera : CameraNode K) (flags : DirtyFlags) (st : RenderState)
    (h : trackRender m_last_render r m_camera = .ok (flags, st)) :
    (∃ st2, trackRender st r m_camera = .ok (⟨false, false⟩, st2)) ∧
    (∀ w ht : Int, ∃ st2,
      trackRender st { r with image_width := w, image_height := ht } m_camera =
        .ok (⟨false, false⟩, st2)) := by
  have key : ∀ r2 : RenderRequest, r2.mode = r.mode → r2.dims = r.dims →
      ∃ st2, trackRender st r2 m_camera = .ok (⟨false, false⟩, st2) := by
    intro r2 hm hd
    unfold trackRender at h ⊢
    cases hc : CountImages m_camera with
    | error e => rw [hc] at h; cases h
    | ok n =>
      rw [hc] at h
      simp only [Except.ok.injEq, Prod.mk.injEq] at h
      obtain ⟨_, rfl⟩ := h
      exact ⟨Commit r2 n, by simp [Evaluate, Commit, hm, hd]⟩
  exact ⟨key r rfl rfl, fun w ht => key _ rfl rfl⟩

/-- Witness for C4: a volume render of a 3D plot with the default camera request, followed
by the same request. -/
theorem Evaluate_after_Commit_clean_witness :
    (∃ st2, trackRender (K := ℚ) (Commit ⟨512, 512, .VOLUME, 3⟩ 1) ⟨512, 512, .VOLUME, 3⟩ {} =
        .ok (⟨false, false⟩, st2)) ∧
    (∀ w ht : Int, ∃ st2,
      trackRender (K := ℚ) (Commit ⟨512, 512, .VOLUME, 3⟩ 1)
        { (⟨512, 512, .VOLUME, 3⟩ : RenderRequest) with image_width := w, image_height := ht }
        {} = .ok (⟨false, false⟩, st2)) :=
  Evaluate_after_Commit_clean (K := ℚ) ⟨.RASTERIZER, 2, 0, 0, 0⟩ ⟨512, 512, .VOLUME, 3⟩ {}
    ⟨true, true⟩ (Commit ⟨512, 512, .VOLUME, 3⟩ 1) rfl

theorem Vec3_get_set_ne {K : Type} (v : Vec3 K) (i j : Nat) (a : K) (hi : i < 3) (hj : j < 3)
    (hij : i ≠ j) : (v.set j a).get i = v.get i := by
  interval_cases i <;> interval_cases j <;> first | rfl | exact absurd rfl hij

theorem Vec3_get_set_self {K : Type} (v : Vec3 K) (j : Nat) (a : K) : (v.set j a).get j = a := by
  match j with
  | 0 => rfl
  | 1 => rfl
  | _ + 2 => rfl

/-! ### Clipping range -/

section CameraSolverFacts

variable {K : Type} [LinearOrderedField K]

theorem foldl_max_ge_init (f : Vec3 K → K) (cs : List (Vec3 K)) (a : K) :
    a ≤ cs.foldl (fun m c => max m (f c)) a := by
  induction cs generalizing a with
  | nil => exact le_rfl
  | cons c cs ih => exact le_trans (le_max_left a (f c)) (ih (max a (f c)))

theorem foldl_max_ge_mem (f : Vec3 K → K) (cs : List (Vec3 K)) (a : K) (c : Vec3 K)
    (hc : c ∈ cs) : f c ≤ cs.foldl (fun m c => max m (f c)) a := by
  induction cs generalizing a with
  | nil => cases hc
  | cons d cs ih =>
    rcases List.mem_cons.mp hc with rfl | h
    · exact le_trans (le_max_right a (f c)) (foldl_max_ge_init f cs (max a (f c)))
    · exact ih (max a (f d)) h

theorem maxCornerDistance_ge_floor (sqrt : K → K) (position : Vec3 K)
    (corners : List (Vec3 K)) : 1 / 100 ≤ maxCornerDistance sqrt position corners :=
  foldl_max_ge_init (fun c => Magnitude sqrt (c.sub position)) corners (1 / 100)

theorem maxCornerDistance_ge_corner (sqrt : K → K) (position : Vec3 K)
    (corners : List (Vec3 K)) (c : Vec3 K) (hc : c ∈ corners) :
    Magnitude sqrt (c.sub position) ≤ maxCornerDistance sqrt position corners :=
  foldl_max_ge_mem (fun c => Magnitude sqrt (c.sub position)) corners (1 / 100) c hc

/-- C5: whatever the camera position and the bounding box are, the clipping range set by
`SetDefaultClippingPlane` has near plane `0.01`, a far plane beyond the near plane, and every
one of the 8 corners of the box within distance `far / 1.1` of the camera position. -/
theorem SetDefaultClippingPlane_contains_corners (sqrt : K → K) (m_spatial_bounds : Bounds K)
    (camera : vtkmCamera K) :
    (boundingBox m_spatial_bounds).length = 8 ∧
    (SetDefaultClippingPlane sqrt m_spatial_bounds camera).ClippingRange.Min = 1 / 100 ∧
    (SetDefaultClippingPlane sqrt m_spatial_bounds camera).ClippingRange.Min <
      (SetDefaultClippingPlane sqrt m_spatial_bounds camera).ClippingRange.Max ∧
    ∀ corner ∈ boundingBox m_spatial_bounds,
      Magnitude sqrt (corner.sub camera.Position) ≤
        (SetDefaultClippingPlane sqrt m_spatial_bounds camera).ClippingRange.Max / (11 / 10) := by
  have hfloor := maxCornerDistance_ge_floor sqrt camera.Position (boundingBox m_spatial_bounds)
  refine ⟨rfl, rfl, ?_, ?_⟩
  · show (1 : K) / 100 <
      maxCornerDistance sqrt camera.Position (boundingBox m_spatial_bounds) * (11 / 10)
    have h1 : (0 : K) < 1 / 100 := by norm_num
    nlinarith
  · intro corner hc
    show _ ≤ maxCornerDistance sqrt camera.Position (boundingBox m_spatial_bounds) * (11 / 10) /
      (11 / 10)
    rw [mul_div_assoc, div_self (by norm_num), mul_one]
    exact maxCornerDistance_ge_corner sqrt _ _ corner hc

/-! ### Default view: branch lemmas -/

theorem minDim_lt_three (e : Vec3 K) : minDim e = 0 ∨ minDim e = 1 ∨ minDim e = 2 := by
  unfold minDim
  dsimp only
  split_ifs <;> simp

theorem xDim_lt_three (e : Vec3 K) : xDim e = 0 ∨ xDim e = 1 ∨ xDim e = 2 := by
  unfold xDim
  dsimp only
  split_ifs <;> simp

theorem is2D_false_of_extents_ne (b : Bounds K) (hx : b.X.Max - b.X.Min ≠ 0)
    (hy : b.Y.Max - b.Y.Min ≠ 0) (hz : b.Z.Max - b.Z.Min ≠ 0) : is2D b = false := by
  unfold is2D
  rw [decide_eq_false_iff_not]
  rcases minDim_lt_three (totalExtent b) with h | h | h <;> rw [h] <;>
    simp only [Vec3.get, totalExtent] <;> assumption

theorem SetDefaultCameraView_ViewUp (sqrt tan : K → K) (b : Bounds K) (cam : vtkmCamera K) :
    (SetDefaultCameraView sqrt tan b cam).ViewUp = cam.ViewUp := by
  unfold SetDefaultCameraView SetDefaultClippingPlane
  cases is2D b <;> rfl

theorem SetDefaultCameraView_Position_3D (sqrt tan : K → K) (b : Bounds K)
    (cam : vtkmCamera K) (h : is2D b = false) :
    (SetDefaultCameraView sqrt tan b cam).Position =
      (((Normalize sqrt (totalExtent b)).neg.scale
        (Magnitude sqrt (totalExtent b) * (16 / 10))).add
        ⟨1 / 1000, 1 / 1000, (1 / 20) * Magnitude sqrt (totalExtent b)⟩) := by
  unfold SetDefaultCameraView SetDefaultClippingPlane
  simp [h, Vec3.set, Vec3.get, Vec3.add]

theorem SetDefaultCameraView_LookAt_3D (sqrt tan : K → K) (b : Bounds K)
    (cam : vtkmCamera K) (h : is2D b = false) :
    (SetDefaultCameraView sqrt tan b cam).LookAt =
      (boundsMin b).add ((Normalize sqrt (totalExtent b)).scale
        (Magnitude sqrt (totalExtent b) * (1 / 2))) := by
  unfold SetDefaultCameraView SetDefaultClippingPlane
  simp [h]

theorem SetDefaultCameraView_LookAt_2D (sqrt tan : K → K) (b : Bounds K)
    (cam : vtkmCamera K) (h : is2D b = true) :
    (SetDefaultCameraView sqrt tan b cam).LookAt = pos2D b := by
  unfold SetDefaultCameraView SetDefaultClippingPlane
  simp [h]

theorem SetDefaultCameraView_Position_2D (sqrt tan : K → K) (b : Bounds K)
    (cam : vtkmCamera K) (h : is2D b = true) :
    (SetDefaultCameraView sqrt tan b cam).Position =
      (pos2D b).set (minDim (totalExtent b))
        ((boundsMin b).get (minDim (totalExtent b)) +
          tan ((cam.FieldOfView + 4) * (314159 / 100000 / 180)) *
            (totalExtent b).get (xDim (totalExtent b)) / 2) := by
  unfold SetDefaultCameraView SetDefaultClippingPlane
  simp [h]

theorem Position_3D_components (sqrt tan : K → K) (b : Bounds K) (cam : vtkmCamera K)
    (h2 : is2D b = false) (hM : Magnitude sqrt (totalExtent b) ≠ 0) :
    (SetDefaultCameraView sqrt tan b cam).Position =
      ⟨-(16 / 10) * (b.X.Max - b.X.Min) + 1 / 1000,
       -(16 / 10) * (b.Y.Max - b.Y.Min) + 1 / 1000,
       -(16 / 10) * (b.Z.Max - b.Z.Min) + (1 / 20) * Magnitude sqrt (totalExtent b)⟩ := by
  rw [SetDefaultCameraView_Position_3D sqrt tan b cam h2]
  simp only [Normalize, Vec3.neg, Vec3.scale, Vec3.add, Vec3.mk.injEq]
  generalize Magnitude sqrt (totalExtent b) = M at hM ⊢
  refine ⟨?_, ?_, ?_⟩ <;> simp only [totalExtent] <;> field_simp <;> ring

theorem LookAt_3D_center (sqrt tan : K → K) (b : Bounds K) (cam : vtkmCamera K)
    (h2 : is2D b = false) (hM : Magnitude sqrt (totalExtent b) ≠ 0) :
    (SetDefaultCameraView sqrt tan b cam).LookAt = boxCenter b := by
  rw [SetDefaultCameraView_LookAt_3D sqrt tan b cam h2]
  simp only [Normalize, Vec3.scale, Vec3.add, boundsMin, boxCenter, Vec3.mk.injEq]
  generalize Magnitude sqrt (totalExtent b) = M at hM ⊢
  refine ⟨?_, ?_, ?_⟩ <;> simp only [totalExtent] <;> field_simp <;> ring

theorem Real_sqrt_nine : Real.sqrt 9 = 3 := by
  rw [show (9 : ℝ) = 3 * 3 by norm_num]
  exact Real.sqrt_mul_self (by norm_num)

theorem is2D_true_of_z_flat (b : Bounds K) (hx : b.X.Min < b.X.Max) (hy : b.Y.Min < b.Y.Max)
    (hz : b.Z.Max = b.Z.Min) : minDim (totalExtent b) = 2 ∧ is2D b = true := by
  have hm : minDim (totalExtent b) = 2 := by
    unfold minDim
    dsimp only
    split_ifs with h1 h2 h3
    · rfl
    · exact absurd (show (totalExtent b).get 2 < (totalExtent b).get 1 by
        simp only [totalExtent, Vec3.get, hz, sub_self]; linarith) h2
    · rfl
    · exact absurd (show (totalExtent b).get 2 < (totalExtent b).get 0 by
        simp only [totalExtent, Vec3.get, hz, sub_self]; linarith) h3
  refine ⟨hm, ?_⟩
  unfold is2D
  rw [hm]
  simp [totalExtent, Vec3.get, hz]

/-- C7, the code departs from the claim: for the slab with min `(0, 0, 5)` and max
`(10, 10, 5)` the claimed look-at `bounds.min + N * (M / 2)` is the centre `(5, 5, 5)`, but
the 2D branch overwrites the look-at with `(5, 5, 0)`: on the axis of zero extent it stores
the extent `0` instead of `bounds.min`. -/
theorem SetDefaultCameraView_LookAt_flat_axis :
    (SetDefaultCameraView Real.sqrt Real.tan (⟨⟨0, 10⟩, ⟨0, 10⟩, ⟨5, 5⟩⟩ : Bounds ℝ)
      (defaultCamera ℝ)).LookAt = ⟨5, 5, 0⟩ ∧
    (boundsMin (⟨⟨0, 10⟩, ⟨0, 10⟩, ⟨5, 5⟩⟩ : Bounds ℝ)).add
      ((Normalize Real.sqrt (totalExtent (⟨⟨0, 10⟩, ⟨0, 10⟩, ⟨5, 5⟩⟩ : Bounds ℝ))).scale
        (Magnitude Real.sqrt (totalExtent (⟨⟨0, 10⟩, ⟨0, 10⟩, ⟨5, 5⟩⟩ : Bounds ℝ)) * (1 / 2))) =
      ⟨5, 5, 5⟩ ∧
    boxCenter (⟨⟨0, 10⟩, ⟨0, 10⟩, ⟨5, 5⟩⟩ : Bounds ℝ) = ⟨5, 5, 5⟩ := by
  have h2 := (is2D_true_of_z_flat (⟨⟨0, 10⟩, ⟨0, 10⟩, ⟨5, 5⟩⟩ : Bounds ℝ) (by norm_num)
    (by norm_num) rfl).2
  have hM : Magnitude Real.sqrt (totalExtent (⟨⟨0, 10⟩, ⟨0, 10⟩, ⟨5, 5⟩⟩ : Bounds ℝ)) ≠ 0 := by
    unfold Magnitude totalExtent
    norm_num
  refine ⟨?_, ?_, ?_⟩
  · rw [SetDefaultCameraView_LookAt_2D _ _ _ _ h2]
    simp only [pos2D, totalExtent, boundsMin, Vec3.get]
    norm_num
  · simp only [Normalize, Vec3.scale, Vec3.add, boundsMin, Vec3.mk.injEq]
    generalize Magnitude Real.sqrt (totalExtent (⟨⟨0, 10⟩, ⟨0, 10⟩, ⟨5, 5⟩⟩ : Bounds ℝ)) = M
      at hM ⊢
    refine ⟨?_, ?_, ?_⟩ <;> simp only [totalExtent] <;> field_simp <;> ring
  · simp only [boxCenter]
    norm_num

/-- C8, the claim fails: for the box with min `(0, 0, 0)` and max `(1, 2, 2)` (all extents
nonzero, `M = 3`, look-at `(0.5, 1, 1)`) the camera position is `(-1.599, -3.199, -3.05)`,
whereas look-at minus `N * (M * 1.6)` plus the jitter is `(-1.099, -2.199, -2.05)`. -/
theorem SetDefaultCameraView_Position_ne_spec :
    (SetDefaultCameraView Real.sqrt Real.tan (⟨⟨0, 1⟩, ⟨0, 2⟩, ⟨0, 2⟩⟩ : Bounds ℝ)
      (defaultCamera ℝ)).LookAt = ⟨1 / 2, 1, 1⟩ ∧
    (SetDefaultCameraView Real.sqrt Real.tan (⟨⟨0, 1⟩, ⟨0, 2⟩, ⟨0, 2⟩⟩ : Bounds ℝ)
      (defaultCamera ℝ)).Position = ⟨-1599 / 1000, -3199 / 1000, -305 / 100⟩ ∧
    specPosition3D Real.sqrt (⟨⟨0, 1⟩, ⟨0, 2⟩, ⟨0, 2⟩⟩ : Bounds ℝ)
      (SetDefaultCameraView Real.sqrt Real.tan (⟨⟨0, 1⟩, ⟨0, 2⟩, ⟨0, 2⟩⟩ : Bounds ℝ)
        (defaultCamera ℝ)).LookAt = ⟨-1099 / 1000, -2199 / 1000, -205 / 100⟩ ∧
    (SetDefaultCameraView Real.sqrt Real.tan (⟨⟨0, 1⟩, ⟨0, 2⟩, ⟨0, 2⟩⟩ : Bounds ℝ)
      (defaultCamera ℝ)).Position ≠
    specPosition3D Real.sqrt (⟨⟨0, 1⟩, ⟨0, 2⟩, ⟨0, 2⟩⟩ : Bounds ℝ)
      (SetDefaultCameraView Real.sqrt Real.tan (⟨⟨0, 1⟩, ⟨0, 2⟩, ⟨0, 2⟩⟩ : Bounds ℝ)
        (defaultCamera ℝ)).LookAt := by
  have hM : Magnitude Real.sqrt (totalExtent (⟨⟨0, 1⟩, ⟨0, 2⟩, ⟨0, 2⟩⟩ : Bounds ℝ)) = 3 := by
    unfold Magnitude totalExtent
    norm_num
    exact Real_sqrt_nine
  have h2 : is2D (⟨⟨0, 1⟩, ⟨0, 2⟩, ⟨0, 2⟩⟩ : Bounds ℝ) = false := by
    apply is2D_false_of_extents_ne <;> norm_num
  have hL : (SetDefaultCameraView Real.sqrt Real.tan (⟨⟨0, 1⟩, ⟨0, 2⟩, ⟨0, 2⟩⟩ : Bounds ℝ)
      (defaultCamera ℝ)).LookAt = ⟨1 / 2, 1, 1⟩ := by
    rw [LookAt_3D_center _ _ _ _ h2 (by rw [hM]; norm_num)]
    simp only [boxCenter]
    norm_num
  have hP : (SetDefaultCameraView Real.sqrt Real.tan (⟨⟨0, 1⟩, ⟨0, 2⟩, ⟨0, 2⟩⟩ : Bounds ℝ)
      (defaultCamera ℝ)).Position = ⟨-1599 / 1000, -3199 / 1000, -305 / 100⟩ := by
    rw [Position_3D_components _ _ _ _ h2 (by rw [hM]; norm_num), hM]
    norm_num
  have hS : specPosition3D Real.sqrt (⟨⟨0, 1⟩, ⟨0, 2⟩, ⟨0, 2⟩⟩ : Bounds ℝ)
      (SetDefaultCameraView Real.sqrt Real.tan (⟨⟨0, 1⟩, ⟨0, 2⟩, ⟨0, 2⟩⟩ : Bounds ℝ)
        (defaultCamera ℝ)).LookAt = ⟨-1099 / 1000, -2199 / 1000, -205 / 100⟩ := by
    rw [hL]
    simp only [specPosition3D, Normalize, hM]
    simp only [totalExtent, Vec3.scale, Vec3.sub, Vec3.add]
    norm_num
  refine ⟨hL, hP, hS, ?_⟩
  rw [hP, hS]
  intro h
  have hx := congrArg Vec3.x h
  norm_num at hx

/-- C8 as amended: for a bounding box whose three extents are all nonzero the camera
position is `-N * (M * 1.6)` plus the jitter `(0.001, 0.001, 0.05 * M)`, that is the
formula of the specification taken from the origin instead of from the look-at point; when
`M` is nonzero this is `-1.6 * E` plus the jitter. -/
theorem SetDefaultCameraView_Position_from_origin (sqrt tan : K → K) (b : Bounds K)
    (cam : vtkmCamera K) (hx : b.X.Max - b.X.Min ≠ 0) (hy : b.Y.Max - b.Y.Min ≠ 0)
    (hz : b.Z.Max - b.Z.Min ≠ 0) :
    (SetDefaultCameraView sqrt tan b cam).Position =
      (((Normalize sqrt (totalExtent b)).neg.scale
        (Magnitude sqrt (totalExtent b) * (16 / 10))).add
        ⟨1 / 1000, 1 / 1000, (1 / 20) * Magnitude sqrt (totalExtent b)⟩) ∧
    (SetDefaultCameraView sqrt tan b cam).Position = specPosition3D sqrt b ⟨0, 0, 0⟩ ∧
    (Magnitude sqrt (totalExtent b) ≠ 0 →
      (SetDefaultCameraView sqrt tan b cam).Position =
        ⟨-(16 / 10) * (b.X.Max - b.X.Min) + 1 / 1000,
         -(16 / 10) * (b.Y.Max - b.Y.Min) + 1 / 1000,
         -(16 / 10) * (b.Z.Max - b.Z.Min) + (1 / 20) * Magnitude sqrt (totalExtent b)⟩) := by
  have h2 := is2D_false_of_extents_ne b hx hy hz
  refine ⟨SetDefaultCameraView_Position_3D sqrt tan b cam h2, ?_,
    Position_3D_components sqrt tan b cam h2⟩
  rw [SetDefaultCameraView_Position_3D sqrt tan b cam h2]
  simp only [specPosition3D, Vec3.neg, Vec3.scale, Vec3.sub, Vec3.add, Vec3.mk.injEq]
  refine ⟨?_, ?_, ?_⟩ <;> ring

/-- Witness for C8 as amended: the box with min `(0, 0, 0)` and max `(1, 2, 2)` over the
reals. -/
theorem SetDefaultCameraView_Position_from_origin_witness :
    (SetDefaultCameraView Real.sqrt Real.tan (⟨⟨0, 1⟩, ⟨0, 2⟩, ⟨0, 2⟩⟩ : Bounds ℝ)
      (defaultCamera ℝ)).Position =
    specPosition3D Real.sqrt (⟨⟨0, 1⟩, ⟨0, 2⟩, ⟨0, 2⟩⟩ : Bounds ℝ) ⟨0, 0, 0⟩ :=
  (SetDefaultCameraView_Position_from_origin Real.sqrt Real.tan
    (⟨⟨0, 1⟩, ⟨0, 2⟩, ⟨0, 2⟩⟩ : Bounds ℝ) (defaultCamera ℝ) (by norm_num) (by norm_num)
    (by norm_num)).2.1

theorem minDim_is_first_minimum (e : Vec3 K) :
    (∀ i, i < 3 → e.get (minDim e) ≤ e.get i) ∧
    (∀ i, i < minDim e → e.get (minDim e) < e.get i) := by
  unfold minDim
  dsimp only
  split_ifs with h1 h2 h3
  · refine ⟨fun i hi => ?_, fun i hi => ?_⟩ <;> interval_cases i <;>
      simp only [Vec3.get] at * <;> linarith
  · refine ⟨fun i hi => ?_, fun i hi => ?_⟩ <;> interval_cases i <;>
      simp only [Vec3.get] at * <;> linarith
  · refine ⟨fun i hi => ?_, fun i hi => ?_⟩ <;> interval_cases i <;>
      simp only [Vec3.get] at * <;> linarith
  · refine ⟨fun i hi => ?_, fun i hi => absurd hi (Nat.not_lt_zero i)⟩
    interval_cases i <;> simp only [Vec3.get] at * <;> linarith

theorem xDim_is_maximum (e : Vec3 K) : ∀ i, i < 3 → e.get i ≤ e.get (xDim e) := by
  unfold xDim
  dsimp only
  split_ifs with h1 h2 h3 <;> intro i hi <;> interval_cases i <;>
    simp only [Vec3.get, gt_iff_lt] at * <;> linarith

/-- C9: when the extent on `min_dim` is exactly 0, the data set is detected as 2D,
`min_dim` is the first axis of minimum extent and `x_dim` an axis of maximum extent, and
the camera position agrees with the look-at on the two other axes and is
`bounds_min[min_dim] + tan((fov + 4) * (3.14159 / 180)) * extent[x_dim] / 2` on `min_dim`.
For min `(0, 0, 0)` and max `(10, 10, 0)` this gives `min_dim = 2`, look-at `(5, 5, 0)` and
a camera at `(5, 5, tan(..) * 10 / 2)`, offset along z only. -/
theorem SetDefaultCameraView_flat_slab (sqrt tan : K → K) (b : Bounds K) (cam : vtkmCamera K)
    (hflat : (totalExtent b).get (minDim (totalExtent b)) = 0) :
    is2D b = true ∧
    (∀ i, i < 3 → (totalExtent b).get (minDim (totalExtent b)) ≤ (totalExtent b).get i) ∧
    (∀ i, i < minDim (totalExtent b) →
      (totalExtent b).get (minDim (totalExtent b)) < (totalExtent b).get i) ∧
    (∀ i, i < 3 → (totalExtent b).get i ≤ (totalExtent b).get (xDim (totalExtent b))) ∧
    (∀ i, i < 3 → i ≠ minDim (totalExtent b) →
      (SetDefaultCameraView sqrt tan b cam).Position.get i =
        (SetDefaultCameraView sqrt tan b cam).LookAt.get i) ∧
    (SetDefaultCameraView sqrt tan b cam).Position.get (minDim (totalExtent b)) =
      (boundsMin b).get (minDim (totalExtent b)) +
        tan ((cam.FieldOfView + 4) * (314159 / 100000 / 180)) *
          (totalExtent b).get (xDim (totalExtent b)) / 2 ∧
    (minDim (totalExtent (⟨⟨0, 10⟩, ⟨0, 10⟩, ⟨0, 0⟩⟩ : Bounds K)) = 2 ∧
      is2D (⟨⟨0, 10⟩, ⟨0, 10⟩, ⟨0, 0⟩⟩ : Bounds K) = true ∧
      (SetDefaultCameraView sqrt tan ⟨⟨0, 10⟩, ⟨0, 10⟩, ⟨0, 0⟩⟩ cam).LookAt = ⟨5, 5, 0⟩ ∧
      (SetDefaultCameraView sqrt tan ⟨⟨0, 10⟩, ⟨0, 10⟩, ⟨0, 0⟩⟩ cam).Position =
        ⟨5, 5, tan ((cam.FieldOfView + 4) * (314159 / 100000 / 180)) * 10 / 2⟩) := by
  have h2 : is2D b = true := by
    unfold is2D
    exact decide_eq_true hflat
  have hmin := minDim_is_first_minimum (totalExtent b)
  have hm3 : minDim (totalExtent b) < 3 := by
    rcases minDim_lt_three (totalExtent b) with h | h | h <;> rw [h] <;> decide
  refine ⟨h2, hmin.1, hmin.2, xDim_is_maximum _, ?_, ?_, ?_⟩
  · intro i hi hne
    rw [SetDefaultCameraView_Position_2D sqrt tan b cam h2,
      SetDefaultCameraView_LookAt_2D sqrt tan b cam h2]
    exact Vec3_get_set_ne _ i _ _ hi hm3 hne
  · rw [SetDefaultCameraView_Position_2D sqrt tan b cam h2]
    exact Vec3_get_set_self _ _ _
  · obtain ⟨hd, hs⟩ := is2D_true_of_z_flat (⟨⟨0, 10⟩, ⟨0, 10⟩, ⟨0, 0⟩⟩ : Bounds K)
      (by norm_num) (by norm_num) rfl
    have hxd : xDim (totalExtent (⟨⟨0, 10⟩, ⟨0, 10⟩, ⟨0, 0⟩⟩ : Bounds K)) = 0 := by
      unfold xDim
      simp [totalExtent, Vec3.get]
    refine ⟨hd, hs, ?_, ?_⟩
    · rw [SetDefaultCameraView_LookAt_2D sqrt tan _ cam hs]
      simp only [pos2D, totalExtent, boundsMin, Vec3.get]
      norm_num
    · rw [SetDefaultCameraView_Position_2D sqrt tan _ cam hs, hd, hxd]
      simp only [pos2D, totalExtent, boundsMin, Vec3.get, Vec3.set]
      norm_num

/-- Witness for C9: the slab with min `(0, 0, 0)` and max `(10, 10, 0)` over the reals. -/
theorem SetDefaultCameraView_flat_slab_witness :
    is2D (⟨⟨0, 10⟩, ⟨0, 10⟩, ⟨0, 0⟩⟩ : Bounds ℝ) = true ∧
    (SetDefaultCameraView Real.sqrt Real.tan (⟨⟨0, 10⟩, ⟨0, 10⟩, ⟨0, 0⟩⟩ : Bounds ℝ)
      (defaultCamera ℝ)).Position =
      ⟨5, 5, Real.tan (((defaultCamera ℝ).FieldOfView + 4) * (314159 / 100000 / 180)) * 10 / 2⟩ :=
  have h := SetDefaultCameraView_flat_slab Real.sqrt Real.tan
    (⟨⟨0, 10⟩, ⟨0, 10⟩, ⟨0, 0⟩⟩ : Bounds ℝ) (defaultCamera ℝ)
    (by
      rw [(is2D_true_of_z_flat (⟨⟨0, 10⟩, ⟨0, 10⟩, ⟨0, 0⟩⟩ : Bounds ℝ) (by norm_num)
        (by norm_num) rfl).1]
      simp [totalExtent, Vec3.get])
  ⟨h.1, h.2.2.2.2.2.2.2.2.2⟩

/-- C10, the code departs from the claim: for min `(0, 0, 0)` and max `(3, 1, 2)` the axis of
minimum extent is 1 and the axis of maximum extent is 0, so the up vector chosen by the code
is the unit vector `(0, 0, 1)` of the remaining axis; it is never stored, and the camera
keeps the up vector `(0, 1, 0)` it had before. -/
theorem SetDefaultCameraView_up_not_stored :
    minDim (totalExtent (⟨⟨0, 3⟩, ⟨0, 1⟩, ⟨0, 2⟩⟩ : Bounds ℝ)) = 1 ∧
    xDim (totalExtent (⟨⟨0, 3⟩, ⟨0, 1⟩, ⟨0, 2⟩⟩ : Bounds ℝ)) = 0 ∧
    chosenUp (⟨⟨0, 3⟩, ⟨0, 1⟩, ⟨0, 2⟩⟩ : Bounds ℝ) = ⟨0, 0, 1⟩ ∧
    (SetDefaultCameraView Real.sqrt Real.tan (⟨⟨0, 3⟩, ⟨0, 1⟩, ⟨0, 2⟩⟩ : Bounds ℝ)
      (defaultCamera ℝ)).ViewUp = ⟨0, 1, 0⟩ := by
  have hm : minDim (totalExtent (⟨⟨0, 3⟩, ⟨0, 1⟩, ⟨0, 2⟩⟩ : Bounds ℝ)) = 1 := by
    unfold minDim
    simp only [totalExtent, Vec3.get]
    norm_num
  have hxd : xDim (totalExtent (⟨⟨0, 3⟩, ⟨0, 1⟩, ⟨0, 2⟩⟩ : Bounds ℝ)) = 0 := by
    unfold xDim
    simp only [totalExtent, Vec3.get]
    norm_num
  refine ⟨hm, hxd, ?_, ?_⟩
  · unfold chosenUp
    dsimp only
    rw [hm, hxd]
    rfl
  · rw [SetDefaultCameraView_ViewUp]
    rfl

end CameraSolverFacts

/-! ### Default view on a fully degenerate box -/

section DegenerateBox

variable {K : Type} [LinearOrderedField K]

theorem totalExtent_degenerate (b : Bounds K) (hx : b.X.Max = b.X.Min)
    (hy : b.Y.Max = b.Y.Min) (hz : b.Z.Max = b.Z.Min) : totalExtent b = ⟨0, 0, 0⟩ := by
  simp [totalExtent, hx, hy, hz]

theorem SetDefaultCameraView_degenerate_eq (sqrt tan : K → K) (b : Bounds K)
    (cam : vtkmCamera K) (hx : b.X.Max = b.X.Min) (hy : b.Y.Max = b.Y.Min)
    (hz : b.Z.Max = b.Z.Min) :
    SetDefaultCameraView sqrt tan b cam =
      SetDefaultClippingPlane sqrt b
        { cam with LookAt := ⟨0, 0, 0⟩, Position := ⟨b.X.Min, 0, 0⟩ } := by
  have hE := totalExtent_degenerate b hx hy hz
  have hm : minDim (⟨0, 0, 0⟩ : Vec3 K) = 0 := by simp [minDim, Vec3.get]
  have hxd : xDim (⟨0, 0, 0⟩ : Vec3 K) = 0 := by simp [xDim, Vec3.get]
  have h2 : is2D b = true := by
    unfold is2D
    rw [hE, hm]
    simp [Vec3.get]
  have hp : pos2D b = ⟨0, 0, 0⟩ := by
    unfold pos2D
    rw [hE]
    simp [Vec3.get]
  unfold SetDefaultCameraView
  simp only [h2, hp, hE, hm, hxd, if_true]
  simp [Vec3.set, Vec3.get, boundsMin]

/-- C11, the code departs from the claim: there is no guard for a zero extent.  For the
one-point box `(1, 2, 3)` the magnitude by which `Normalize` divides is 0, the 2D branch
runs, and the freshly constructed camera (position `(0, 0, 1)`, look-at `(0, 0, 0)`) ends
with position `(1, 0, 0)` and look-at `(0, 0, 0)`, which is not the centre `(1, 2, 3)` of
the box: the camera is not left unchanged. -/
theorem SetDefaultCameraView_degenerate_changes_camera :
    Magnitude Real.sqrt (totalExtent (⟨⟨1, 1⟩, ⟨2, 2⟩, ⟨3, 3⟩⟩ : Bounds ℝ)) = 0 ∧
    Normalize Real.sqrt (totalExtent (⟨⟨1, 1⟩, ⟨2, 2⟩, ⟨3, 3⟩⟩ : Bounds ℝ)) =
      (totalExtent (⟨⟨1, 1⟩, ⟨2, 2⟩, ⟨3, 3⟩⟩ : Bounds ℝ)).scale (1 / 0) ∧
    (defaultCamera ℝ).Position = ⟨0, 0, 1⟩ ∧
    (SetDefaultCameraView Real.sqrt Real.tan (⟨⟨1, 1⟩, ⟨2, 2⟩, ⟨3, 3⟩⟩ : Bounds ℝ)
      (defaultCamera ℝ)).Position = ⟨1, 0, 0⟩ ∧
    (SetDefaultCameraView Real.sqrt Real.tan (⟨⟨1, 1⟩, ⟨2, 2⟩, ⟨3, 3⟩⟩ : Bounds ℝ)
      (defaultCamera ℝ)).LookAt = ⟨0, 0, 0⟩ ∧
    boxCenter (⟨⟨1, 1⟩, ⟨2, 2⟩, ⟨3, 3⟩⟩ : Bounds ℝ) = ⟨1, 2, 3⟩ ∧
    SetDefaultCameraView Real.sqrt Real.tan (⟨⟨1, 1⟩, ⟨2, 2⟩, ⟨3, 3⟩⟩ : Bounds ℝ)
      (defaultCamera ℝ) ≠ defaultCamera ℝ := by
  have hM : Magnitude Real.sqrt (totalExtent (⟨⟨1, 1⟩, ⟨2, 2⟩, ⟨3, 3⟩⟩ : Bounds ℝ)) = 0 := by
    rw [totalExtent_degenerate _ rfl rfl rfl]
    simp [Magnitude]
  have hP : (SetDefaultCameraView Real.sqrt Real.tan (⟨⟨1, 1⟩, ⟨2, 2⟩, ⟨3, 3⟩⟩ : Bounds ℝ)
      (defaultCamera ℝ)).Position = ⟨1, 0, 0⟩ := by
    rw [SetDefaultCameraView_degenerate_eq _ _ _ _ rfl rfl rfl]
    rfl
  have hL : (SetDefaultCameraView Real.sqrt Real.tan (⟨⟨1, 1⟩, ⟨2, 2⟩, ⟨3, 3⟩⟩ : Bounds ℝ)
      (defaultCamera ℝ)).LookAt = ⟨0, 0, 0⟩ := by
    rw [SetDefaultCameraView_degenerate_eq _ _ _ _ rfl rfl rfl]
    rfl
  refine ⟨hM, ?_, rfl, hP, hL, ?_, ?_⟩
  · unfold Normalize
    rw [hM]
  · simp only [boxCenter]
    norm_num
  · intro h
    have hx := congrArg (fun c => c.Position.x) h
    simp only [hP] at hx
    simp [defaultCamera] at hx

/-- What the code does on every fully degenerate bounding box (min = max on all three
axes): the 2D branch runs without any guard, `Normalize` divides by the magnitude `sqrt 0`
of the zero extent (the quotient does not reach the final camera), the look-at becomes
`(0, 0, 0)`, the position `(bounds.min[0], 0, 0)` and the clipping range the default one
for that position; the up vector, field of view, pan and zoom keep their values. -/
theorem SetDefaultCameraView_degenerate (sqrt tan : K → K) (b : Bounds K) (cam : vtkmCamera K)
    (hx : b.X.Max = b.X.Min) (hy : b.Y.Max = b.Y.Min) (hz : b.Z.Max = b.Z.Min) :
    is2D b = true ∧
    Normalize sqrt (totalExtent b) = (totalExtent b).scale (1 / sqrt 0) ∧
    (SetDefaultCameraView sqrt tan b cam).LookAt = ⟨0, 0, 0⟩ ∧
    (SetDefaultCameraView sqrt tan b cam).Position = ⟨b.X.Min, 0, 0⟩ ∧
    (SetDefaultCameraView sqrt tan b cam).ClippingRange =
      (SetDefaultClippingPlane sqrt b { cam with Position := ⟨b.X.Min, 0, 0⟩ }).ClippingRange ∧
    (SetDefaultCameraView sqrt tan b cam).ViewUp = cam.ViewUp ∧
    (SetDefaultCameraView sqrt tan b cam).FieldOfView = cam.FieldOfView ∧
    (SetDefaultCameraView sqrt tan b cam).XPan = cam.XPan ∧
    (SetDefaultCameraView sqrt tan b cam).YPan = cam.YPan ∧
    (SetDefaultCameraView sqrt tan b cam).Zoom = cam.Zoom := by
  have hE := totalExtent_degenerate b hx hy hz
  have h2 : is2D b = true := by
    unfold is2D
    rw [hE]
    simp [minDim, Vec3.get]
  refine ⟨h2, ?_, ?_⟩
  · unfold Normalize Magnitude
    rw [hE]
    simp
  · rw [SetDefaultCameraView_degenerate_eq sqrt tan b cam hx hy hz]
    exact ⟨rfl, rfl, rfl, rfl, rfl, rfl, rfl, rfl⟩

/-- The degenerate case at the one-point box `(1, 2, 3)` over the reals. -/
theorem SetDefaultCameraView_degenerate_witness :
    (SetDefaultCameraView Real.sqrt Real.tan (⟨⟨1, 1⟩, ⟨2, 2⟩, ⟨3, 3⟩⟩ : Bounds ℝ)
      (defaultCamera ℝ)).LookAt = ⟨0, 0, 0⟩ ∧
    (SetDefaultCameraView Real.sqrt Real.tan (⟨⟨1, 1⟩, ⟨2, 2⟩, ⟨3, 3⟩⟩ : Bounds ℝ)
      (defaultCamera ℝ)).Position = ⟨1, 0, 0⟩ :=
  have h := SetDefaultCameraView_degenerate Real.sqrt Real.tan
    (⟨⟨1, 1⟩, ⟨2, 2⟩, ⟨3, 3⟩⟩ : Bounds ℝ) (defaultCamera ℝ) rfl rfl rfl
  ⟨h.2.2.1, h.2.2.2.1⟩

end DegenerateBox

/-! ### Cinema sweep: indices and image count -/

theorem toInt32_of_fits (v : Int) (h1 : -2147483648 ≤ v) (h2 : v < 2147483648) :
    toInt32 v = v := by
  unfold toInt32
  omega

theorem CountImages_not_cinema {K : Type} (c : CameraNode K) (h : c.type ≠ some "cinema") :
    CountImages c = .ok 1 := by
  unfold CountImages
  cases hty : c.type with
  | none => rfl
  | some ty =>
    have hne : ty ≠ "cinema" := fun e => h (by rw [hty, e])
    simp [hne]

theorem CountImages_cinema {K : Type} (c : CameraNode K) (phi theta : Int)
    (hty : c.type = some "cinema") (hphi : c.phi = some phi) (hth : c.theta = some theta) :
    CountImages c = .ok (toInt32 (toInt32 phi * toInt32 theta)) := by
  unfold CountImages
  simp [hty, hphi, hth]

section CinemaSweep

variable {K : Type} [LinearOrderedField K]

theorem cinemaRot_point (sin cos : K → K) (pi_180 phi theta : K) :
    Transform3DPoint (cinemaRot sin cos pi_180 phi theta) ⟨0, 0, 1⟩ =
      ⟨sin (pi_180 * phi), 0, cos (pi_180 * phi)⟩ := by
  simp [Transform3DPoint, cinemaRot, MatrixMultiply, Transform3DRotateY, Transform3DRotateZ]

theorem cinemaRot_vector (sin cos : K → K) (pi_180 phi theta : K) :
    Transform3DVector (cinemaRot sin cos pi_180 phi theta) ⟨1, 0, 0⟩ =
      ⟨cos (pi_180 * phi) * cos (pi_180 * theta), sin (pi_180 * theta),
        -sin (pi_180 * phi) * cos (pi_180 * theta)⟩ := by
  simp [Transform3DVector, cinemaRot, MatrixMultiply, Transform3DRotateY, Transform3DRotateZ]

theorem cinemaCamera_Position (sqrt sin cos : K → K) (pi_180 : K) (b : Bounds K)
    (cam : vtkmCamera K) (phi theta : K) :
    (cinemaCamera sqrt sin cos pi_180 b cam phi theta).Position =
      ((⟨sin (pi_180 * phi), 0, cos (pi_180 * phi)⟩ : Vec3 K).scale (cinemaRadius sqrt b)).add
        (boxCenter b) := by
  unfold cinemaCamera SetDefaultClippingPlane
  simp only [cinemaRot_point]

theorem cinemaCamera_LookAt (sqrt sin cos : K → K) (pi_180 : K) (b : Bounds K)
    (cam : vtkmCamera K) (phi theta : K) :
    (cinemaCamera sqrt sin cos pi_180 b cam phi theta).LookAt = boxCenter b := rfl

theorem cinemaCamera_ViewUp (sqrt sin cos : K → K) (pi_180 : K) (b : Bounds K)
    (cam : vtkmCamera K) (phi theta : K) :
    (cinemaCamera sqrt sin cos pi_180 b cam phi theta).ViewUp =
      Normalize sqrt ⟨cos (pi_180 * phi) * cos (pi_180 * theta), sin (pi_180 * theta),
        -sin (pi_180 * phi) * cos (pi_180 * theta)⟩ := by
  unfold cinemaCamera SetDefaultClippingPlane
  simp only [cinemaRot_vector]

theorem specCinemaPosition_eq (sqrt sin cos : K → K) (pi_180 : K) (b : Bounds K)
    (phi theta : K) :
    specCinemaPosition sqrt sin cos pi_180 b phi theta =
      ((⟨cos (pi_180 * theta) * sin (pi_180 * phi), sin (pi_180 * theta) * sin (pi_180 * phi),
        cos (pi_180 * phi)⟩ : Vec3 K).scale (cinemaRadius sqrt b)).add (boxCenter b) := by
  simp [specCinemaPosition, Transform3DPoint, MatrixMultiply, Transform3DRotateY,
    Transform3DRotateZ]

theorem specCinemaUp_eq (sqrt sin cos : K → K) (pi_180 : K) (phi theta : K) :
    specCinemaUp sqrt sin cos pi_180 phi theta =
      Normalize sqrt ⟨cos (pi_180 * theta) * cos (pi_180 * phi),
        sin (pi_180 * theta) * cos (pi_180 * phi), -sin (pi_180 * phi)⟩ := by
  simp [specCinemaUp, Transform3DVector, MatrixMultiply, Transform3DRotateY,
    Transform3DRotateZ]

theorem Real_sqrt_hundred : Real.sqrt 100 = 10 := by
  rw [show (100 : ℝ) = 10 * 10 by norm_num]
  exact Real.sqrt_mul_self (by norm_num)

theorem Real_trig (a : ℝ) : Real.sin a * Real.sin a + Real.cos a * Real.cos a = 1 := by
  have h := Real.sin_sq_add_cos_sq a
  nlinarith [h]

theorem cinemaRadius_slab :
    cinemaRadius Real.sqrt (⟨⟨0, 6⟩, ⟨0, 8⟩, ⟨0, 0⟩⟩ : Bounds ℝ) = 25 / 2 := by
  unfold cinemaRadius Magnitude Range.Length
  norm_num
  rw [Real_sqrt_hundred]
  norm_num

/-- C13, the code departs from the claim: for bounds `(0, 0, 0)` to `(6, 8, 0)` (centre
`(3, 4, 0)`, radius 12.5) and the image `p = 1, t = 0` of a 2 by 2 sweep (`phi = 90`,
`theta = -180`) the code multiplies `phi_rot * theta_rot`, so the rotation about z acts on
the canonical vectors first: the camera sits at `(15.5, 4, 0)` with up `(0, 0, 1)`, and the
image `t = 1` of the same `p` has the same position.  With the rotation about y applied
first, as the claim states, the position is `(-9.5, 4, 0)` and the up vector
`(0, 0, -1)`. -/
theorem cinemaCamera_rotation_order :
    (cinemaPhi 2 1 : ℝ) = 90 ∧ (cinemaTheta 2 0 : ℝ) = -180 ∧ (cinemaTheta 2 1 : ℝ) = 0 ∧
    (cinemaCamera Real.sqrt Real.sin Real.cos (Real.pi / 180)
      (⟨⟨0, 6⟩, ⟨0, 8⟩, ⟨0, 0⟩⟩ : Bounds ℝ) (defaultCamera ℝ) (cinemaPhi 2 1)
      (cinemaTheta 2 0)).Position = ⟨31 / 2, 4, 0⟩ ∧
    specCinemaPosition Real.sqrt Real.sin Real.cos (Real.pi / 180)
      (⟨⟨0, 6⟩, ⟨0, 8⟩, ⟨0, 0⟩⟩ : Bounds ℝ) (cinemaPhi 2 1) (cinemaTheta 2 0) =
      ⟨-19 / 2, 4, 0⟩ ∧
    (cinemaCamera Real.sqrt Real.sin Real.cos (Real.pi / 180)
      (⟨⟨0, 6⟩, ⟨0, 8⟩, ⟨0, 0⟩⟩ : Bounds ℝ) (defaultCamera ℝ) (cinemaPhi 2 1)
      (cinemaTheta 2 1)).Position = ⟨31 / 2, 4, 0⟩ ∧
    (cinemaCamera Real.sqrt Real.sin Real.cos (Real.pi / 180)
      (⟨⟨0, 6⟩, ⟨0, 8⟩, ⟨0, 0⟩⟩ : Bounds ℝ) (defaultCamera ℝ) (cinemaPhi 2 1)
      (cinemaTheta 2 0)).ViewUp = ⟨0, 0, 1⟩ ∧
    specCinemaUp Real.sqrt Real.sin Real.cos (Real.pi / 180) (cinemaPhi 2 1)
      (cinemaTheta 2 0) = ⟨0, 0, -1⟩ := by
  have hphi : (cinemaPhi 2 1 : ℝ) = 90 := by
    unfold cinemaPhi
    norm_num
  have hth0 : (cinemaTheta 2 0 : ℝ) = -180 := by
    unfold cinemaTheta
    norm_num
  have hth1 : (cinemaTheta 2 1 : ℝ) = 0 := by
    unfold cinemaTheta
    norm_num
  have a90 : Real.pi / 180 * 90 = Real.pi / 2 := by ring
  have a180 : Real.pi / 180 * -180 = -Real.pi := by ring
  have hc : boxCenter (⟨⟨0, 6⟩, ⟨0, 8⟩, ⟨0, 0⟩⟩ : Bounds ℝ) = ⟨3, 4, 0⟩ := by
    simp only [boxCenter]
    norm_num
  refine ⟨hphi, hth0, hth1, ?_, ?_, ?_, ?_, ?_⟩
  · rw [cinemaCamera_Position, hphi, a90, Real.sin_pi_div_two, Real.cos_pi_div_two,
      cinemaRadius_slab, hc]
    simp only [Vec3.scale, Vec3.add]
    norm_num
  · rw [specCinemaPosition_eq, hphi, hth0, a90, a180, Real.sin_pi_div_two,
      Real.cos_pi_div_two, Real.cos_neg, Real.sin_neg, Real.cos_pi, Real.sin_pi,
      cinemaRadius_slab, hc]
    simp only [Vec3.scale, Vec3.add]
    norm_num
  · rw [cinemaCamera_Position, hphi, a90, Real.sin_pi_div_two, Real.cos_pi_div_two,
      cinemaRadius_slab, hc]
    simp only [Vec3.scale, Vec3.add]
    norm_num
  · rw [cinemaCamera_ViewUp, hphi, hth0, a90, a180, Real.sin_pi_div_two,
      Real.cos_pi_div_two, Real.cos_neg, Real.sin_neg, Real.cos_pi, Real.sin_pi]
    simp only [Normalize, Magnitude, Vec3.scale]
    norm_num
  · rw [specCinemaUp_eq, hphi, hth0, a90, a180, Real.sin_pi_div_two,
      Real.cos_pi_div_two, Real.cos_neg, Real.sin_neg, Real.cos_pi, Real.sin_pi]
    simp only [Normalize, Magnitude, Vec3.scale]
    norm_num

/-- C14: for every `phi` and `theta`, the camera of the sweep looks at the centre of the
bounds and its position lies at distance exactly `radius` from the centre, where
`radius = 1.25 * |extent|` (12.5 when the diagonal has magnitude 10).  The square root is
taken exact on squares and non-negative, and `sin^2 + cos^2 = 1`. -/
theorem cinemaCamera_on_sphere (sqrt sin cos : K → K) (pi_180 : K) (b : Bounds K)
    (cam : vtkmCamera K) (phi theta : K)
    (hsq : ∀ t : K, 0 ≤ t → sqrt (t * t) = t) (hnn : ∀ x : K, 0 ≤ sqrt x)
    (htrig : ∀ a : K, sin a * sin a + cos a * cos a = 1) :
    (cinemaCamera sqrt sin cos pi_180 b cam phi theta).LookAt = boxCenter b ∧
    Magnitude sqrt ((cinemaCamera sqrt sin cos pi_180 b cam phi theta).Position.sub
      (boxCenter b)) = cinemaRadius sqrt b ∧
    cinemaRadius sqrt b =
      (125 / 100) * Magnitude sqrt ⟨b.X.Length, b.Y.Length, b.Z.Length⟩ ∧
    (Magnitude sqrt ⟨b.X.Length, b.Y.Length, b.Z.Length⟩ = 10 →
      cinemaRadius sqrt b = 25 / 2) := by
  have hr : cinemaRadius sqrt b =
      (125 / 100) * Magnitude sqrt ⟨b.X.Length, b.Y.Length, b.Z.Length⟩ := by
    unfold cinemaRadius
    ring
  have hr0 : 0 ≤ cinemaRadius sqrt b := by
    rw [hr]
    exact mul_nonneg (by norm_num) (hnn _)
  refine ⟨rfl, ?_, hr, fun h => by rw [hr, h]; norm_num⟩
  rw [cinemaCamera_Position]
  generalize cinemaRadius sqrt b = r at hr0
  have hinner : (sin (pi_180 * phi) * r + (boxCenter b).x - (boxCenter b).x) *
      (sin (pi_180 * phi) * r + (boxCenter b).x - (boxCenter b).x) +
      (0 * r + (boxCenter b).y - (boxCenter b).y) * (0 * r + (boxCenter b).y - (boxCenter b).y) +
      (cos (pi_180 * phi) * r + (boxCenter b).z - (boxCenter b).z) *
      (cos (pi_180 * phi) * r + (boxCenter b).z - (boxCenter b).z) = r * r := by
    linear_combination (r * r) * htrig (pi_180 * phi)
  simp only [Magnitude, Vec3.scale, Vec3.add, Vec3.sub]
  rw [hinner, hsq r hr0]

/-- Witness for C14: bounds `(0, 0, 0)` to `(6, 8, 0)`, `phi = 90`, `theta = -180`, over the
reals. -/
theorem cinemaCamera_on_sphere_witness :
    Magnitude Real.sqrt ((cinemaCamera Real.sqrt Real.sin Real.cos (Real.pi / 180)
      (⟨⟨0, 6⟩, ⟨0, 8⟩, ⟨0, 0⟩⟩ : Bounds ℝ) (defaultCamera ℝ) 90 (-180)).Position.sub
      (boxCenter (⟨⟨0, 6⟩, ⟨0, 8⟩, ⟨0, 0⟩⟩ : Bounds ℝ))) =
      cinemaRadius Real.sqrt (⟨⟨0, 6⟩, ⟨0, 8⟩, ⟨0, 0⟩⟩ : Bounds ℝ) :=
  (cinemaCamera_on_sphere Real.sqrt Real.sin Real.cos (Real.pi / 180)
    (⟨⟨0, 6⟩, ⟨0, 8⟩, ⟨0, 0⟩⟩ : Bounds ℝ) (defaultCamera ℝ) 90 (-180)
    (fun _ h => Real.sqrt_mul_self h) Real.sqrt_nonneg Real_trig).2.1

/-- C15: for every image of the sweep the up vector has unit length and is perpendicular
to the view direction (look-at minus position), so it is not a multiple of the view
direction; when the radius is nonzero (nonzero diagonal) the view direction is not the zero
vector and is not a multiple of the up vector either.  The square root is taken with
`sqrt 1 = 1`, and `sin^2 + cos^2 = 1`. -/
theorem cinemaCamera_up_perpendicular (sqrt sin cos : K → K) (pi_180 : K) (b : Bounds K)
    (cam : vtkmCamera K) (phi theta : K) (hs1 : sqrt 1 = 1)
    (htrig : ∀ a : K, sin a * sin a + cos a * cos a = 1) :
    Magnitude sqrt (cinemaCamera sqrt sin cos pi_180 b cam phi theta).ViewUp = 1 ∧
    Vec3.dot (cinemaCamera sqrt sin cos pi_180 b cam phi theta).ViewUp
      ((cinemaCamera sqrt sin cos pi_180 b cam phi theta).LookAt.sub
        (cinemaCamera sqrt sin cos pi_180 b cam phi theta).Position) = 0 ∧
    (¬ ∃ c : K, (cinemaCamera sqrt sin cos pi_180 b cam phi theta).ViewUp =
      ((cinemaCamera sqrt sin cos pi_180 b cam phi theta).LookAt.sub
        (cinemaCamera sqrt sin cos pi_180 b cam phi theta).Position).scale c) ∧
    (cinemaRadius sqrt b ≠ 0 →
      (cinemaCamera sqrt sin cos pi_180 b cam phi theta).LookAt.sub
        (cinemaCamera sqrt sin cos pi_180 b cam phi theta).Position ≠ ⟨0, 0, 0⟩ ∧
      ¬ ∃ c : K, (cinemaCamera sqrt sin cos pi_180 b cam phi theta).LookAt.sub
        (cinemaCamera sqrt sin cos pi_180 b cam phi theta).Position =
        (cinemaCamera sqrt sin cos pi_180 b cam phi theta).ViewUp.scale c) := by
  have hnorm : cos (pi_180 * phi) * cos (pi_180 * theta) *
      (cos (pi_180 * phi) * cos (pi_180 * theta)) +
      sin (pi_180 * theta) * sin (pi_180 * theta) +
      -sin (pi_180 * phi) * cos (pi_180 * theta) *
      (-sin (pi_180 * phi) * cos (pi_180 * theta)) = 1 := by
    linear_combination (cos (pi_180 * theta) * cos (pi_180 * theta)) * htrig (pi_180 * phi) +
      htrig (pi_180 * theta)
  have hup : (cinemaCamera sqrt sin cos pi_180 b cam phi theta).ViewUp =
      ⟨cos (pi_180 * phi) * cos (pi_180 * theta), sin (pi_180 * theta),
        -sin (pi_180 * phi) * cos (pi_180 * theta)⟩ := by
    rw [cinemaCamera_ViewUp]
    simp only [Normalize, Magnitude, hnorm, hs1, Vec3.scale]
    simp
  have hmag : Magnitude sqrt (cinemaCamera sqrt sin cos pi_180 b cam phi theta).ViewUp = 1 := by
    rw [hup]
    simp only [Magnitude, hnorm, hs1]
  have hdot : Vec3.dot (cinemaCamera sqrt sin cos pi_180 b cam phi theta).ViewUp
      ((cinemaCamera sqrt sin cos pi_180 b cam phi theta).LookAt.sub
        (cinemaCamera sqrt sin cos pi_180 b cam phi theta).Position) = 0 := by
    rw [hup, cinemaCamera_LookAt, cinemaCamera_Position]
    simp only [Vec3.dot, Vec3.sub, Vec3.add, Vec3.scale]
    ring
  have hself : Vec3.dot (cinemaCamera sqrt sin cos pi_180 b cam phi theta).ViewUp
      (cinemaCamera sqrt sin cos pi_180 b cam phi theta).ViewUp = 1 := by
    rw [hup]
    simp only [Vec3.dot]
    exact hnorm
  have hscale : ∀ (u v : Vec3 K) (c : K), Vec3.dot u (v.scale c) = c * Vec3.dot u v := by
    intro u v c
    simp only [Vec3.dot, Vec3.scale]
    ring
  refine ⟨hmag, hdot, ?_, ?_⟩
  · rintro ⟨c, hc⟩
    have h1 := hself
    nth_rewrite 2 [hc] at h1
    rw [hscale, hdot, mul_zero] at h1
    exact zero_ne_one h1
  · intro hr
    have hv : (cinemaCamera sqrt sin cos pi_180 b cam phi theta).LookAt.sub
        (cinemaCamera sqrt sin cos pi_180 b cam phi theta).Position ≠ ⟨0, 0, 0⟩ := by
      rw [cinemaCamera_LookAt, cinemaCamera_Position]
      simp only [Vec3.sub, Vec3.add, Vec3.scale]
      intro h
      have hx := congrArg Vec3.x h
      have hz := congrArg Vec3.z h
      simp only at hx hz
      have hs : sin (pi_180 * phi) = 0 := by
        have : sin (pi_180 * phi) * cinemaRadius sqrt b = 0 := by linarith
        rcases mul_eq_zero.mp this with h0 | h0
        · exact h0
        · exact absurd h0 hr
      have hcz : cos (pi_180 * phi) = 0 := by
        have : cos (pi_180 * phi) * cinemaRadius sqrt b = 0 := by linarith
        rcases mul_eq_zero.mp this with h0 | h0
        · exact h0
        · exact absurd h0 hr
      have := htrig (pi_180 * phi)
      rw [hs, hcz] at this
      norm_num at this
    refine ⟨hv, ?_⟩
    rintro ⟨c, hc⟩
    have h1 := hdot
    rw [hc, hscale, hself, mul_one] at h1
    rw [h1] at hc
    apply hv
    rw [hc]
    simp [Vec3.scale]

/-- Witness for C15: bounds `(0, 0, 0)` to `(6, 8, 0)`, `phi = 90`, `theta = -180`, over the
reals. -/
theorem cinemaCamera_up_perpendicular_witness :
    Magnitude Real.sqrt (cinemaCamera Real.sqrt Real.sin Real.cos (Real.pi / 180)
      (⟨⟨0, 6⟩, ⟨0, 8⟩, ⟨0, 0⟩⟩ : Bounds ℝ) (defaultCamera ℝ) 90 (-180)).ViewUp = 1 :=
  (cinemaCamera_up_perpendicular Real.sqrt Real.sin Real.cos (Real.pi / 180)
    (⟨⟨0, 6⟩, ⟨0, 8⟩, ⟨0, 0⟩⟩ : Bounds ℝ) (defaultCamera ℝ) 90 (-180)
    Real.sqrt_one Real_trig).1

end CinemaSweep

/-! ### Fatal error of a cinema request without its angular counts -/

/-- C17, the claim fails in its return value: a cinema request with `phi = 2147483648` and
`theta = 1` has both counts, so `CountImages` succeeds, but `phi` is read into a 32-bit
`int` and the value returned is `-2147483648`, not `phi * theta`. -/
theorem CountImages_cinema_int_product :
    CountImages ({ type := some "cinema", phi := some 2147483648, theta := some 1 } :
      CameraNode ℚ) = .ok (-2147483648) ∧
    (2147483648 : Int) * 1 ≠ -2147483648 := by
  refine ⟨?_, by decide⟩
  rw [CountImages_cinema _ 2147483648 1 rfl rfl rfl]
  rfl

section CinemaErrors

variable {K : Type} [LinearOrderedField K]

/-- C17 as amended: `CountImages` and `SetupCameras` raise the fatal error "Camera with
cinema type must have phi and theta defined" exactly when the camera request has type
`cinema` and lacks `phi` or lacks `theta`, and `CountImages` raises no other error.  For
every other request `CountImages` succeeds: with 1 for a request that is not of type
`cinema`, and for a cinema request with the product of `phi` and `theta` taken in 32-bit
`int`, which is `phi * theta` whenever `phi`, `theta` and the product fit that type. -/
theorem CountImages_error_iff (sqrt pow4 sin cos : K → K) (pi_180 : K) (fmt : K → String)
    (b : Bounds K) (c : CameraNode K) (m_vtkm_camera : vtkmCamera K)
    (m_images : List (ImageData K)) (image_name : String) :
    (CountImages c = .error "Camera with cinema type must have phi and theta defined" ↔
      (c.type = some "cinema" ∧ (c.phi = none ∨ c.theta = none))) ∧
    (∀ e, CountImages c = .error e →
      e = "Camera with cinema type must have phi and theta defined") ∧
    (SetupCameras sqrt pow4 sin cos pi_180 fmt b c m_vtkm_camera m_images image_name =
        .error "Camera with cinema type must have phi and theta defined" ↔
      (c.type = some "cinema" ∧ (c.phi = none ∨ c.theta = none))) ∧
    (c.type ≠ some "cinema" → CountImages c = .ok 1) ∧
    (∀ phi theta : Int, c.type = some "cinema" → c.phi = some phi → c.theta = some theta →
      CountImages c = .ok (toInt32 (toInt32 phi * toInt32 theta)) ∧
      (-2147483648 ≤ phi → phi < 2147483648 → -2147483648 ≤ theta → theta < 2147483648 →
        -2147483648 ≤ phi * theta → phi * theta < 2147483648 →
        CountImages c = .ok (phi * theta))) := by
  refine ⟨?_, ?_, ?_, CountImages_not_cinema c, ?_⟩
  · by_cases hty : c.type = some "cinema"
    · cases hphi : c.phi with
      | none => simp [CountImages, hty, hphi]
      | some phi =>
        cases hth : c.theta with
        | none => simp [CountImages, hty, hphi, hth]
        | some theta => simp [CountImages, hty, hphi, hth]
    · rw [CountImages_not_cinema c hty]
      simp [hty]
  · intro e he
    by_cases hty : c.type = some "cinema"
    · cases hphi : c.phi with
      | none =>
        simp only [CountImages, hty, hphi, if_true] at he
        cases he
        rfl
      | some phi =>
        cases hth : c.theta with
        | none =>
          simp only [CountImages, hty, hphi, hth, if_true] at he
          cases he
          rfl
        | some theta =>
          rw [CountImages_cinema c phi theta hty hphi hth] at he
          cases he
    · rw [CountImages_not_cinema c hty] at he
      cases he
  · by_cases hty : c.type = some "cinema"
    · cases hphi : c.phi with
      | none => simp [SetupCameras, hty, hphi]
      | some phi =>
        cases hth : c.theta with
        | none => simp [SetupCameras, hty, hphi, hth]
        | some theta =>
          simp only [SetupCameras, hty, hphi, hth, decide_True, Bool.not_true,
            Bool.false_eq_true, if_false, true_and, or_self, iff_false, reduceCtorEq]
          split_ifs
          · intro h
            have := Except.error.inj h
            revert this
            decide
          · intro h
            cases h
    · simp [SetupCameras, hty]
  · intro phi theta hty hphi hth
    have h := CountImages_cinema c phi theta hty hphi hth
    refine ⟨h, fun a1 a2 a3 a4 a5 a6 => ?_⟩
    rw [h, toInt32_of_fits phi a1 a2, toInt32_of_fits theta a3 a4,
      toInt32_of_fits _ a5 a6]

end CinemaErrors

/-! ### Camera overlay (`ParseCameraNode`) -/

section Overlay

variable {K : Type} [LinearOrderedField K]

theorem foldl_max_floor (f : Vec3 K → K) (cs : List (Vec3 K)) (a c : K) (hca : c ≤ a) :
    cs.foldl (fun m x => max m (f x)) a = max a (cs.foldl (fun m x => max m (f x)) c) := by
  induction cs generalizing a c with
  | nil => exact (max_eq_left hca).symm
  | cons d cs ih =>
    simp only [List.foldl_cons]
    rw [ih (max a (f d)) (max c (f d)) (max_le_max hca le_rfl)]
    have h1 : f d ≤ cs.foldl (fun m x => max m (f x)) (max c (f d)) :=
      le_trans (le_max_right c (f d)) (foldl_max_ge_init f cs _)
    rw [max_assoc, max_eq_right h1]

theorem maxCornerDistance_eq_max (sqrt : K → K) (position : Vec3 K) (corners : List (Vec3 K)) :
    maxCornerDistance sqrt position corners =
      max (1 / 100) (specMaxCornerDistance sqrt position corners) :=
  foldl_max_floor (fun c => Magnitude sqrt (c.sub position)) corners (1 / 100) 0 (by norm_num)

theorem ParseCameraNode_fields (sqrt pow4 : K → K) (b : Bounds K) (camera : CameraNode K)
    (base : vtkmCamera K) :
    (ParseCameraNode sqrt pow4 b camera base).LookAt =
      (applyOverlayFields sqrt pow4 camera base).LookAt ∧
    (ParseCameraNode sqrt pow4 b camera base).Position =
      (applyOverlayFields sqrt pow4 camera base).Position ∧
    (ParseCameraNode sqrt pow4 b camera base).ViewUp =
      (applyOverlayFields sqrt pow4 camera base).ViewUp ∧
    (ParseCameraNode sqrt pow4 b camera base).FieldOfView =
      (applyOverlayFields sqrt pow4 camera base).FieldOfView ∧
    (ParseCameraNode sqrt pow4 b camera base).XPan =
      (applyOverlayFields sqrt pow4 camera base).XPan ∧
    (ParseCameraNode sqrt pow4 b camera base).YPan =
      (applyOverlayFields sqrt pow4 camera base).YPan ∧
    (ParseCameraNode sqrt pow4 b camera base).Zoom =
      (applyOverlayFields sqrt pow4 camera base).Zoom := by
  unfold ParseCameraNode SetDefaultClippingPlane
  cases camera.nearplane <;> cases camera.farplane <;> exact ⟨rfl, rfl, rfl, rfl, rfl, rfl, rfl⟩

theorem ParseCameraNode_ClippingRange (sqrt pow4 : K → K) (b : Bounds K)
    (camera : CameraNode K) (base : vtkmCamera K) :
    (ParseCameraNode sqrt pow4 b camera base).ClippingRange.Min =
      (match camera.nearplane with
        | some n => n
        | none => 1 / 100) ∧
    (ParseCameraNode sqrt pow4 b camera base).ClippingRange.Max =
      (match camera.farplane with
        | some f => f
        | none => maxCornerDistance sqrt (applyOverlayFields sqrt pow4 camera base).Position
            (boundingBox b) * (11 / 10)) := by
  unfold ParseCameraNode SetDefaultClippingPlane
  cases camera.nearplane <;> cases camera.farplane <;> exact ⟨rfl, rfl⟩

theorem panArguments_none (camera : CameraNode K) (hx : camera.xpan = none)
    (hy : camera.ypan = none) : panArguments camera = none := by
  simp [panArguments, hx, hy]

theorem applyOverlayFields_absent (sqrt pow4 : K → K) (camera : CameraNode K)
    (base : vtkmCamera K) :
    (camera.look_at = none → (applyOverlayFields sqrt pow4 camera base).LookAt = base.LookAt) ∧
    (camera.position = none →
      (applyOverlayFields sqrt pow4 camera base).Position = base.Position) ∧
    (camera.up = none → (applyOverlayFields sqrt pow4 camera base).ViewUp = base.ViewUp) ∧
    (camera.fov = none →
      (applyOverlayFields sqrt pow4 camera base).FieldOfView = base.FieldOfView) ∧
    (camera.xpan = none → camera.ypan = none →
      (applyOverlayFields sqrt pow4 camera base).XPan = base.XPan ∧
      (applyOverlayFields sqrt pow4 camera base).YPan = base.YPan) ∧
    (camera.zoom = none → (applyOverlayFields sqrt pow4 camera base).Zoom = base.Zoom) := by
  refine ⟨?_, ?_, ?_, ?_, ?_, ?_⟩
  · intro h
    unfold applyOverlayFields
    rw [h]
    cases camera.position <;> cases camera.up <;> cases camera.fov <;>
      cases panArguments camera <;> cases camera.zoom <;> rfl
  · intro h
    unfold applyOverlayFields
    rw [h]
    cases camera.look_at <;> cases camera.up <;> cases camera.fov <;>
      cases panArguments camera <;> cases camera.zoom <;> rfl
  · intro h
    unfold applyOverlayFields
    rw [h]
    cases camera.look_at <;> cases camera.position <;> cases camera.fov <;>
      cases panArguments camera <;> cases camera.zoom <;> rfl
  · intro h
    unfold applyOverlayFields
    rw [h]
    cases camera.look_at <;> cases camera.position <;> cases camera.up <;>
      cases panArguments camera <;> cases camera.zoom <;> rfl
  · intro hx hy
    unfold applyOverlayFields
    rw [panArguments_none camera hx hy]
    cases camera.look_at <;> cases camera.position <;> cases camera.up <;>
      cases camera.fov <;> cases camera.zoom <;> exact ⟨rfl, rfl⟩
  · intro h
    unfold applyOverlayFields
    rw [h]
    cases camera.look_at <;> cases camera.position <;> cases camera.up <;>
      cases camera.fov <;> cases panArguments camera <;> rfl

/-- C18: an empty overlay gives the base camera with the default clipping range for the
current bounds: position, look-at, up vector, field of view, pan and zoom are those of the
base camera.  For any overlay, a field that is absent (the look-at, the position, the up
vector, the field of view, the pan with both of its components, the zoom) leaves the value
of the base camera in place. -/
theorem ParseCameraNode_empty_overlay (sqrt pow4 : K → K) (b : Bounds K)
    (camera : CameraNode K) (base : vtkmCamera K) :
    ParseCameraNode sqrt pow4 b {} base = SetDefaultClippingPlane sqrt b base ∧
    (ParseCameraNode sqrt pow4 b {} base).Position = base.Position ∧
    (ParseCameraNode sqrt pow4 b {} base).LookAt = base.LookAt ∧
    (ParseCameraNode sqrt pow4 b {} base).ViewUp = base.ViewUp ∧
    (ParseCameraNode sqrt pow4 b {} base).FieldOfView = base.FieldOfView ∧
    (ParseCameraNode sqrt pow4 b {} base).XPan = base.XPan ∧
    (ParseCameraNode sqrt pow4 b {} base).YPan = base.YPan ∧
    (ParseCameraNode sqrt pow4 b {} base).Zoom = base.Zoom ∧
    (ParseCameraNode sqrt pow4 b {} base).ClippingRange =
      ⟨1 / 100, maxCornerDistance sqrt base.Position (boundingBox b) * (11 / 10)⟩ ∧
    (camera.look_at = none →
      (ParseCameraNode sqrt pow4 b camera base).LookAt = base.LookAt) ∧
    (camera.position = none →
      (ParseCameraNode sqrt pow4 b camera base).Position = base.Position) ∧
    (camera.up = none → (ParseCameraNode sqrt pow4 b camera base).ViewUp = base.ViewUp) ∧
    (camera.fov = none →
      (ParseCameraNode sqrt pow4 b camera base).FieldOfView = base.FieldOfView) ∧
    (camera.xpan = none → camera.ypan = none →
      (ParseCameraNode sqrt pow4 b camera base).XPan = base.XPan ∧
      (ParseCameraNode sqrt pow4 b camera base).YPan = base.YPan) ∧
    (camera.zoom = none → (ParseCameraNode sqrt pow4 b camera base).Zoom = base.Zoom) := by
  have hf := ParseCameraNode_fields sqrt pow4 b camera base
  have ha := applyOverlayFields_absent sqrt pow4 camera base
  refine ⟨rfl, rfl, rfl, rfl, rfl, rfl, rfl, rfl, rfl, ?_, ?_, ?_, ?_, ?_, ?_⟩
  · intro h
    rw [hf.1, ha.1 h]
  · intro h
    rw [hf.2.1, ha.2.1 h]
  · intro h
    rw [hf.2.2.1, ha.2.2.1 h]
  · intro h
    rw [hf.2.2.2.1, ha.2.2.2.1 h]
  · intro hx hy
    rw [hf.2.2.2.2.1, hf.2.2.2.2.2.1]
    exact ha.2.2.2.2.1 hx hy
  · intro h
    rw [hf.2.2.2.2.2.2, ha.2.2.2.2.2 h]

/-- C19, the claim fails in its description of the default: for the one-point bounds
`(0, 0, 0)` and an overlay that puts the camera at `(0, 0, 0)`, every corner is at distance
0 from the overlaid position, yet the far plane that is not overridden is `0.011`, not
`1.1` times the maximum corner distance. -/
theorem ParseCameraNode_far_floor :
    (applyOverlayFields Real.sqrt (fun z => (4 : ℝ) ^ z)
      ({ position := some ⟨0, 0, 0⟩ } : CameraNode ℝ) (defaultCamera ℝ)).Position = ⟨0, 0, 0⟩ ∧
    specMaxCornerDistance Real.sqrt (⟨0, 0, 0⟩ : Vec3 ℝ)
      (boundingBox (⟨⟨0, 0⟩, ⟨0, 0⟩, ⟨0, 0⟩⟩ : Bounds ℝ)) = 0 ∧
    (ParseCameraNode Real.sqrt (fun z => (4 : ℝ) ^ z) (⟨⟨0, 0⟩, ⟨0, 0⟩, ⟨0, 0⟩⟩ : Bounds ℝ)
      ({ position := some ⟨0, 0, 0⟩ } : CameraNode ℝ) (defaultCamera ℝ)).ClippingRange.Max =
      11 / 1000 ∧
    (ParseCameraNode Real.sqrt (fun z => (4 : ℝ) ^ z) (⟨⟨0, 0⟩, ⟨0, 0⟩, ⟨0, 0⟩⟩ : Bounds ℝ)
      ({ position := some ⟨0, 0, 0⟩ } : CameraNode ℝ) (defaultCamera ℝ)).ClippingRange.Max ≠
      11 / 10 * specMaxCornerDistance Real.sqrt (⟨0, 0, 0⟩ : Vec3 ℝ)
        (boundingBox (⟨⟨0, 0⟩, ⟨0, 0⟩, ⟨0, 0⟩⟩ : Bounds ℝ)) := by
  have hs : specMaxCornerDistance Real.sqrt (⟨0, 0, 0⟩ : Vec3 ℝ)
      (boundingBox (⟨⟨0, 0⟩, ⟨0, 0⟩, ⟨0, 0⟩⟩ : Bounds ℝ)) = 0 := by
    simp [specMaxCornerDistance, boundingBox, Magnitude, Vec3.sub]
  have hp : (applyOverlayFields Real.sqrt (fun z => (4 : ℝ) ^ z)
      ({ position := some ⟨0, 0, 0⟩ } : CameraNode ℝ) (defaultCamera ℝ)).Position =
      ⟨0, 0, 0⟩ := rfl
  have hm : (ParseCameraNode Real.sqrt (fun z => (4 : ℝ) ^ z)
      (⟨⟨0, 0⟩, ⟨0, 0⟩, ⟨0, 0⟩⟩ : Bounds ℝ)
      ({ position := some ⟨0, 0, 0⟩ } : CameraNode ℝ) (defaultCamera ℝ)).ClippingRange.Max =
      11 / 1000 := by
    rw [(ParseCameraNode_ClippingRange _ _ _ _ _).2]
    simp only [hp, maxCornerDistance_eq_max, hs]
    norm_num
  refine ⟨hp, hs, hm, ?_⟩
  rw [hm, hs]
  norm_num

/-- C19 as amended: the clipping range is recomputed from the global bounds after the
positional overlay fields are applied and before the explicit overrides.  An overlay with
`nearplane = n` gives near `n`, an overlay with `farplane = f` gives far `f`; a bound that
is not overridden is the recomputed default: near `0.01`, far `1.1` times the larger of
`0.01` and the maximum corner distance from the overlaid position.  The overrides change
nothing but the clipping range. -/
theorem ParseCameraNode_clipping (sqrt pow4 : K → K) (b : Bounds K) (camera : CameraNode K)
    (base : vtkmCamera K) :
    (∀ n, camera.nearplane = some n →
      (ParseCameraNode sqrt pow4 b camera base).ClippingRange.Min = n) ∧
    (∀ f, camera.farplane = some f →
      (ParseCameraNode sqrt pow4 b camera base).ClippingRange.Max = f) ∧
    (camera.nearplane = none →
      (ParseCameraNode sqrt pow4 b camera base).ClippingRange.Min = 1 / 100) ∧
    (camera.farplane = none →
      (ParseCameraNode sqrt pow4 b camera base).ClippingRange.Max =
        11 / 10 * max (1 / 100) (specMaxCornerDistance sqrt
          (applyOverlayFields sqrt pow4 camera base).Position (boundingBox b))) ∧
    (camera.nearplane = none → camera.farplane = none →
      (ParseCameraNode sqrt pow4 b camera base).ClippingRange =
        (SetDefaultClippingPlane sqrt b
          (applyOverlayFields sqrt pow4 camera base)).ClippingRange) ∧
    (∀ p, camera.position = some p →
      (applyOverlayFields sqrt pow4 camera base).Position = p) ∧
    (camera.position = none →
      (applyOverlayFields sqrt pow4 camera base).Position = base.Position) ∧
    (ParseCameraNode sqrt pow4 b camera base).Position =
      (applyOverlayFields sqrt pow4 camera base).Position := by
  have hc := ParseCameraNode_ClippingRange sqrt pow4 b camera base
  refine ⟨?_, ?_, ?_, ?_, ?_, ?_, (applyOverlayFields_absent sqrt pow4 camera base).2.1,
    (ParseCameraNode_fields sqrt pow4 b camera base).2.1⟩
  · intro n h
    rw [hc.1, h]
  · intro f h
    rw [hc.2, h]
  · intro h
    rw [hc.1, h]
  · intro h
    rw [hc.2, h]
    simp only [maxCornerDistance_eq_max]
    ring
  · intro h1 h2
    unfold ParseCameraNode
    rw [h1, h2]
  · intro p h
    unfold applyOverlayFields
    rw [h]
    cases camera.look_at <;> cases camera.up <;> cases camera.fov <;>
      cases panArguments camera <;> cases camera.zoom <;> rfl

/-- C20, the code departs from the claim: an overlay with only `ypan = 1/2` calls `Pan`
with `(1/2, 0)` instead of `(0, 1/2)`, and an overlay with `xpan = 1/4` and `ypan = 1/2`
calls it with `(1/2, 0)` instead of `(1/4, 1/2)`: the value of `ypan` is stored into the
variable `xpan`.  The camera then has x pan `1/2` and y pan `0`.  An overlay with only
`xpan = 1/4` pans by `(1/4, 0)` as claimed. -/
theorem panArguments_ypan_into_xpan :
    panArguments ({ ypan := some (1 / 2) } : CameraNode ℝ) = some (1 / 2, 0) ∧
    panArguments ({ xpan := some (1 / 4), ypan := some (1 / 2) } : CameraNode ℝ) =
      some (1 / 2, 0) ∧
    panArguments ({ xpan := some (1 / 4) } : CameraNode ℝ) = some (1 / 4, 0) ∧
    (ParseCameraNode Real.sqrt (fun z => (4 : ℝ) ^ z) (⟨⟨0, 1⟩, ⟨0, 1⟩, ⟨0, 1⟩⟩ : Bounds ℝ)
      ({ ypan := some (1 / 2) } : CameraNode ℝ) (defaultCamera ℝ)).XPan = 1 / 2 ∧
    (ParseCameraNode Real.sqrt (fun z => (4 : ℝ) ^ z) (⟨⟨0, 1⟩, ⟨0, 1⟩, ⟨0, 1⟩⟩ : Bounds ℝ)
      ({ ypan := some (1 / 2) } : CameraNode ℝ) (defaultCamera ℝ)).YPan = 0 := by
  refine ⟨by simp [panArguments], by simp [panArguments], by simp [panArguments], ?_, ?_⟩
  · rw [(ParseCameraNode_fields _ _ _ _ _).2.2.2.2.1]
    simp [applyOverlayFields, panArguments, vtkmCamera.Pan, defaultCamera]
  · rw [(ParseCameraNode_fields _ _ _ _ _).2.2.2.2.2.1]
    simp [applyOverlayFields, panArguments, vtkmCamera.Pan, defaultCamera]

end Overlay

/-! ### Reduction of bounds and ranges over the processes -/

section Reduction

variable {K : Type} [LinearOrder K]

theorem foldl_min_spec (vs : List K) (v : K) :
    (∀ u ∈ v :: vs, vs.foldl min v ≤ u) ∧ vs.foldl min v ∈ v :: vs := by
  induction vs generalizing v with
  | nil => exact ⟨fun u hu => by simp at hu; rw [hu]; exact le_rfl, by simp⟩
  | cons w vs ih =>
    obtain ⟨h1, h2⟩ := ih (min v w)
    simp only [List.foldl_cons]
    refine ⟨?_, ?_⟩
    · intro u hu
      rcases List.mem_cons.mp hu with rfl | hu
      · exact le_trans (h1 _ (List.mem_cons_self _ _)) (min_le_left _ _)
      · rcases List.mem_cons.mp hu with rfl | hu
        · exact le_trans (h1 _ (List.mem_cons_self _ _)) (min_le_right _ _)
        · exact h1 _ (List.mem_cons_of_mem _ hu)
    · rcases List.mem_cons.mp h2 with h | h
      · rw [h]
        rcases min_choice v w with e | e <;> rw [e] <;> simp
      · exact List.mem_cons_of_mem _ (List.mem_cons_of_mem _ h)

theorem foldl_max_spec (vs : List K) (v : K) :
    (∀ u ∈ v :: vs, u ≤ vs.foldl max v) ∧ vs.foldl max v ∈ v :: vs := by
  induction vs generalizing v with
  | nil => exact ⟨fun u hu => by simp at hu; rw [hu]; exact le_rfl, by simp⟩
  | cons w vs ih =>
    obtain ⟨h1, h2⟩ := ih (max v w)
    simp only [List.foldl_cons]
    refine ⟨?_, ?_⟩
    · intro u hu
      rcases List.mem_cons.mp hu with rfl | hu
      · exact le_trans (le_max_left _ _) (h1 _ (List.mem_cons_self _ _))
      · rcases List.mem_cons.mp hu with rfl | hu
        · exact le_trans (le_max_right _ _) (h1 _ (List.mem_cons_self _ _))
        · exact h1 _ (List.mem_cons_of_mem _ hu)
    · rcases List.mem_cons.mp h2 with h | h
      · rw [h]
        rcases max_choice v w with e | e <;> rw [e] <;> simp
      · exact List.mem_cons_of_mem _ (List.mem_cons_of_mem _ h)

theorem allreduceMin_spec (recv : K) (vals : List K) (hne : vals ≠ []) :
    (∀ u ∈ vals, allreduceMin recv vals ≤ u) ∧ allreduceMin recv vals ∈ vals := by
  cases vals with
  | nil => exact absurd rfl hne
  | cons v vs => exact foldl_min_spec vs v

theorem allreduceMax_spec (recv : K) (vals : List K) (hne : vals ≠ []) :
    (∀ u ∈ vals, u ≤ allreduceMax recv vals) ∧ allreduceMax recv vals ∈ vals := by
  cases vals with
  | nil => exact absurd rfl hne
  | cons v vs => exact foldl_max_spec vs v

theorem allreduceMin_map {α : Type} (recv : K) (f : α → K) (ls : List α) (hne : ls ≠ []) :
    (∀ l ∈ ls, allreduceMin recv (ls.map f) ≤ f l) ∧
    ∃ l ∈ ls, allreduceMin recv (ls.map f) = f l := by
  obtain ⟨h1, h2⟩ := allreduceMin_spec recv (ls.map f) (by simpa using hne)
  refine ⟨fun l hl => h1 _ (List.mem_map_of_mem f hl), ?_⟩
  obtain ⟨l, hl, e⟩ := List.mem_map.mp h2
  exact ⟨l, hl, e.symm⟩

theorem allreduceMax_map {α : Type} (recv : K) (f : α → K) (ls : List α) (hne : ls ≠ []) :
    (∀ l ∈ ls, f l ≤ allreduceMax recv (ls.map f)) ∧
    ∃ l ∈ ls, allreduceMax recv (ls.map f) = f l := by
  obtain ⟨h1, h2⟩ := allreduceMax_spec recv (ls.map f) (by simpa using hne)
  refine ⟨fun l hl => h1 _ (List.mem_map_of_mem f hl), ?_⟩
  obtain ⟨l, hl, e⟩ := List.mem_map.mp h2
  exact ⟨l, hl, e.symm⟩

theorem allreduceMin_perm {α : Type} (recv : K) (f : α → K) (l1 l2 : List α)
    (hp : l1.Perm l2) (hne : l2 ≠ []) :
    allreduceMin recv (l1.map f) = allreduceMin recv (l2.map f) := by
  have hne1 : l1 ≠ [] := fun h => hne (by rw [h] at hp; exact hp.symm.eq_nil)
  obtain ⟨a1, l, hl, e⟩ := allreduceMin_map recv f l1 hne1
  obtain ⟨a2, m, hm, e2⟩ := allreduceMin_map recv f l2 hne
  apply le_antisymm
  · rw [e2]
    exact a1 m (hp.mem_iff.mpr hm)
  · rw [e]
    exact a2 l (hp.mem_iff.mp hl)

theorem allreduceMax_perm {α : Type} (recv : K) (f : α → K) (l1 l2 : List α)
    (hp : l1.Perm l2) (hne : l2 ≠ []) :
    allreduceMax recv (l1.map f) = allreduceMax recv (l2.map f) := by
  have hne1 : l1 ≠ [] := fun h => hne (by rw [h] at hp; exact hp.symm.eq_nil)
  obtain ⟨a1, l, hl, e⟩ := allreduceMax_map recv f l1 hne1
  obtain ⟨a2, m, hm, e2⟩ := allreduceMax_map recv f l2 hne
  apply le_antisymm
  · rw [e]
    exact a2 l (hp.mem_iff.mp hl)
  · rw [e2]
    exact a1 m (hp.mem_iff.mpr hm)

variable [Zero K]

/-- C21: for a non-empty set of per-process bounding boxes the reduced global box has on
each axis the minimum of the local minima and the maximum of the local maxima (each is a
lower or upper bound and is attained); it contains every local box and lies within every
box that does; it does not depend on the order of the processes; it satisfies
`min <= max` on each axis when every local box does.  The reduced scalar range has the
same properties. -/
theorem reduceSpatialBounds_smallest_box (locals : List (Bounds K)) (hne : locals ≠ []) :
    (∀ l ∈ locals, boxContains (reduceSpatialBounds locals) l) ∧
    ((∃ l ∈ locals, (reduceSpatialBounds locals).X.Min = l.X.Min) ∧
     (∃ l ∈ locals, (reduceSpatialBounds locals).X.Max = l.X.Max) ∧
     (∃ l ∈ locals, (reduceSpatialBounds locals).Y.Min = l.Y.Min) ∧
     (∃ l ∈ locals, (reduceSpatialBounds locals).Y.Max = l.Y.Max) ∧
     (∃ l ∈ locals, (reduceSpatialBounds locals).Z.Min = l.Z.Min) ∧
     (∃ l ∈ locals, (reduceSpatialBounds locals).Z.Max = l.Z.Max)) ∧
    (∀ B : Bounds K, (∀ l ∈ locals, boxContains B l) →
      boxContains B (reduceSpatialBounds locals)) ∧
    (∀ locals2 : List (Bounds K), locals2.Perm locals →
      reduceSpatialBounds locals2 = reduceSpatialBounds locals) ∧
    ((∀ l ∈ locals, l.X.Min ≤ l.X.Max ∧ l.Y.Min ≤ l.Y.Max ∧ l.Z.Min ≤ l.Z.Max) →
      (reduceSpatialBounds locals).X.Min ≤ (reduceSpatialBounds locals).X.Max ∧
      (reduceSpatialBounds locals).Y.Min ≤ (reduceSpatialBounds locals).Y.Max ∧
      (reduceSpatialBounds locals).Z.Min ≤ (reduceSpatialBounds locals).Z.Max) ∧
    (∀ ranges : List (Range K), ranges ≠ [] →
      (∀ r ∈ ranges, (SetParallelPlotExtents ranges).Min ≤ r.Min ∧
        r.Max ≤ (SetParallelPlotExtents ranges).Max) ∧
      (∃ r ∈ ranges, (SetParallelPlotExtents ranges).Min = r.Min) ∧
      (∃ r ∈ ranges, (SetParallelPlotExtents ranges).Max = r.Max) ∧
      (∀ ranges2 : List (Range K), ranges2.Perm ranges →
        SetParallelPlotExtents ranges2 = SetParallelPlotExtents ranges)) := by
  have xmin := allreduceMin_map (0 : K) (fun l : Bounds K => l.X.Min) locals hne
  have xmax := allreduceMax_map (0 : K) (fun l : Bounds K => l.X.Max) locals hne
  have ymin := allreduceMin_map (0 : K) (fun l : Bounds K => l.Y.Min) locals hne
  have ymax := allreduceMax_map (0 : K) (fun l : Bounds K => l.Y.Max) locals hne
  have zmin := allreduceMin_map (0 : K) (fun l : Bounds K => l.Z.Min) locals hne
  have zmax := allreduceMax_map (0 : K) (fun l : Bounds K => l.Z.Max) locals hne
  refine ⟨?_, ⟨xmin.2, xmax.2, ymin.2, ymax.2, zmin.2, zmax.2⟩, ?_, ?_, ?_, ?_⟩
  · intro l hl
    exact ⟨xmin.1 l hl, xmax.1 l hl, ymin.1 l hl, ymax.1 l hl, zmin.1 l hl, zmax.1 l hl⟩
  · intro B hB
    obtain ⟨l1, h1, e1⟩ := xmin.2
    obtain ⟨l2, h2, e2⟩ := xmax.2
    obtain ⟨l3, h3, e3⟩ := ymin.2
    obtain ⟨l4, h4, e4⟩ := ymax.2
    obtain ⟨l5, h5, e5⟩ := zmin.2
    obtain ⟨l6, h6, e6⟩ := zmax.2
    refine ⟨?_, ?_, ?_, ?_, ?_, ?_⟩
    · show B.X.Min ≤ allreduceMin 0 _
      rw [e1]
      exact (hB l1 h1).1
    · show allreduceMax 0 _ ≤ B.X.Max
      rw [e2]
      exact (hB l2 h2).2.1
    · show B.Y.Min ≤ allreduceMin 0 _
      rw [e3]
      exact (hB l3 h3).2.2.1
    · show allreduceMax 0 _ ≤ B.Y.Max
      rw [e4]
      exact (hB l4 h4).2.2.2.1
    · show B.Z.Min ≤ allreduceMin 0 _
      rw [e5]
      exact (hB l5 h5).2.2.2.2.1
    · show allreduceMax 0 _ ≤ B.Z.Max
      rw [e6]
      exact (hB l6 h6).2.2.2.2.2
  · intro locals2 hp
    unfold reduceSpatialBounds
    rw [allreduceMin_perm 0 _ _ _ hp hne, allreduceMax_perm 0 _ _ _ hp hne,
      allreduceMin_perm 0 (fun l : Bounds K => l.Y.Min) _ _ hp hne,
      allreduceMax_perm 0 (fun l : Bounds K => l.Y.Max) _ _ hp hne,
      allreduceMin_perm 0 (fun l : Bounds K => l.Z.Min) _ _ hp hne,
      allreduceMax_perm 0 (fun l : Bounds K => l.Z.Max) _ _ hp hne]
  · intro hv
    obtain ⟨l, hl⟩ := List.exists_mem_of_ne_nil locals hne
    exact ⟨le_trans (xmin.1 l hl) (le_trans (hv l hl).1 (xmax.1 l hl)),
      le_trans (ymin.1 l hl) (le_trans (hv l hl).2.1 (ymax.1 l hl)),
      le_trans (zmin.1 l hl) (le_trans (hv l hl).2.2 (zmax.1 l hl))⟩
  · intro ranges hr
    have rmin := allreduceMin_map (0 : K) (fun r : Range K => r.Min) ranges hr
    have rmax := allreduceMax_map (0 : K) (fun r : Range K => r.Max) ranges hr
    refine ⟨fun r h => ⟨rmin.1 r h, rmax.1 r h⟩, rmin.2, rmax.2, ?_⟩
    intro ranges2 hp
    unfold SetParallelPlotExtents
    rw [allreduceMin_perm 0 _ _ _ hp hr, allreduceMax_perm 0 _ _ _ hp hr]

/-- Witness for C21: two processes with the boxes `[0,1] x [0,2] x [0,3]` and
`[1,4] x [-1,1] x [2,5]` over the integers. -/
theorem reduceSpatialBounds_smallest_box_witness :
    reduceSpatialBounds
      [(⟨⟨0, 1⟩, ⟨0, 2⟩, ⟨0, 3⟩⟩ : Bounds ℤ), ⟨⟨1, 4⟩, ⟨-1, 1⟩, ⟨2, 5⟩⟩] =
      ⟨⟨0, 4⟩, ⟨-1, 2⟩, ⟨0, 5⟩⟩ ∧
    boxContains (reduceSpatialBounds
      [(⟨⟨0, 1⟩, ⟨0, 2⟩, ⟨0, 3⟩⟩ : Bounds ℤ), ⟨⟨1, 4⟩, ⟨-1, 1⟩, ⟨2, 5⟩⟩])
      (⟨⟨1, 4⟩, ⟨-1, 1⟩, ⟨2, 5⟩⟩ : Bounds ℤ) :=
  ⟨by decide,
    (reduceSpatialBounds_smallest_box
      [(⟨⟨0, 1⟩, ⟨0, 2⟩, ⟨0, 3⟩⟩ : Bounds ℤ), ⟨⟨1, 4⟩, ⟨-1, 1⟩, ⟨2, 5⟩⟩]
      (by simp)).1 _ (by simp)⟩

end Reduction

/-! ### Process count of the parallel constructor -/

theorem land_pred_eq_zero_iff (n : Nat) (hn : n ≠ 0) :
    n &&& (n - 1) = 0 ↔ ∃ k, n = 2 ^ k := by
  constructor
  · intro h
    refine ⟨Nat.log 2 n, ?_⟩
    have hle := Nat.pow_log_le_self 2 hn
    have hlt := Nat.lt_pow_succ_log_self (by decide : 1 < 2) n
    generalize Nat.log 2 n = k at hle hlt ⊢
    by_contra hne
    rw [Nat.pow_succ] at hlt
    obtain ⟨r, hr⟩ : ∃ r, n = 2 ^ k + r := ⟨n - 2 ^ k, by omega⟩
    have hr0 : 0 < r := by omega
    have hr2 : r < 2 ^ k := by omega
    have e2 : n - 1 = 2 ^ k + (r - 1) := by omega
    have t1 : n.testBit k = true := by
      rw [hr, Nat.testBit_two_pow_add_eq, Nat.testBit_lt_two_pow hr2]
      rfl
    have t2 : (n - 1).testBit k = true := by
      rw [e2, Nat.testBit_two_pow_add_eq, Nat.testBit_lt_two_pow (by omega)]
      rfl
    have t3 : (n &&& (n - 1)).testBit k = true := by
      rw [Nat.testBit_and, t1, t2]
      rfl
    rw [h, Nat.zero_testBit] at t3
    exact Bool.false_ne_true t3
  · rintro ⟨k, rfl⟩
    rw [Nat.and_pow_two_sub_one_eq_mod, Nat.mod_self]

/-- C24: the test `(n != 0 && !(n & (n - 1)))` of the parallel constructor is true exactly
when the process count `n` is a power of two, so the fatal error "Number of ranks specified
is not a power of two" is raised if and only if `n` is not a power of two. -/
theorem checkRankCount_error_iff (n : Nat) :
    (powerOfTwoTest n = true ↔ ∃ k, n = 2 ^ k) ∧
    (checkRankCount n = .error "Number of ranks specified is not a power of two" ↔
      ¬ ∃ k, n = 2 ^ k) ∧
    (checkRankCount n = .ok () ↔ ∃ k, n = 2 ^ k) := by
  have htest : powerOfTwoTest n = true ↔ ∃ k, n = 2 ^ k := by
    unfold powerOfTwoTest
    by_cases hn : n = 0
    · subst hn
      simp only [bne_self_eq_false, Bool.false_and, Bool.false_eq_true, false_iff]
      rintro ⟨k, hk⟩
      exact absurd hk.symm (Nat.pos_pow_of_pos k (by decide)).ne'
    · rw [← land_pred_eq_zero_iff n hn]
      simp [hn]
  refine ⟨htest, ?_, ?_⟩
  · unfold checkRankCount
    rw [← htest]
    cases powerOfTwoTest n <;> simp
  · unfold checkRankCount
    rw [← htest]
    cases powerOfTwoTest n <;> simp

/-! ### Performance model and local depth -/

section DepthAndModelFacts

variable {K : Type} [LinearOrderedField K]

/-- C22: the prediction computed from the metrics of one image is
`c0 + c1 * samplesPerRay * activePixels + c2 * activePixels * cellDimX` with
`c0 = 0.05710758`, `c1 = 0.00000000191089373032`, `c2 = 0.00000000017873584382`, where
`samplesPerRay` is the average ray distance divided by `|globalExtent| / 1000` and
`cellDimX` is the structured cell count on the first axis, and 0 for an unstructured data
set, for which the third term vanishes. -/
theorem predTime_formula (sqrt : K → K) (info : DataSetInfo K) (image_height image_width : Int)
    (m_local_bounds m_spatial_bounds : Bounds K) :
    (GetModelInfo sqrt info image_height image_width m_local_bounds m_spatial_bounds).get
      "samples_per_ray" =
      info.ave_ray_dist / (Magnitude sqrt (totalExtent m_spatial_bounds) / 1000) ∧
    (GetModelInfo sqrt info image_height image_width m_local_bounds m_spatial_bounds).get
      "active_pixels" = (info.active_pixels : K) ∧
    (GetModelInfo sqrt info image_height image_width m_local_bounds m_spatial_bounds).get
      "cell_dim_x" = (if info.is_structured then (info.cell_dims.1 : K) else 0) ∧
    predTime (GetModelInfo sqrt info image_height image_width m_local_bounds
        m_spatial_bounds) =
      5710758 / 100000000 +
      191089373032 / 100000000000000000000 *
        (info.ave_ray_dist / (Magnitude sqrt (totalExtent m_spatial_bounds) / 1000)) *
        (info.active_pixels : K) +
      17873584382 / 100000000000000000000 * (info.active_pixels : K) *
        (if info.is_structured then (info.cell_dims.1 : K) else 0) ∧
    (info.is_structured = false →
      predTime (GetModelInfo sqrt info image_height image_width m_local_bounds
          m_spatial_bounds) =
        5710758 / 100000000 +
        191089373032 / 100000000000000000000 *
          (info.ave_ray_dist / (Magnitude sqrt (totalExtent m_spatial_bounds) / 1000)) *
          (info.active_pixels : K)) := by
  have h1 : (GetModelInfo sqrt info image_height image_width m_local_bounds
      m_spatial_bounds).get "samples_per_ray" =
      info.ave_ray_dist / (Magnitude sqrt (totalExtent m_spatial_bounds) / 1000) := by
    simp [GetModelInfo, ModelData.get, ModelData.set, List.lookup]
  have h2 : (GetModelInfo sqrt info image_height image_width m_local_bounds
      m_spatial_bounds).get "active_pixels" = (info.active_pixels : K) := by
    cases hs : info.is_structured <;>
      simp +decide [GetModelInfo, ModelData.get, ModelData.set, List.lookup, List.filter, hs]
  have h3 : (GetModelInfo sqrt info image_height image_width m_local_bounds
      m_spatial_bounds).get "cell_dim_x" =
      (if info.is_structured then (info.cell_dims.1 : K) else 0) := by
    cases hs : info.is_structured <;>
      simp +decide [GetModelInfo, ModelData.get, ModelData.set, List.lookup, List.filter, hs]
  have h4 : predTime (GetModelInfo sqrt info image_height image_width m_local_bounds
        m_spatial_bounds) =
      5710758 / 100000000 +
      191089373032 / 100000000000000000000 *
        (info.ave_ray_dist / (Magnitude sqrt (totalExtent m_spatial_bounds) / 1000)) *
        (info.active_pixels : K) +
      17873584382 / 100000000000000000000 * (info.active_pixels : K) *
        (if info.is_structured then (info.cell_dims.1 : K) else 0) := by
    unfold predTime
    simp only [h1, h2, h3]
    ring
  refine ⟨h1, h2, h3, h4, ?_⟩
  intro hs
  rw [h4, hs]
  simp

theorem foldl_stdMin_le_init (f : Vec3 K → K) (cs : List (Vec3 K)) (a : K) :
    cs.foldl (fun m c => stdMin m (f c)) a ≤ a := by
  induction cs generalizing a with
  | nil => exact le_rfl
  | cons c cs ih =>
    simp only [List.foldl_cons]
    refine le_trans (ih _) ?_
    unfold stdMin
    split_ifs with h
    · exact h.le
    · exact le_rfl

theorem foldl_stdMin_le_mem (f : Vec3 K → K) (cs : List (Vec3 K)) (a : K) (c : Vec3 K)
    (hc : c ∈ cs) : cs.foldl (fun m c => stdMin m (f c)) a ≤ f c := by
  induction cs generalizing a with
  | nil => cases hc
  | cons d cs ih =>
    simp only [List.foldl_cons]
    rcases List.mem_cons.mp hc with rfl | h
    · refine le_trans (foldl_stdMin_le_init f cs _) ?_
      unfold stdMin
      split_ifs with h
      · exact le_rfl
      · exact not_lt.mp h
    · exact ih _ h

theorem foldl_stdMin_attained (f : Vec3 K → K) (cs : List (Vec3 K)) (a : K) :
    cs.foldl (fun m c => stdMin m (f c)) a = a ∨
      ∃ c ∈ cs, cs.foldl (fun m c => stdMin m (f c)) a = f c := by
  induction cs generalizing a with
  | nil => exact Or.inl rfl
  | cons d cs ih =>
    simp only [List.foldl_cons]
    rcases ih (stdMin a (f d)) with h | ⟨c, hc, h⟩
    · unfold stdMin at h ⊢
      split_ifs at h ⊢ with hlt
      · exact Or.inr ⟨d, List.mem_cons_self _ _, h⟩
      · exact Or.inl h
    · exact Or.inr ⟨c, List.mem_cons_of_mem _ hc, h⟩

/-- C27: for every local bounding box and view matrix, the local depth is at most the
negated view-space depth `-(z'/w')` of every one of the 8 corners, and it is attained by a
corner, so it is the minimum over the corners, provided the depth of some corner is a
`float`, that is at most the largest `float` with which `minz` starts. -/
theorem ComputeLocalDepth_is_min (view_matrix : Mat4 K) (localBounds : Bounds K)
    (hfloat : ∃ c ∈ boundingBox localBounds, viewDepth view_matrix c ≤ FLT_MAX) :
    (boundingBox localBounds).length = 8 ∧
    (∀ c ∈ boundingBox localBounds,
      ComputeLocalDepth view_matrix localBounds ≤ viewDepth view_matrix c) ∧
    (∃ c ∈ boundingBox localBounds,
      ComputeLocalDepth view_matrix localBounds = viewDepth view_matrix c) ∧
    (∀ c ∈ boundingBox localBounds, viewDepth view_matrix c =
      -((view_matrix 2 0 * c.x + view_matrix 2 1 * c.y + view_matrix 2 2 * c.z +
          view_matrix 2 3 * 1) /
        (view_matrix 3 0 * c.x + view_matrix 3 1 * c.y + view_matrix 3 2 * c.z +
          view_matrix 3 3 * 1))) := by
  refine ⟨rfl, fun c hc => foldl_stdMin_le_mem _ _ _ c hc, ?_, fun c _ => rfl⟩
  rcases foldl_stdMin_attained (viewDepth view_matrix) (boundingBox localBounds) FLT_MAX with
    h | h
  · obtain ⟨c, hc, hle⟩ := hfloat
    refine ⟨c, hc, le_antisymm (foldl_stdMin_le_mem _ _ _ c hc) ?_⟩
    show viewDepth view_matrix c ≤ ComputeLocalDepth view_matrix localBounds
    unfold ComputeLocalDepth
    rw [h]
    exact hle
  · exact h

/-- Witness for C27: the unit cube under the view matrix of a camera at `(0, 0, 5)` that
looks down the negative z axis; the corner `(0, 0, 1)` has depth 4. -/
theorem ComputeLocalDepth_is_min_witness :
    ComputeLocalDepth (K := ℚ) ![![1, 0, 0, 0], ![0, 1, 0, 0], ![0, 0, 1, -5], ![0, 0, 0, 1]]
      ⟨⟨0, 1⟩, ⟨0, 1⟩, ⟨0, 1⟩⟩ ≤
      viewDepth (K := ℚ) ![![1, 0, 0, 0], ![0, 1, 0, 0], ![0, 0, 1, -5], ![0, 0, 0, 1]]
        ⟨0, 0, 1⟩ :=
  (ComputeLocalDepth_is_min (K := ℚ)
    ![![1, 0, 0, 0], ![0, 1, 0, 0], ![0, 0, 1, -5], ![0, 0, 0, 1]] ⟨⟨0, 1⟩, ⟨0, 1⟩, ⟨0, 1⟩⟩
    ⟨⟨0, 0, 1⟩, by simp [boundingBox], by
      simp only [viewDepth, FLT_MAX]
      norm_num [Matrix.cons_val_two, Matrix.cons_val_three]⟩).2.1 ⟨0, 0, 1⟩
    (by simp [boundingBox])

end DepthAndModelFacts

/-! ### The start of a render call -/

section RenderCallFacts

variable {K : Type} [LinearOrderedField K]

/-- A dirty request of a dimensionality other than 2 and 3 whose image count can be computed
is stopped by `InitRendering`. -/
theorem RenderInit_rejects_dims (sqrt tan pow4 sin cos : K → K) (pi_180 : K)
    (fmt : K → String) (b : Bounds K) (req : RenderRequest) (image_name : String)
    (st : RendererState K) (h2 : req.dims ≠ 2) (h3 : req.dims ≠ 3)
    (hdirty : req.mode ≠ st.m_last_render.m_render_type ∨
      req.dims ≠ st.m_last_render.m_plot_dims)
    (hcount : ∃ n, CountImages st.m_camera = .ok n) :
    RenderInit sqrt tan b req st =
      .error "VTKM rendering currently only supports 2D and 3D" ∧
    RenderSetup sqrt tan pow4 sin cos pi_180 fmt b req image_name st =
      .error "VTKM rendering currently only supports 2D and 3D" := by
  obtain ⟨n, hn⟩ := hcount
  have hflag : (Evaluate st.m_last_render req n).render_dirty = true := by
    unfold Evaluate
    rcases hdirty with h | h
    · by_cases hd : req.dims = st.m_last_render.m_plot_dims <;> simp [h, hd]
    · simp [h]
  have hinit : RenderInit sqrt tan b req st =
      .error "VTKM rendering currently only supports 2D and 3D" := by
    unfold RenderInit trackRender
    simp only [hn, hflag, if_true]
    unfold InitRendering
    simp [h2, h3]
  refine ⟨hinit, ?_⟩
  unfold RenderSetup
  rw [hinit]

theorem RenderInit_count_error (sqrt tan pow4 sin cos : K → K) (pi_180 : K)
    (fmt : K → String) (b : Bounds K) (req : RenderRequest) (image_name : String)
    (st : RendererState K) (e : String) (he : CountImages st.m_camera = .error e) :
    RenderInit sqrt tan b req st = .error e ∧
    RenderSetup sqrt tan pow4 sin cos pi_180 fmt b req image_name st = .error e := by
  have hinit : RenderInit sqrt tan b req st = .error e := by
    unfold RenderInit trackRender
    simp only [he]
  refine ⟨hinit, ?_⟩
  unfold RenderSetup
  rw [hinit]

theorem RenderInit_ok_last (sqrt tan : K → K) (b : Bounds K) (req : RenderRequest)
    (st st1 : RendererState K) (n : Int) (h : RenderInit sqrt tan b req st = .ok (st1, n)) :
    st1.m_last_render.m_plot_dims = req.dims := by
  unfold RenderInit trackRender at h
  cases hc : CountImages st.m_camera with
  | error e => simp [hc] at h
  | ok k =>
    simp only [hc] at h
    by_cases hf : (Evaluate st.m_last_render req k).render_dirty = true
    · simp only [hf, if_true] at h
      cases hi : InitRendering req.dims st.m_camera st.m_images with
      | error e => simp [hi] at h
      | ok imgs =>
        simp only [hi, Except.ok.injEq, Prod.mk.injEq] at h
        rw [← h.1]
        rfl
    · rw [if_neg hf] at h
      simp only [Except.ok.injEq, Prod.mk.injEq] at h
      rw [← h.1]
      rfl

theorem RenderCameras_ok_last (sqrt pow4 sin cos : K → K) (pi_180 : K) (fmt : K → String)
    (b : Bounds K) (image_name : String) (st st1 : RendererState K)
    (h : RenderCameras sqrt pow4 sin cos pi_180 fmt b image_name st = .ok st1) :
    st1.m_last_render = st.m_last_render := by
  unfold RenderCameras at h
  dsimp only at h
  split at h
  · simp at h
  · simp only [Except.ok.injEq] at h
    rw [← h]

/-- A completed call from a stored state of dimensionality 2 or 3 leaves a stored state of
dimensionality 2 or 3. -/
theorem RenderSetup_keeps_valid_dims (sqrt tan pow4 sin cos : K → K) (pi_180 : K)
    (fmt : K → String) (b : Bounds K) (req : RenderRequest) (image_name : String)
    (st st1 : RendererState K)
    (hstored : st.m_last_render.m_plot_dims = 2 ∨ st.m_last_render.m_plot_dims = 3)
    (hrun : RenderSetup sqrt tan pow4 sin cos pi_180 fmt b req image_name st = .ok st1) :
    st1.m_last_render.m_plot_dims = 2 ∨ st1.m_last_render.m_plot_dims = 3 := by
  have hreq : req.dims = 2 ∨ req.dims = 3 := by
    by_contra hne
    have h2 : req.dims ≠ 2 := fun h => hne (Or.inl h)
    have h3 : req.dims ≠ 3 := fun h => hne (Or.inr h)
    have hdirty : req.mode ≠ st.m_last_render.m_render_type ∨
        req.dims ≠ st.m_last_render.m_plot_dims := by
      right
      rcases hstored with h | h <;> rw [h] <;> assumption
    cases hc : CountImages st.m_camera with
    | error e =>
      rw [(RenderInit_count_error sqrt tan pow4 sin cos pi_180 fmt b req image_name st e
        hc).2] at hrun
      cases hrun
    | ok n =>
      rw [(RenderInit_rejects_dims sqrt tan pow4 sin cos pi_180 fmt b req image_name st h2 h3
        hdirty ⟨n, hc⟩).2] at hrun
      cases hrun
  have hlast : st1.m_last_render.m_plot_dims = req.dims := by
    unfold RenderSetup at hrun
    cases hri : RenderInit sqrt tan b req st with
    | error e => simp [hri] at hrun
    | ok p =>
      obtain ⟨s, n⟩ := p
      simp only [hri] at hrun
      rw [RenderCameras_ok_last sqrt pow4 sin cos pi_180 fmt b image_name s st1 hrun]
      exact RenderInit_ok_last sqrt tan b req st s n hri
  rw [hlast]
  exact hreq

/-- C28, the code departs from the claim: the stored state is a 3D volume render with one
image and `m_images` holds one entry; the next request keeps mode and dimensionality but
has a cinema camera with `phi = 2`, `theta = 2`, so the image count is 4.  The flag
`image_count_dirty` is raised and `render_dirty` is not, `InitRendering` is not called, and
`m_images` still holds one entry when the canvas loop runs over `i < 4`; `SetupCameras`
then fails with the internal error about the number of images. -/
theorem RenderInit_keeps_image_array :
    Evaluate ⟨.VOLUME, 3, 512, 512, 1⟩ ⟨512, 512, .VOLUME, 3⟩ 4 = ⟨false, true⟩ ∧
    (∃ st1, RenderInit Real.sqrt Real.tan (⟨⟨0, 1⟩, ⟨0, 1⟩, ⟨0, 1⟩⟩ : Bounds ℝ)
      ⟨512, 512, .VOLUME, 3⟩
      { m_vtkm_camera := defaultCamera ℝ,
        m_camera := { type := some "cinema", phi := some 2, theta := some 2 },
        m_last_render := ⟨.VOLUME, 3, 512, 512, 1⟩, m_render_type := .VOLUME,
        m_images := [⟨defaultCamera ℝ, ""⟩] } = .ok (st1, 4) ∧
      st1.m_images.length = 1) ∧
    RenderSetup Real.sqrt Real.tan (fun z => (4 : ℝ) ^ z) Real.sin Real.cos
      (Real.pi / 180) (fun _ => "") (⟨⟨0, 1⟩, ⟨0, 1⟩, ⟨0, 1⟩⟩ : Bounds ℝ)
      ⟨512, 512, .VOLUME, 3⟩ "image"
      { m_vtkm_camera := defaultCamera ℝ,
        m_camera := { type := some "cinema", phi := some 2, theta := some 2 },
        m_last_render := ⟨.VOLUME, 3, 512, 512, 1⟩, m_render_type := .VOLUME,
        m_images := [⟨defaultCamera ℝ, ""⟩] } =
      .error "Internal error: number of images does not match m_images" :=
  ⟨rfl, ⟨_, rfl, rfl⟩, rfl⟩

theorem SetDefaultCameraView_XPan (sqrt tan : K → K) (b : Bounds K) (cam : vtkmCamera K) :
    (SetDefaultCameraView sqrt tan b cam).XPan = cam.XPan := by
  unfold SetDefaultCameraView SetDefaultClippingPlane
  cases is2D b <;> rfl

theorem ParseCameraNode_XPan_of_xpan (sqrt pow4 : K → K) (b : Bounds K) (a : K)
    (base : vtkmCamera K) :
    (ParseCameraNode sqrt pow4 b ({ xpan := some a } : CameraNode K) base).XPan =
      base.XPan + a := by
  rw [(ParseCameraNode_fields sqrt pow4 b _ base).2.2.2.2.1]
  simp [applyOverlayFields, panArguments, vtkmCamera.Pan]

/-- C25, the code departs from the claim: two render calls in a row with the identical
request, the identical camera overlay `xpan = 1/2` and the same bounds.  Each call parses the
overlay into the member camera, which keeps its pan from call to call, and parses it once
more into the camera of image 0: the camera of image 0 has x pan `1` after the first call
and `3/2` after the second. -/
theorem RenderSetup_pan_accumulates :
    ∃ st1 st2,
      RenderSetup Real.sqrt Real.tan (fun z => (4 : ℝ) ^ z) Real.sin Real.cos
        (Real.pi / 180) (fun _ => "") (⟨⟨0, 1⟩, ⟨0, 1⟩, ⟨0, 1⟩⟩ : Bounds ℝ)
        ⟨512, 512, .VOLUME, 3⟩ "image"
        { m_vtkm_camera := defaultCamera ℝ, m_camera := { xpan := some (1 / 2) },
          m_last_render := ⟨.RASTERIZER, 2, 0, 0, 0⟩, m_render_type := .RASTERIZER,
          m_images := [] } = .ok st1 ∧
      RenderSetup Real.sqrt Real.tan (fun z => (4 : ℝ) ^ z) Real.sin Real.cos
        (Real.pi / 180) (fun _ => "") (⟨⟨0, 1⟩, ⟨0, 1⟩, ⟨0, 1⟩⟩ : Bounds ℝ)
        ⟨512, 512, .VOLUME, 3⟩ "image" st1 = .ok st2 ∧
      st1.m_images.map (fun i => (i.m_image_name, i.m_camera.XPan)) = [("image", 1)] ∧
      st2.m_images.map (fun i => (i.m_image_name, i.m_camera.XPan)) = [("image", 3 / 2)] := by
  refine ⟨
    { m_vtkm_camera :=
        (ParseCameraNode Real.sqrt (fun z => (4 : ℝ) ^ z) (⟨⟨0, 1⟩, ⟨0, 1⟩, ⟨0, 1⟩⟩ : Bounds ℝ)
          { xpan := some (1 / 2) }
          (SetDefaultCameraView Real.sqrt Real.tan (⟨⟨0, 1⟩, ⟨0, 1⟩, ⟨0, 1⟩⟩ : Bounds ℝ)
            (defaultCamera ℝ))),
      m_camera := { xpan := some (1 / 2) },
      m_last_render := ⟨.VOLUME, 3, 512, 512, 1⟩, m_render_type := .VOLUME,
      m_images := [⟨
        (ParseCameraNode Real.sqrt (fun z => (4 : ℝ) ^ z) (⟨⟨0, 1⟩, ⟨0, 1⟩, ⟨0, 1⟩⟩ : Bounds ℝ)
          { xpan := some (1 / 2) }
          (ParseCameraNode Real.sqrt (fun z => (4 : ℝ) ^ z) (⟨⟨0, 1⟩, ⟨0, 1⟩, ⟨0, 1⟩⟩ : Bounds ℝ)
            { xpan := some (1 / 2) }
            (SetDefaultCameraView Real.sqrt Real.tan (⟨⟨0, 1⟩, ⟨0, 1⟩, ⟨0, 1⟩⟩ : Bounds ℝ)
              (defaultCamera ℝ)))),
        "image"⟩] },
    { m_vtkm_camera :=
        (ParseCameraNode Real.sqrt (fun z => (4 : ℝ) ^ z) (⟨⟨0, 1⟩, ⟨0, 1⟩, ⟨0, 1⟩⟩ : Bounds ℝ)
          { xpan := some (1 / 2) }
          (SetDefaultCameraView Real.sqrt Real.tan (⟨⟨0, 1⟩, ⟨0, 1⟩, ⟨0, 1⟩⟩ : Bounds ℝ)
            (ParseCameraNode Real.sqrt (fun z => (4 : ℝ) ^ z) (⟨⟨0, 1⟩, ⟨0, 1⟩, ⟨0, 1⟩⟩ : Bounds ℝ)
              { xpan := some (1 / 2) }
              (SetDefaultCameraView Real.sqrt Real.tan (⟨⟨0, 1⟩, ⟨0, 1⟩, ⟨0, 1⟩⟩ : Bounds ℝ)
                (defaultCamera ℝ))))),
      m_camera := { xpan := some (1 / 2) },
      m_last_render := ⟨.VOLUME, 3, 512, 512, 1⟩, m_render_type := .VOLUME,
      m_images := [⟨
        (ParseCameraNode Real.sqrt (fun z => (4 : ℝ) ^ z) (⟨⟨0, 1⟩, ⟨0, 1⟩, ⟨0, 1⟩⟩ : Bounds ℝ)
          { xpan := some (1 / 2) }
          (ParseCameraNode Real.sqrt (fun z => (4 : ℝ) ^ z) (⟨⟨0, 1⟩, ⟨0, 1⟩, ⟨0, 1⟩⟩ : Bounds ℝ)
            { xpan := some (1 / 2) }
            (SetDefaultCameraView Real.sqrt Real.tan (⟨⟨0, 1⟩, ⟨0, 1⟩, ⟨0, 1⟩⟩ : Bounds ℝ)
              (ParseCameraNode Real.sqrt (fun z => (4 : ℝ) ^ z) (⟨⟨0, 1⟩, ⟨0, 1⟩, ⟨0, 1⟩⟩ : Bounds ℝ)
                { xpan := some (1 / 2) }
                (SetDefaultCameraView Real.sqrt Real.tan (⟨⟨0, 1⟩, ⟨0, 1⟩, ⟨0, 1⟩⟩ : Bounds ℝ)
                  (defaultCamera ℝ)))))),
        "image"⟩] },
    rfl, rfl, ?_, ?_⟩
  · simp only [List.map_cons, List.map_nil, ParseCameraNode_XPan_of_xpan,
      SetDefaultCameraView_XPan]
    norm_num [defaultCamera]
  · simp only [List.map_cons, List.map_nil, ParseCameraNode_XPan_of_xpan,
      SetDefaultCameraView_XPan]
    norm_num [defaultCamera]

end RenderCallFacts

/-! ### Colour map: control points without a position or of unknown type -/

section ColorMapFacts

variable {K : Type} [LinearOrderedField K]

theorem addControlPoint_unknown_type (fmt : K → String) (fetch_missing : Except String K)
    (s : ColorMapState K) (peg : ControlPointNode K) (p : K) (hp : peg.position = some p)
    (h1 : peg.type ≠ "rgb") (h2 : peg.type ≠ "alpha") :
    ∃ log, addControlPoint fmt fetch_missing s peg = .ok ⟨s.color_map, log⟩ := by
  unfold addControlPoint
  simp only [hp, h1, h2, if_false]
  exact ⟨_, rfl⟩

theorem addControlPoint_missing_position_error (fmt : K → String) (e : String)
    (s : ColorMapState K) (peg : ControlPointNode K) (hp : peg.position = none) :
    addControlPoint fmt (.error e) s peg = .error e := by
  unfold addControlPoint
  simp only [hp]

/-- C26, the code departs from the claim: the control points are an `rgb` point without
`position` followed by an `alpha` point at `1/2`, with no colour map name.  After the warning
"Color map control point must have a position. Ignoring" the loop does not skip the point:
it reads `peg["position"]`.  If that read is an error, the whole call fails with it and the
second point is never processed; if it gives a number `v`, an `rgb` control point at `v` is
added for the point that was to be ignored.  A point of unknown type, in contrast, adds
nothing and the points after it are processed. -/
theorem SetColorMapFromNode_missing_position_not_ignored :
    (∀ e : String,
      SetColorMapFromNode (K := ℚ) (fun _ => "") (.error e) (fun _ => [])
        { control_points := some
            [{ type := "rgb", color := ⟨1, 0, 0⟩, alpha := 0 },
             { position := some (1 / 2), type := "alpha", color := ⟨0, 0, 0⟩, alpha := 1 }] } =
        .error e) ∧
    (∀ v : ℚ, ∃ log,
      SetColorMapFromNode (K := ℚ) (fun _ => "") (.ok v) (fun _ => [])
        { control_points := some
            [{ type := "rgb", color := ⟨1, 0, 0⟩, alpha := 0 },
             { position := some (1 / 2), type := "alpha", color := ⟨0, 0, 0⟩, alpha := 1 }] } =
        .ok ⟨[.rgb v ⟨1, 0, 0⟩, .alpha (1 / 2) 1],
          "Color map control point must have a position. Ignoring" :: log⟩) ∧
    SetColorMapFromNode (K := ℚ) (fun _ => "") (.ok 0) (fun _ => [])
      { control_points := some
          [{ position := some 0, type := "hsv", color := ⟨1, 0, 0⟩, alpha := 0 },
           { position := some 1, type := "rgb", color := ⟨0, 0, 1⟩, alpha := 0 }] } =
      .ok ⟨[.rgb 1 ⟨0, 0, 1⟩], ["Unknown control point type hsv"]⟩ := by
  refine ⟨fun e => rfl, fun v => ?_, ?_⟩
  · by_cases hv : v > 1 ∨ v < 0
    · refine ⟨["Cannot add color map control point position . Must be a normalized scalar."],
        ?_⟩
      simp [SetColorMapFromNode, addControlPoints, addControlPoint, ALPINE_WARN, hv]
      norm_num
    · refine ⟨[], ?_⟩
      simp [SetColorMapFromNode, addControlPoints, addControlPoint, ALPINE_WARN, hv]
      norm_num
  · simp [SetColorMapFromNode, addControlPoints, addControlPoint, ALPINE_WARN]
    decide

end ColorMapFacts

/-! ### Domain decomposition: splitting one division -/

section SplitFacts

open SpatialDivision

theorem toInt32_size (m M : Int) (hcells : 2 ≤ M - m + 1) (hfit : M - m + 1 < 2147483648) :
    toInt32 (toInt32 (M - m) + 1) = M - m + 1 := by
  rw [toInt32_of_fits (M - m) (by omega) (by omega)]
  exact toInt32_of_fits _ (by omega) (by omega)

theorem toInt32_left_max (m M : Int) (hm : -2147483648 ≤ m) (hM : M < 2147483648)
    (hcells : 2 ≤ M - m + 1) (hfit : M - m + 1 < 2147483648) :
    toInt32 (toInt32 (m + toInt32 (Int.tdiv (toInt32 (toInt32 (M - m) + 1)) 2)) - 1) =
      m + (M - m + 1) / 2 - 1 := by
  rw [toInt32_size m M hcells hfit, Int.tdiv_eq_ediv (by omega) (by norm_num)]
  generalize hh : (M - m + 1) / 2 = half
  have h1 : 1 ≤ half := by omega
  have h2 : half ≤ M - m := by omega
  rw [toInt32_of_fits half (by omega) (by omega),
    toInt32_of_fits (m + half) (by omega) (by omega)]
  exact toInt32_of_fits _ (by omega) (by omega)

theorem Split_on_dim (d : SpatialDivision) (dim : Nat)
    (hmin : -2147483648 ≤ d.m_mins.get dim) (hmax : d.m_maxs.get dim < 2147483648)
    (hcells : 2 ≤ d.m_maxs.get dim - d.m_mins.get dim + 1)
    (hfit : d.m_maxs.get dim - d.m_mins.get dim + 1 < 2147483648) :
    (d.Split dim).1.m_mins.get dim = d.m_mins.get dim ∧
    (d.Split dim).1.m_maxs.get dim =
      d.m_mins.get dim + (d.m_maxs.get dim - d.m_mins.get dim + 1) / 2 - 1 ∧
    (d.Split dim).2.m_mins.get dim =
      d.m_mins.get dim + (d.m_maxs.get dim - d.m_mins.get dim + 1) / 2 ∧
    (d.Split dim).2.m_maxs.get dim = d.m_maxs.get dim := by
  have hl := toInt32_left_max _ _ hmin hmax hcells hfit
  refine ⟨rfl, ?_, ?_, rfl⟩
  · simp only [Split, Vec3_get_set_self]
    exact hl
  · simp only [Split, Vec3_get_set_self]
    rw [hl]
    have e : d.m_mins.get dim + (d.m_maxs.get dim - d.m_mins.get dim + 1) / 2 - 1 + 1 =
        d.m_mins.get dim + (d.m_maxs.get dim - d.m_mins.get dim + 1) / 2 := by ring
    rw [e]
    exact toInt32_of_fits _ (by omega) (by omega)

theorem Split_other_dims (d : SpatialDivision) (dim j : Nat) (hdim : dim < 3) (hj : j < 3)
    (hne : j ≠ dim) :
    (d.Split dim).1.m_mins.get j = d.m_mins.get j ∧
    (d.Split dim).1.m_maxs.get j = d.m_maxs.get j ∧
    (d.Split dim).2.m_mins.get j = d.m_mins.get j ∧
    (d.Split dim).2.m_maxs.get j = d.m_maxs.get j := by
  refine ⟨rfl, ?_, ?_, rfl⟩
  · simp only [Split]
    exact Vec3_get_set_ne _ j dim _ hj hdim hne
  · simp only [Split]
    exact Vec3_get_set_ne _ j dim _ hj hdim hne

/-- C29: for every division whose components on `dim` are 32-bit values with at least 2
cells along `dim` and a size `max - min + 1` that fits an `int`, `CanSplit(dim)` holds and
`Split(dim)` leaves the receiver with the range `min .. min + size/2 - 1` and returns the
range `min + size/2 .. max` on `dim`; both halves are non-empty, a cell index lies in the
original range exactly when it lies in one of the halves, never in both, and both halves
keep the original ranges on the other two dimensions. -/
theorem Split_halves (d : SpatialDivision) (dim : Nat) (hdim : dim < 3)
    (hmin : -2147483648 ≤ d.m_mins.get dim) (hmax : d.m_maxs.get dim < 2147483648)
    (hcells : 2 ≤ d.m_maxs.get dim - d.m_mins.get dim + 1)
    (hfit : d.m_maxs.get dim - d.m_mins.get dim + 1 < 2147483648) :
    d.CanSplit dim = true ∧
    (d.Split dim).1.m_mins.get dim = d.m_mins.get dim ∧
    (d.Split dim).1.m_maxs.get dim =
      d.m_mins.get dim + (d.m_maxs.get dim - d.m_mins.get dim + 1) / 2 - 1 ∧
    (d.Split dim).2.m_mins.get dim =
      d.m_mins.get dim + (d.m_maxs.get dim - d.m_mins.get dim + 1) / 2 ∧
    (d.Split dim).2.m_maxs.get dim = d.m_maxs.get dim ∧
    (d.Split dim).1.m_mins.get dim ≤ (d.Split dim).1.m_maxs.get dim ∧
    (d.Split dim).2.m_mins.get dim ≤ (d.Split dim).2.m_maxs.get dim ∧
    (∀ x : Int, (d.m_mins.get dim ≤ x ∧ x ≤ d.m_maxs.get dim) ↔
      (((d.Split dim).1.m_mins.get dim ≤ x ∧ x ≤ (d.Split dim).1.m_maxs.get dim) ∨
       ((d.Split dim).2.m_mins.get dim ≤ x ∧ x ≤ (d.Split dim).2.m_maxs.get dim))) ∧
    (∀ x : Int, ¬ (((d.Split dim).1.m_mins.get dim ≤ x ∧ x ≤ (d.Split dim).1.m_maxs.get dim) ∧
       ((d.Split dim).2.m_mins.get dim ≤ x ∧ x ≤ (d.Split dim).2.m_maxs.get dim))) ∧
    (∀ j, j < 3 → j ≠ dim →
      (d.Split dim).1.m_mins.get j = d.m_mins.get j ∧
      (d.Split dim).1.m_maxs.get j = d.m_maxs.get j ∧
      (d.Split dim).2.m_mins.get j = d.m_mins.get j ∧
      (d.Split dim).2.m_maxs.get j = d.m_maxs.get j) := by
  obtain ⟨a1, a2, a3, a4⟩ := Split_on_dim d dim hmin hmax hcells hfit
  have hcan : d.CanSplit dim = true := by
    unfold CanSplit
    rw [toInt32_size _ _ hcells hfit]
    exact decide_eq_true (by omega)
  refine ⟨hcan, a1, a2, a3, a4, ?_, ?_, ?_, ?_, ?_⟩
  · rw [a1, a2]; omega
  · rw [a3, a4]; omega
  · intro x
    rw [a1, a2, a3, a4]
    omega
  · intro x
    rw [a1, a2, a3, a4]
    omega
  · intro j hj hne
    exact Split_other_dims d dim j hdim hj hne

/-- Witness for C29: the division `0 .. 4` by `0 .. 1` by `0 .. 1` split along dimension 0
gives `0 .. 1` and `2 .. 4`. -/
theorem Split_halves_witness :
    (({ m_mins := ⟨0, 0, 0⟩, m_maxs := ⟨4, 1, 1⟩ } : SpatialDivision).Split 0).1.m_maxs.get 0 =
      0 + (4 - 0 + 1) / 2 - 1 ∧
    (({ m_mins := ⟨0, 0, 0⟩, m_maxs := ⟨4, 1, 1⟩ } : SpatialDivision).Split 0).2.m_mins.get 0 =
      0 + (4 - 0 + 1) / 2 :=
  ⟨(Split_halves { m_mins := ⟨0, 0, 0⟩, m_maxs := ⟨4, 1, 1⟩ } 0 (by decide) (by decide)
      (by decide) (by decide) (by decide)).2.2.1,
   (Split_halves { m_mins := ⟨0, 0, 0⟩, m_maxs := ⟨4, 1, 1⟩ } 0 (by decide) (by decide)
      (by decide) (by decide) (by decide)).2.2.2.1⟩

end SplitFacts

/-! ### Domain decomposition: the loop of `Init` -/

section InitFacts

theorem splitStep_invariant (current_dim : Nat) (s : List SpatialDivision × Nat) (i : Nat) :
    (splitStep current_dim s i).1.length + (splitStep current_dim s i).2 = s.1.length + s.2 ∧
    (splitStep current_dim s i).2 ≤ s.2 := by
  unfold splitStep
  by_cases h0 : s.2 = 0
  · simp [h0]
  · rw [if_neg h0]
    cases hd : s.1[i]? with
    | none => simp
    | some d =>
      by_cases hc : d.CanSplit current_dim = true
      · simp only [hc, Bool.not_true, Bool.false_eq_true, if_false, List.length_append,
          List.length_set, List.length_singleton]
        omega
      · simp [hc]

theorem splitPass_invariant (current_dim current_size : Nat) (divs : List SpatialDivision)
    (avail : Nat) :
    (splitPass current_dim current_size divs avail).1.length +
        (splitPass current_dim current_size divs avail).2 = divs.length + avail ∧
    (splitPass current_dim current_size divs avail).2 ≤ avail := by
  unfold splitPass
  induction current_size with
  | zero => simp
  | succ n ih =>
    rw [List.range_succ, List.foldl_append, List.foldl_cons, List.foldl_nil]
    have h := splitStep_invariant current_dim
      ((List.range n).foldl (splitStep current_dim) (divs, avail)) n
    omega

theorem initStep_invariant (s : InitLoopState) (hm : s.missed_splits ≤ 2) :
    (initStep s).divs.length + (initStep s).avail = s.divs.length + s.avail ∧
    ((initStep s).avail = 0 ∨
      ((initStep s).missed_splits ≤ 2 ∧
        3 * (initStep s).avail + s.missed_splits + 1 ≤
          3 * s.avail + (initStep s).missed_splits)) := by
  have h := splitPass_invariant s.current_dim s.divs.length s.divs s.avail
  unfold initStep
  dsimp only
  by_cases h1 : s.avail = (splitPass s.current_dim s.divs.length s.divs s.avail).2
  · rw [if_pos h1]
    by_cases h2 : s.missed_splits + 1 = 3
    · rw [if_pos h2]
      simp only [List.length_append, List.length_replicate]
      exact ⟨by omega, Or.inl trivial⟩
    · rw [if_neg h2]
      dsimp only
      exact ⟨by omega, Or.inr ⟨by omega, by omega⟩⟩
  · rw [if_neg h1]
    dsimp only
    exact ⟨by omega, Or.inr ⟨by omega, by omega⟩⟩

theorem initLoop_of_avail_zero (fuel : Nat) (s : InitLoopState) (h : s.avail = 0) :
    initLoop fuel s = some s.divs := by
  cases fuel <;> simp [initLoop, h]

theorem initLoop_terminates (n : Nat) :
    ∀ (fuel : Nat) (s : InitLoopState), s.divs.length + s.avail = n → s.missed_splits ≤ 2 →
      3 * s.avail + 2 ≤ fuel + s.missed_splits →
      ∃ divs, initLoop fuel s = some divs ∧ divs.length = n := by
  intro fuel
  induction fuel with
  | zero =>
    intro s hlen hm hfuel
    have h0 : s.avail = 0 := by omega
    exact ⟨s.divs, initLoop_of_avail_zero 0 s h0, by omega⟩
  | succ f ih =>
    intro s hlen hm hfuel
    by_cases h0 : s.avail = 0
    · exact ⟨s.divs, initLoop_of_avail_zero _ s h0, by omega⟩
    · have hpos : s.avail > 0 := Nat.pos_of_ne_zero h0
      obtain ⟨hsum, hstep⟩ := initStep_invariant s hm
      have hunfold : initLoop (f + 1) s = initLoop f (initStep s) := by
        simp [initLoop, hpos]
      rw [hunfold]
      rcases hstep with hz | ⟨hm1, hdec⟩
      · exact ⟨(initStep s).divs, initLoop_of_avail_zero _ _ hz, by omega⟩
      · exact ih (initStep s) (by omega) hm1 (by omega)

theorem initLoop_fuel_mono (fuel : Nat) :
    ∀ (s : InitLoopState) (divs : List SpatialDivision), initLoop fuel s = some divs →
      initLoop (fuel + 1) s = some divs := by
  induction fuel with
  | zero =>
    intro s divs h
    by_cases h0 : s.avail > 0
    · simp [initLoop, h0] at h
    · have hz : s.avail = 0 := by omega
      rw [initLoop_of_avail_zero _ s hz] at h ⊢
      exact h
  | succ f ih =>
    intro s divs h
    by_cases h0 : s.avail > 0
    · have e1 : initLoop (f + 1) s = initLoop f (initStep s) := by simp [initLoop, h0]
      have e2 : initLoop (f + 1 + 1) s = initLoop (f + 1) (initStep s) := by
        simp [initLoop, h0]
      rw [e2]
      rw [e1] at h
      exact ih _ _ h
    · have hz : s.avail = 0 := by omega
      rw [initLoop_of_avail_zero _ s hz] at h ⊢
      exact h

/-- C30: for every `comm_size >= 1` and every initial division, the splitting loop of `Init`
comes to an end within `3 * comm_size` passes (and gives the same list with any larger
number of passes allowed), the list then holds exactly `comm_size` divisions, and for every
`rank < comm_size` the lookup `divs.at(rank)` succeeds, so `Init` returns a division. -/
theorem Init_terminates_with_comm_size_divisions (comm_size : Nat) (div : SpatialDivision)
    (fuel : Nat) (hsize : 1 ≤ comm_size) (hfuel : 3 * comm_size ≤ fuel) :
    ∃ divs, initLoop fuel ⟨[div], comm_size - 1, 0, 0⟩ = some divs ∧
      initLoop (3 * comm_size) ⟨[div], comm_size - 1, 0, 0⟩ = some divs ∧
      divs.length = comm_size ∧
      ∀ rank, rank < comm_size →
        ∃ d, divs[rank]? = some d ∧ Init fuel comm_size rank div = .ok d := by
  obtain ⟨divs, hrun, hlen⟩ := initLoop_terminates comm_size (3 * comm_size)
    ⟨[div], comm_size - 1, 0, 0⟩ (by simp only [List.length_singleton]; omega)
    (by simp) (by simp only; omega)
  have hmono : ∀ k, initLoop (3 * comm_size + k) ⟨[div], comm_size - 1, 0, 0⟩ = some divs := by
    intro k
    induction k with
    | zero => exact hrun
    | succ k ih => exact initLoop_fuel_mono _ _ _ ih
  have hfuel_run : initLoop fuel ⟨[div], comm_size - 1, 0, 0⟩ = some divs := by
    have := hmono (fuel - 3 * comm_size)
    rwa [Nat.add_sub_cancel' hfuel] at this
  refine ⟨divs, hfuel_run, hrun, hlen, ?_⟩
  intro rank hrank
  have hlt : rank < divs.length := by omega
  refine ⟨divs[rank], List.getElem?_eq_getElem hlt, ?_⟩
  unfold Init
  rw [hfuel_run]
  simp only [List.getElem?_eq_getElem hlt]

/-- Witness for C30: two processes and the default division, with 6 passes allowed. -/
theorem Init_terminates_with_comm_size_divisions_witness :
    1 ≤ 2 ∧ 3 * 2 ≤ 6 ∧
    ∃ divs, initLoop 6 ⟨[({} : SpatialDivision)], 2 - 1, 0, 0⟩ = some divs ∧
      initLoop (3 * 2) ⟨[({} : SpatialDivision)], 2 - 1, 0, 0⟩ = some divs ∧
      divs.length = 2 ∧
      ∀ rank, rank < 2 →
        ∃ d, divs[rank]? = some d ∧ Init 6 2 rank ({} : SpatialDivision) = .ok d :=
  ⟨by decide, by decide,
    Init_terminates_with_comm_size_divisions 2 ({} : SpatialDivision) 6 (by decide)
      (by decide)⟩

theorem Init_fills_with_default_divisions :
    initLoop 30 ⟨[({} : SpatialDivision)], 10 - 1, 0, 0⟩ =
      some [⟨⟨0, 0, 0⟩, ⟨0, 0, 0⟩⟩, ⟨⟨1, 0, 0⟩, ⟨1, 0, 0⟩⟩, ⟨⟨0, 1, 0⟩, ⟨0, 1, 0⟩⟩,
        ⟨⟨1, 1, 0⟩, ⟨1, 1, 0⟩⟩, ⟨⟨0, 0, 1⟩, ⟨0, 0, 1⟩⟩, ⟨⟨1, 0, 1⟩, ⟨1, 0, 1⟩⟩,
        ⟨⟨0, 1, 1⟩, ⟨0, 1, 1⟩⟩, ⟨⟨1, 1, 1⟩, ⟨1, 1, 1⟩⟩, {}, {}] ∧
    Init 30 10 9 ({} : SpatialDivision) = .ok {} :=
  ⟨by decide, by rfl⟩

end InitFacts

/-! ### Cinema sweep: image names -/

section CinemaNames

variable {K : Type} [LinearOrderedField K]

end CinemaNames

end Alpine
